import Mathlib

/-!
# Reliable transport of er-coap: the transaction layer

A shallow embedding of `er-coap-transactions.c` (Contiki, with the COCOA
additions of this repository) and the properties its specification states.

* Pointers to transactions are slot numbers of `transactions_memb`; the NULL
  pointer is `none`.
* The module's static variables are the fields of `State`.
* What the module sends to its collaborators (datagrams, the observer hook,
  completion callbacks, timer arming) is appended to `State.trace`.
* Console output (`PRINTF`, `printf`) is not modelled.
-/

set_option autoImplicit false

namespace CoapTransactions

/-! ## Data model -/

/-- The `struct timer` of the host: start tick and interval, both of type
`clock_time_t`. -/
structure timer where
  start : Nat
  interval : Nat
deriving DecidableEq, Repr

/-- The `struct etimer` of the host: a timer and the process `p` that is to
receive the expiry event. `p = none` is `PROCESS_NONE`. -/
structure etimer where
  timer : timer
  p : Option Nat
deriving DecidableEq, Repr

/-- Modelled from the spec: the record `coap_transaction_t`, declared in
er-coap-transactions.h (not among the sources). The fields are the ones that
er-coap-transactions.c reads and writes; `callback = none` is a NULL function
pointer. The retransmit count is a natural number ("retransmit count
(0..MAX_RETRANSMIT)"); the link field `next` is kept by the list, see
`list_item_next`. -/
structure coap_transaction_t where
  mid : Nat
  retrans_timer : etimer
  retrans_counter : Nat
  addr : Nat
  port : Nat
  rto : Nat
  timestamp : Nat
  callback : Option Nat
  callback_data : Nat
  packet_len : Nat
  packet : List Nat
deriving DecidableEq, Repr

/-- Modelled from the spec: the record `coap_rtt_estimations_t` (declared
outside the sources): "peer address, smoothed RTT, RTT variance, last sample,
last-updated time". -/
structure coap_rtt_estimations_t where
  addr : Nat
  rtt : Nat
  rttvar : Nat
  srtt : Nat
  lastupdated : Nat
deriving DecidableEq, Repr

/-- The build-time configuration: the constants and the helper that
er-coap-transactions.c takes from headers and files that are not among the
sources. `COCOA` says whether the `#ifdef COCOA` parts are compiled in,
`clock_time_bits` is the width of `clock_time_t`, and
`coap_update_rtt_estimation` gives the entry as the helper leaves it together
with the value it returns. -/
structure Config where
  COCOA : Bool
  COAP_MAX_OPEN_TRANSACTIONS : Nat
  COAP_MAX_RTT_ESTIMATIONS : Nat
  COAP_MAX_RETRANSMIT : Nat
  COAP_RESPONSE_TIMEOUT_TICKS : Nat
  COAP_RESPONSE_TIMEOUT_BACKOFF_MASK : Nat
  CLOCK_SECOND : Nat
  COAP_INITIAL_RTO : Nat
  NSTART : Nat
  clock_time_bits : Nat
  coap_update_rtt_estimation : coap_rtt_estimations_t → coap_rtt_estimations_t × Nat

/-- What leaves the module, in the order of the calls.
* `coap_send_message addr port t data length`: the datagram handed to the
  transport; `t` is the slot whose packet buffer is passed, `data` its bytes.
* `etimer_restart t interval`: the retransmission timer of slot `t` is armed
  with `interval`.
* `coap_remove_observer_by_client addr port`: the observer hook.
* `callback fn data response`: the call `fn(data, response)`; a NULL response
  is `none`. -/
inductive Effect where
  | coap_send_message (addr port t : Nat) (data : List Nat) (length : Nat)
  | etimer_restart (t : Nat) (interval : Nat)
  | coap_remove_observer_by_client (addr port : Nat)
  | callback (fn : Nat) (data : Nat) (response : Option Nat)
deriving DecidableEq, Repr

/-- The static variables of er-coap-transactions.c and the parts of the host
that it reads.
* `transactions_memb_count t`: slot `t` of `transactions_memb` is in use.
* `transactions_memb_mem t`: the bytes of slot `t`, read as a transaction
  (the memory is static, so a freed slot keeps its contents).
* `transactions_list`: the elements of the list, head first. An element has
  one link field, so a list holds no element twice; the properties below ask
  for this where it matters (`Nodup`).
* `rtt_estimations_list`: the entries of the estimator list, head first; an
  entry is never freed, so the blocks of `rtt_estimations_memb` in use are the
  listed ones.
* `clock`: what `clock_time()` returns; `random_seq`, `random_pos`: what the
  next calls of `random_rand()` return. -/
@[ext]
structure State where
  transactions_memb_count : Nat → Bool
  transactions_memb_mem : Nat → coap_transaction_t
  transactions_list : List Nat
  rtt_estimations_list : List coap_rtt_estimations_t
  transaction_handler_process : Option Nat
  process_current : Option Nat
  clock : Nat
  random_seq : Nat → Nat
  random_pos : Nat
  trace : List Effect

/-! ## The host: memory blocks, lists, timers, clock -/

/-- Modelled from the spec: `memb_alloc` of the Contiki memory block
allocator (lib/memb.c, not among the sources), "fixed-capacity storage for
transaction records": the first of the `num` blocks that is not in use, NULL
when all are in use. -/
def memb_alloc (num : Nat) (count : Nat → Bool) : Option Nat :=
  (List.range num).find? (fun i => !count i)

/-- Modelled from the spec: `memb_free` (lib/memb.c), "returns the slot to the
Pool": the block is marked unused; a pointer that is no block of the pool, or
a block that is already free, changes nothing. -/
def memb_free (num : Nat) (count : Nat → Bool) (ptr : Nat) : Nat → Bool :=
  if ptr < num then Function.update count ptr false else count

/-- Modelled from the spec: `list_head` (lib/list.c): the first element, or
NULL. -/
def list_head (list : List Nat) : Option Nat :=
  list.head?

/-- Modelled from the spec: `list_remove` (lib/list.c), "de-indexes": the
element is unlinked where it is found; a list that does not hold it is left as
it is. -/
def list_remove (list : List Nat) (item : Nat) : List Nat :=
  list.erase item

/-- Modelled from the spec: `list_add` (lib/list.c). The element is first
removed ("list itself makes sure same element is not added twice") and then
linked after the tail. -/
def list_add (list : List Nat) (item : Nat) : List Nat :=
  list_remove list item ++ [item]

/-- Modelled from the spec: the link field `item->next` as the list library
(lib/list.c) keeps it: the element after `item` when `item` is on the list,
and NULL when it is not. The library clears the link of an element when it
unlinks it (`list_remove` ends with `l->next = NULL`) and when it adds it, and
the static memory starts zeroed, so an element that is not on the list has a
NULL link. -/
def list_item_next : List Nat → Nat → Option Nat
  | [], _ => none
  | x :: xs, item => if x = item then xs.head? else list_item_next xs item

/-- Modelled from the spec: `etimer_restart` of the host timer service
(sys/etimer.c): the timer starts again at the current tick with its interval
and will post its event to the current process. -/
def etimer_restart (now : Nat) (current : Option Nat) (et : etimer) : etimer :=
  { timer := { start := now, interval := et.timer.interval }, p := current }

/-- Modelled from the spec: `etimer_stop` (sys/etimer.c): the timer is taken
off the pending timers and marked expired (`et->p = PROCESS_NONE`). -/
def etimer_stop (et : etimer) : etimer :=
  { timer := et.timer, p := none }

/-- Modelled from the spec: `etimer_expired` (sys/etimer.c):
`et->p == PROCESS_NONE`. -/
def etimer_expired (et : etimer) : Bool :=
  et.p.isNone

/-- The call `random_rand()`: the next value of the sequence. -/
def random_rand (s : State) : Nat × State :=
  (s.random_seq s.random_pos, { s with random_pos := s.random_pos + 1 })

/-- Appends one effect to the trace. -/
def emit (s : State) (e : Effect) : State :=
  { s with trace := s.trace ++ [e] }

/-- Writes the fields of the transaction in slot `t`. -/
def modify_transaction (s : State) (t : Nat)
    (f : coap_transaction_t → coap_transaction_t) : State :=
  { s with transactions_memb_mem :=
      Function.update s.transactions_memb_mem t (f (s.transactions_memb_mem t)) }

/-! ## Message header -/

/-- Modelled from the spec: `COAP_HEADER_TYPE_MASK` (er-coap.h), the "2-bit
type field at a fixed position" of byte 0. -/
def COAP_HEADER_TYPE_MASK : Nat := 0x30

/-- Modelled from the spec: `COAP_HEADER_TYPE_POSITION` (er-coap.h). -/
def COAP_HEADER_TYPE_POSITION : Nat := 4

/-- Modelled from the spec: `COAP_TYPE_CON` (er-coap-constants.h), the type of
a confirmable message. -/
def COAP_TYPE_CON : Nat := 0

/-- The expression `(COAP_HEADER_TYPE_MASK & packet[0]) >> COAP_HEADER_TYPE_POSITION`. -/
def coap_header_type (packet : List Nat) : Nat :=
  (COAP_HEADER_TYPE_MASK &&& packet.getD 0 0) >>> COAP_HEADER_TYPE_POSITION

/-! ## The estimator helpers used by the COCOA parts -/

/-- Modelled from the spec: `countTransactionsForAddress` (outside the
sources), the "cap on concurrent ... exchanges to one peer": the number of
listed transactions whose peer address is `addr`. -/
def countTransactionsForAddress (s : State) (addr : Nat) : Nat :=
  (s.transactions_list.filter (fun t => (s.transactions_memb_mem t).addr == addr)).length

/-- Modelled from the spec: `coap_check_rtt_estimation` (outside the sources),
"peer's current smoothed RTO from the Estimator (or a fixed bootstrap default
if no entry exists)": the position of the first entry of the peer, or NULL. -/
def coap_check_rtt_estimation (addr : Nat) : List coap_rtt_estimations_t → Option Nat
  | [] => none
  | e :: es => if e.addr = addr then some 0
      else (coap_check_rtt_estimation addr es).map (· + 1)

/-- The `for` loop of `coap_clear_transaction` over `rtt_estimations_list`:
the first entry of the peer gets the sample and the time; `none` when no entry
matches (`pktnotfound` stays 1). -/
def rtt_estimations_record (addr rtt now : Nat) :
    List coap_rtt_estimations_t → Option (List coap_rtt_estimations_t)
  | [] => none
  | e :: es =>
    if e.addr = addr then
      some ({ e with rtt := rtt, lastupdated := now } :: es)
    else
      (rtt_estimations_record addr rtt now es).map (e :: ·)

/-! ## er-coap-transactions.c -/

/-- The function `coap_register_as_transaction_handler`. -/
def coap_register_as_transaction_handler (s : State) : State :=
  { s with transaction_handler_process := s.process_current }

/-- The successful path of `coap_new_transaction` (lines 76 to 89) for the
block `t` that `memb_alloc` returned: the block is in use, the transaction in
it is initialised and added to the list. -/
def coap_new_transaction_at (s : State) (t mid addr port : Nat) : State :=
  { transactions_memb_count := Function.update s.transactions_memb_count t true,
    transactions_memb_mem := Function.update s.transactions_memb_mem t
      { s.transactions_memb_mem t with
        mid := mid, retrans_counter := 0, addr := addr, port := port },
    transactions_list := list_add s.transactions_list t,
    rtt_estimations_list := s.rtt_estimations_list,
    transaction_handler_process := s.transaction_handler_process,
    process_current := s.process_current,
    clock := s.clock,
    random_seq := s.random_seq,
    random_pos := s.random_pos,
    trace := s.trace }

/-- The function `coap_new_transaction`: the pointer it returns and the state
it leaves. -/
def coap_new_transaction (cfg : Config) (s : State) (mid addr port : Nat) :
    Option Nat × State :=
  if cfg.COCOA && decide (cfg.NSTART ≤ countTransactionsForAddress s addr) then
    (none, s)
  else
    match memb_alloc cfg.COAP_MAX_OPEN_TRANSACTIONS s.transactions_memb_count with
    | none => (none, s)
    | some t => (some t, coap_new_transaction_at s t mid addr port)

/-- The COCOA part of `coap_clear_transaction` (lines 193 to 226), which
writes the estimator list only: the list it leaves when the transaction `tr`
is cleared at tick `now`. -/
def coap_clear_transaction_rtt (cfg : Config) (now : Nat) (tr : coap_transaction_t)
    (list : List coap_rtt_estimations_t) : List coap_rtt_estimations_t :=
  if tr.retrans_counter < cfg.COAP_MAX_RETRANSMIT then
    if COAP_TYPE_CON == coap_header_type tr.packet then
      let rtt0 := (now + 2 ^ cfg.clock_time_bits - tr.timestamp % 2 ^ cfg.clock_time_bits)
        % 2 ^ cfg.clock_time_bits
      let rtt := if rtt0 < cfg.CLOCK_SECOND then cfg.CLOCK_SECOND else rtt0
      match rtt_estimations_record tr.addr rtt now list with
      | some l => l
      | none =>
        if list.length < cfg.COAP_MAX_RTT_ESTIMATIONS then
          list ++ [{ addr := tr.addr, rtt := rtt, rttvar := 0, srtt := 0, lastupdated := now }]
        else list
    else list
  else list

/-- The function `coap_clear_transaction`. -/
def coap_clear_transaction (cfg : Config) (s : State) : Option Nat → State
  | none => s
  | some t =>
    let s1 : State :=
      if cfg.COCOA then
        { s with
          rtt_estimations_list :=
            coap_clear_transaction_rtt cfg s.clock (s.transactions_memb_mem t)
              s.rtt_estimations_list }
      else s
    let s2 := modify_transaction s1 t
      (fun tr => { tr with retrans_timer := etimer_stop tr.retrans_timer })
    let s3 : State := { s2 with transactions_list := list_remove s2.transactions_list t }
    { s3 with
      transactions_memb_count :=
        memb_free cfg.COAP_MAX_OPEN_TRANSACTIONS s3.transactions_memb_count t }

/-- The COCOA computation of `t->rto` in `coap_send_transaction` (lines 112 to
128) for the peer `addr`: the value of `t->rto` and the estimator list as
`coap_update_rtt_estimation` leaves it. -/
def coap_send_transaction_rto (cfg : Config) (addr : Nat)
    (list : List coap_rtt_estimations_t) : Nat × List coap_rtt_estimations_t :=
  match coap_check_rtt_estimation addr list with
  | some i =>
    let r := cfg.coap_update_rtt_estimation (list.getD i
      { addr := addr, rtt := 0, rttvar := 0, srtt := 0, lastupdated := 0 })
    let rto0 := r.2 % 2 ^ cfg.clock_time_bits
    let rto :=
      if rto0 < cfg.CLOCK_SECOND then cfg.CLOCK_SECOND
      else if rto0 > 60 * cfg.CLOCK_SECOND then 60 * cfg.CLOCK_SECOND
      else rto0
    (rto, list.set i r.1)
  | none => (cfg.COAP_INITIAL_RTO, list)

/-- The statement `t->retrans_timer.timer.interval = v`. -/
def set_interval (s : State) (t : Nat) (v : Nat) : State :=
  modify_transaction s t (fun tr =>
    { tr with retrans_timer :=
        { timer := { start := tr.retrans_timer.timer.start, interval := v },
          p := tr.retrans_timer.p } })

/-- The function `coap_send_transaction`, `t` not NULL. -/
def coap_send_transaction (cfg : Config) (s : State) (t : Nat) : State :=
  let tr := s.transactions_memb_mem t
  let s1 := emit s (Effect.coap_send_message tr.addr tr.port t tr.packet tr.packet_len)
  if COAP_TYPE_CON == coap_header_type tr.packet then
    if tr.retrans_counter < cfg.COAP_MAX_RETRANSMIT then
      /- not timed out yet -/
      let s2 :=
        if tr.retrans_counter = 0 then
          if cfg.COCOA then
            let r := coap_send_transaction_rto cfg tr.addr s1.rtt_estimations_list
            let s11 : State := { s1 with rtt_estimations_list := r.2 }
            let s12 := modify_transaction s11 t (fun tr => { tr with rto := r.1 })
            let s13 := set_interval s12 t (s12.transactions_memb_mem t).rto
            modify_transaction s13 t (fun tr => { tr with timestamp := s13.clock })
          else
            let r := random_rand s1
            set_interval r.2 t
              ((cfg.COAP_RESPONSE_TIMEOUT_TICKS + r.1 % cfg.COAP_RESPONSE_TIMEOUT_BACKOFF_MASK)
                % 2 ^ cfg.clock_time_bits)
        else
          set_interval s1 t ((tr.retrans_timer.timer.interval <<< 1) % 2 ^ cfg.clock_time_bits)
      let process_actual := s2.process_current
      let s3 : State := { s2 with process_current := s2.transaction_handler_process }
      let s4 := modify_transaction s3 t (fun tr =>
        { tr with retrans_timer := etimer_restart s3.clock s3.process_current tr.retrans_timer })
      let s5 := emit s4
        (Effect.etimer_restart t (s4.transactions_memb_mem t).retrans_timer.timer.interval)
      { s5 with process_current := process_actual }
    else
      /- timed out -/
      let callback := tr.callback
      let callback_data := tr.callback_data
      let s2 := emit s1 (Effect.coap_remove_observer_by_client tr.addr tr.port)
      let s3 := coap_clear_transaction cfg s2 (some t)
      match callback with
      | some fn => emit s3 (Effect.callback fn callback_data none)
      | none => s3
  else
    coap_clear_transaction cfg s1 (some t)

/-- The function `coap_get_transaction_by_mid`: the first listed transaction
with the message id, or NULL. -/
def coap_get_transaction_by_mid (s : State) (mid : Nat) : Option Nat :=
  s.transactions_list.find? (fun t => (s.transactions_memb_mem t).mid == mid)

/-- The body of the `for` loop of `coap_check_transactions` for the element
`t`. -/
def coap_check_transactions_body (cfg : Config) (s : State) (t : Nat) : State :=
  if etimer_expired (s.transactions_memb_mem t).retrans_timer then
    coap_send_transaction cfg
      (modify_transaction s t (fun tr => { tr with retrans_counter := tr.retrans_counter + 1 })) t
  else s

/-- The `for` loop of `coap_check_transactions` from the element `t` on: the
body, then `t = t->next` read in the state that the body leaves. `fuel` bounds
the number of rounds; `none` when it does not suffice. -/
def coap_check_transactions_loop (cfg : Config) : Nat → State → Option Nat → Option State
  | _, s, none => some s
  | 0, _, some _ => none
  | fuel + 1, s, some t =>
    let s1 := coap_check_transactions_body cfg s t
    coap_check_transactions_loop cfg fuel s1 (list_item_next s1.transactions_list t)

/-- The function `coap_check_transactions`. A round of the loop ends on an
element further down the list, so the length of the list bounds the rounds. -/
def coap_check_transactions (cfg : Config) (s : State) : Option State :=
  coap_check_transactions_loop cfg s.transactions_list.length s
    (list_head s.transactions_list)

/-- The interval that `coap_send_transaction` arms for a confirmable
transaction below the retransmission limit. -/
def armed_interval (cfg : Config) (s : State) (t : Nat) : Nat :=
  if (s.transactions_memb_mem t).retrans_counter = 0 then
    if cfg.COCOA then
      (coap_send_transaction_rto cfg (s.transactions_memb_mem t).addr s.rtt_estimations_list).1
    else
      (cfg.COAP_RESPONSE_TIMEOUT_TICKS
        + s.random_seq s.random_pos % cfg.COAP_RESPONSE_TIMEOUT_BACKOFF_MASK)
        % 2 ^ cfg.clock_time_bits
  else
    ((s.transactions_memb_mem t).retrans_timer.timer.interval <<< 1) % 2 ^ cfg.clock_time_bits

/-- The `for` loop of `coap_check_transactions` as a recursion over the listed
elements that are still to be visited: the body for the first of them; when the
body has taken the element off the list its link is NULL and the loop ends,
otherwise the loop goes on with the rest. `check_from_eq` shows that this is
what `coap_check_transactions_loop` computes on a list without repetition. -/
def check_from (cfg : Config) : State → List Nat → State
  | s, [] => s
  | s, u :: rest =>
    if u ∈ (coap_check_transactions_body cfg s u).transactions_list then
      check_from cfg (coap_check_transactions_body cfg s u) rest
    else coap_check_transactions_body cfg s u

/-! ## The application and the host around the module -/

/-- The memory of a slot before its first use: static storage, all zero. -/
def zeroed_transaction : coap_transaction_t :=
  { mid := 0, retrans_timer := { timer := { start := 0, interval := 0 }, p := none },
    retrans_counter := 0, addr := 0, port := 0, rto := 0, timestamp := 0,
    callback := none, callback_data := 0, packet_len := 0, packet := [] }

/-- The state at start-up: every slot free and zeroed, both lists empty, no
handler process registered, nothing sent. -/
def initial_state : State :=
  { transactions_memb_count := fun _ => false,
    transactions_memb_mem := fun _ => zeroed_transaction,
    transactions_list := [],
    rtt_estimations_list := [],
    transaction_handler_process := none,
    process_current := none,
    clock := 0,
    random_seq := fun _ => 0,
    random_pos := 0,
    trace := [] }

/-- The state once the CoAP engine process (process 1) runs and has called
`coap_register_as_transaction_handler`. -/
def started_state : State :=
  coap_register_as_transaction_handler { initial_state with process_current := some 1 }

/-- The application fills the packet buffer of its transaction
(`t->packet`, `t->packet_len`). -/
def set_packet (s : State) (t : Nat) (packet : List Nat) : State :=
  modify_transaction s t (fun tr => { tr with packet := packet, packet_len := packet.length })

/-- The application registers the completion callback and its context
(`t->callback`, `t->callback_data`). -/
def set_callback (s : State) (t : Nat) (fn data : Nat) : State :=
  modify_transaction s t (fun tr => { tr with callback := some fn, callback_data := data })

/-- The host delivers the expiry of the retransmission timer of slot `t`: the
etimer process marks the timer expired (`p = PROCESS_NONE`) when it posts the
event. -/
def etimer_expire (s : State) (t : Nat) : State :=
  modify_transaction s t (fun tr => { tr with retrans_timer := etimer_stop tr.retrans_timer })

/-- A fixed-mode build (COCOA not defined) with `capacity` transaction slots
and the constants of a 128 Hz clock: four retransmissions, a response timeout
of two seconds, a 32-bit `clock_time_t`. -/
def fixed_config (capacity : Nat) : Config :=
  { COCOA := false,
    COAP_MAX_OPEN_TRANSACTIONS := capacity,
    COAP_MAX_RTT_ESTIMATIONS := 2,
    COAP_MAX_RETRANSMIT := 4,
    COAP_RESPONSE_TIMEOUT_TICKS := 256,
    COAP_RESPONSE_TIMEOUT_BACKOFF_MASK := 129,
    CLOCK_SECOND := 128,
    COAP_INITIAL_RTO := 256,
    NSTART := 1,
    clock_time_bits := 32,
    coap_update_rtt_estimation := fun e => (e, e.rtt) }

/-! ## Sequences of calls, for the properties that speak of them -/

/-- A call of the application into the registry: `coap_new_transaction(mid,
addr, port)` or `coap_clear_transaction(t)`. -/
inductive RegistryCall where
  | new (mid addr port : Nat)
  | clear (t : Option Nat)
deriving DecidableEq, Repr

/-- A run of registry calls: the state of the module, the transactions that
were issued and not yet cleared, each as the pointer that
`coap_new_transaction` returned with the message id it was issued with (oldest
first), and the number of calls of `coap_new_transaction` that returned
NULL. -/
structure RegistryRun where
  state : State
  active : List (Nat × Nat)
  refused : Nat

/-- One registry call. A successful `coap_new_transaction` makes the returned
transaction active under its message id; `coap_clear_transaction(t)` ends the
activity of `t`. -/
def registry_call (cfg : Config) (r : RegistryRun) : RegistryCall → RegistryRun
  | RegistryCall.new mid addr port =>
    match coap_new_transaction cfg r.state mid addr port with
    | (some t, s) => { state := s, active := r.active ++ [(t, mid)], refused := r.refused }
    | (none, s) => { state := s, active := r.active, refused := r.refused + 1 }
  | RegistryCall.clear t =>
    { state := coap_clear_transaction cfg r.state t,
      active := r.active.filter (fun e => !(some e.1 == t)),
      refused := r.refused }

/-- The calls of a sequence, one after the other. -/
def registry_calls (cfg : Config) (r : RegistryRun) (calls : List RegistryCall) : RegistryRun :=
  calls.foldl (registry_call cfg) r

/-- The sequence "stays within pool capacity and never has two concurrently
active transactions with the same message id": at every call of
`coap_new_transaction` fewer than `COAP_MAX_OPEN_TRANSACTIONS` transactions
are active and none of them has the new message id. -/
def admissible (cfg : Config) (r : RegistryRun) : List RegistryCall → Prop
  | [] => True
  | c :: cs =>
    (match c with
      | RegistryCall.new mid _ _ =>
        r.active.length < cfg.COAP_MAX_OPEN_TRANSACTIONS ∧ mid ∉ r.active.map Prod.snd
      | RegistryCall.clear _ => True)
    ∧ admissible cfg (registry_call cfg r c) cs

/-- The number of free blocks of `transactions_memb`. -/
def free_slots (cfg : Config) (s : State) : Nat :=
  ((List.range cfg.COAP_MAX_OPEN_TRANSACTIONS).filter
    (fun i => !s.transactions_memb_count i)).length

/-- A COCOA build with `capacity` transaction slots: the constants of
`fixed_config`, at most one open transaction per peer (`NSTART`), an initial RTO
of two seconds, and an estimator helper that returns the last sample. -/
def cocoa_config (capacity : Nat) : Config :=
  { COCOA := true,
    COAP_MAX_OPEN_TRANSACTIONS := capacity,
    COAP_MAX_RTT_ESTIMATIONS := 2,
    COAP_MAX_RETRANSMIT := 4,
    COAP_RESPONSE_TIMEOUT_TICKS := 256,
    COAP_RESPONSE_TIMEOUT_BACKOFF_MASK := 129,
    CLOCK_SECOND := 128,
    COAP_INITIAL_RTO := 256,
    NSTART := 1,
    clock_time_bits := 32,
    coap_update_rtt_estimation := fun e => (e, e.rtt) }

/-- The application issues a transaction, fills in a packet and sends it: the
state after `coap_new_transaction`, the write of the packet and
`coap_send_transaction`; the state is left as it is when no transaction is
returned. -/
def issue_and_send (cfg : Config) (s : State) (mid addr port : Nat) (packet : List Nat) : State :=
  match coap_new_transaction cfg s mid addr port with
  | (some t, s1) => coap_send_transaction cfg (set_packet s1 t packet) t
  | (none, s1) => s1

/-- The state of the scenario "capacity = 1; issue transaction A (mid 7)":
A is issued for peer 1 in a fixed-mode build with one slot. -/
def scenario_A_issued : State :=
  (coap_new_transaction (fixed_config 1) initial_state 7 1 5683).2

/-- Two confirmable transactions, to the peers 1 and 2, issued and sent in a
COCOA build with two slots: the pool is full. -/
def two_peers_state : State :=
  issue_and_send (cocoa_config 2)
    (issue_and_send (cocoa_config 2) started_state 7 1 5683 [0x40, 1, 0, 7]) 8 2 5683
    [0x40, 1, 0, 8]

/-- The timer of slot `t` expires and the host polls: `etimer_expire`, then
`coap_check_transactions`. -/
def expire_and_poll (cfg : Config) (t : Nat) (s : State) : Option State :=
  coap_check_transactions cfg (etimer_expire s t)

/-- The first `n` expirations of the timer of slot `t`, each followed by a
poll. -/
def expire_and_poll_n (cfg : Config) (t : Nat) : Nat → State → Option State
  | 0, s => some s
  | n + 1, s => (expire_and_poll_n cfg t n s).bind (expire_and_poll cfg t)

/-- The effect is the invocation of a completion callback. -/
def is_callback : Effect → Bool
  | Effect.callback _ _ _ => true
  | _ => false

/-- The effect is a datagram sent from the packet buffer of slot `t`. -/
def is_send_of (t : Nat) : Effect → Bool
  | Effect.coap_send_message _ _ u _ _ => u == t
  | _ => false

/-- What drives the retransmissions once a transaction is sent: the host
delivers the expiry of the timer of some slot, or polls with
`coap_check_transactions`. -/
inductive HostEvent where
  | expire (u : Nat)
  | check
deriving DecidableEq, Repr

/-- A sequence of host events, one after the other. -/
def host_run (cfg : Config) : State → List HostEvent → Option State
  | s, [] => some s
  | s, HostEvent.expire u :: es => host_run cfg (etimer_expire s u) es
  | s, HostEvent.check :: es => (coap_check_transactions cfg s).bind (fun s1 => host_run cfg s1 es)

/-- Two confirmable transactions in a fixed-mode build with two slots: A (slot
0, message id 7, peer 1) and B (slot 1, message id 8, peer 2) are issued and
sent; then the timer of A expires three times and is polled each time, so A has
been retransmitted three times; then the timers of A and of B both expire. -/
def both_expired_state : Option State :=
  (expire_and_poll_n (fixed_config 2) 0 3
    (issue_and_send (fixed_config 2)
      (issue_and_send (fixed_config 2) started_state 7 1 5683 [0x40, 1, 0, 7]) 8 2 5683
      [0x40, 1, 0, 8])).map (fun s => etimer_expire (etimer_expire s 0) 1)

/-- What a property looks at in the slot `t` of a state: whether `t` is on the
list, whether its timer has expired, its retransmit count, and the number of
datagrams sent from its buffer so far. -/
def slot_view (s : State) (t : Nat) : Bool × Bool × Nat × Nat :=
  (decide (t ∈ s.transactions_list), etimer_expired (s.transactions_memb_mem t).retrans_timer,
    (s.transactions_memb_mem t).retrans_counter, (s.trace.filter (is_send_of t)).length)

/-- The transaction in slot `t` is an open confirmable exchange with message
id `mid` that has been retransmitted `k` times and has the completion callback
`fn` with context `data`; the list is well formed; no other listed transaction
has an expired timer or the message id `mid`; `base` are the callback
invocations so far. -/
structure Pending (s : State) (t mid fn data k : Nat) (base : List Effect) : Prop where
  nodup : s.transactions_list.Nodup
  listed : t ∈ s.transactions_list
  confirmable : (COAP_TYPE_CON == coap_header_type (s.transactions_memb_mem t).packet) = true
  counter : (s.transactions_memb_mem t).retrans_counter = k
  callback : (s.transactions_memb_mem t).callback = some fn
  callback_data : (s.transactions_memb_mem t).callback_data = data
  mid_eq : (s.transactions_memb_mem t).mid = mid
  others : ∀ u, u ∈ s.transactions_list → u ≠ t →
    etimer_expired (s.transactions_memb_mem u).retrans_timer = false ∧
    (s.transactions_memb_mem u).mid ≠ mid
  callbacks : s.trace.filter is_callback = base

/-- The state in which the body of the poll loop calls
`coap_send_transaction` for `t` after the timer of `t` has expired: the timer
marked expired, the retransmit count incremented. -/
def expired_and_counted (s : State) (t : Nat) : State :=
  modify_transaction (etimer_expire s t) t
    (fun tr => { tr with retrans_counter := tr.retrans_counter + 1 })

/-- A transaction issued in a started fixed-mode build with two slots: slot 0,
message id 7, a confirmable packet, the callback 42 with context 99; not yet
sent. -/
def awaiting_send_state : State :=
  set_callback
    (set_packet (coap_new_transaction (fixed_config 2) started_state 7 1 5683).2 0
      [0x40, 1, 0, 7]) 0 42 99

/-- The number of datagrams in the trace that were sent from the packet buffer
of slot `t`. -/
def sends_of (s : State) (t : Nat) : Nat :=
  (s.trace.filter (is_send_of t)).length

/-- The transaction in slot `t` has been sent and is driven by the host only:
the list is well formed, and either `t` is listed, confirmable, below the
retransmission limit, and has been sent once more than its retransmit count
since the `base` datagrams that the slot had sent before; or `t` is off the
list and has been sent at most `1 + COAP_MAX_RETRANSMIT` times since. -/
def Driven (cfg : Config) (s : State) (t base : Nat) : Prop :=
  s.transactions_list.Nodup ∧
  ((t ∈ s.transactions_list ∧
      (COAP_TYPE_CON == coap_header_type (s.transactions_memb_mem t).packet) = true ∧
      (s.transactions_memb_mem t).retrans_counter < cfg.COAP_MAX_RETRANSMIT ∧
      sends_of s t = base + 1 + (s.transactions_memb_mem t).retrans_counter) ∨
    (t ∉ s.transactions_list ∧ sends_of s t ≤ base + 1 + cfg.COAP_MAX_RETRANSMIT))

/-- Host events for five rounds of expiry and poll of slot 0, one round more
than the four retransmissions of `fixed_config`. -/
def five_rounds : List HostEvent :=
  [HostEvent.expire 0, HostEvent.check, HostEvent.expire 0, HostEvent.check,
    HostEvent.expire 0, HostEvent.check, HostEvent.expire 0, HostEvent.check,
    HostEvent.expire 0, HostEvent.check]

/-- A non-confirmable transaction (type field 1) issued in a started fixed-mode
build with two slots and not yet sent: slot 0, message id 7. -/
def nonconfirmable_state : State :=
  set_packet (coap_new_transaction (fixed_config 2) started_state 7 1 5683).2 0 [0x50, 1, 0, 7]

/-- The state `awaiting_send_state` on a host whose `random_rand()` returns
40000. -/
def awaiting_send_random_state : State :=
  { awaiting_send_state with random_seq := fun _ => 40000 }

/-- Two confirmable transactions in a fixed-mode build with two slots, issued
and sent, whose timers have both expired for the first time. -/
def two_expired_state : State :=
  etimer_expire
    (etimer_expire
      (issue_and_send (fixed_config 2)
        (issue_and_send (fixed_config 2) started_state 7 1 5683 [0x40, 1, 0, 7]) 8 2 5683
        [0x40, 1, 0, 8]) 0) 1

/-- A sequence of calls for a pool of two slots: two issuances (message ids 7
and 8), the completion of the first, and a third issuance (message id 9). -/
def example_calls : List RegistryCall :=
  [RegistryCall.new 7 1 5683, RegistryCall.new 8 1 5683, RegistryCall.clear (some 0),
    RegistryCall.new 9 2 5683]

/-- The registry and the pool agree with the active transactions of a run:
the list holds their pointers in the order of issuance, each once; each is an
allocated block of the pool that holds the message id it was issued with; no
other block is allocated; no two have the same message id. -/
structure RegistryInv (cfg : Config) (r : RegistryRun) : Prop where
  list_eq : r.state.transactions_list = r.active.map Prod.fst
  nodup : (r.active.map Prod.fst).Nodup
  mids_nodup : (r.active.map Prod.snd).Nodup
  mid_eq : ∀ e ∈ r.active, (r.state.transactions_memb_mem e.1).mid = e.2
  used : ∀ e ∈ r.active,
    r.state.transactions_memb_count e.1 = true ∧ e.1 < cfg.COAP_MAX_OPEN_TRANSACTIONS
  listed : ∀ i, i < cfg.COAP_MAX_OPEN_TRANSACTIONS →
    r.state.transactions_memb_count i = true → i ∈ r.active.map Prod.fst

/-- Two transactions with the same message id 7 in a fixed-mode build with two
slots: both are issued (slots 0 and 1), the first is completed, and a third
transaction with message id 7 is issued, which takes slot 0 again and is linked
after the transaction in slot 1. -/
def shared_mid_state : State :=
  (coap_new_transaction (fixed_config 2)
    (coap_clear_transaction (fixed_config 2)
      (coap_new_transaction (fixed_config 2)
        (coap_new_transaction (fixed_config 2) started_state 7 1 5683).2 7 2 5683).2
      (some 0)) 7 3 5683).2

/-! ## The estimator table, for the properties that speak of it -/

/-- The estimator entry of the peer `addr`: the first entry of the table with
that address. -/
def rtt_entry_of (addr : Nat) (list : List coap_rtt_estimations_t) :
    Option coap_rtt_estimations_t :=
  list.find? (fun e => e.addr == addr)

/-- The value `clock_time() - t->timestamp` of line 195, in the arithmetic of
`clock_time_t`. -/
def rtt_difference (cfg : Config) (now : Nat) (tr : coap_transaction_t) : Nat :=
  (now + 2 ^ cfg.clock_time_bits - tr.timestamp % 2 ^ cfg.clock_time_bits)
    % 2 ^ cfg.clock_time_bits

/-- The sample `rtt` of `coap_clear_transaction` (lines 195 to 197): the
difference, raised to `CLOCK_SECOND` when it is below. -/
def rtt_sample (cfg : Config) (now : Nat) (tr : coap_transaction_t) : Nat :=
  if rtt_difference cfg now tr < cfg.CLOCK_SECOND then cfg.CLOCK_SECOND
  else rtt_difference cfg now tr

/-- The states that sequences of `coap_clear_transaction` calls reach from an
empty estimator table, whatever happens between the calls to the rest of the
state (the table itself is written by nothing else). -/
inductive ClearReach (cfg : Config) : State → Prop where
  | start (s : State) : s.rtt_estimations_list = [] → ClearReach cfg s
  | between (s s' : State) : ClearReach cfg s →
      s'.rtt_estimations_list = s.rtt_estimations_list → ClearReach cfg s'
  | clear (s : State) (t : Option Nat) : ClearReach cfg s →
      ClearReach cfg (coap_clear_transaction cfg s t)

/-- The state `two_peers_state` (COCOA build, two confirmable transactions, to
the peers 1 and 2) five ticks after the transactions were sent. -/
def five_ticks_later_state : State :=
  { two_peers_state with clock := 5 }

/-- A COCOA build whose bootstrap RTO is half a second (64 ticks of the 128 Hz
clock), below the lower bound `CLOCK_SECOND`. -/
def short_rto_config : Config :=
  { cocoa_config 2 with COAP_INITIAL_RTO := 64 }

/-- A confirmable transaction issued in the build `short_rto_config` and not
yet sent: slot 0, message id 7, peer 1; the estimator table is empty. -/
def short_rto_awaiting_state : State :=
  set_packet (coap_new_transaction short_rto_config started_state 7 1 5683).2 0 [0x40, 1, 0, 7]

/-- The estimator table of the COCOA build `cocoa_config 2` (room for two
entries) is full: the transactions of `two_peers_state`, to the peers 1 and 2,
are completed, and a confirmable transaction to peer 3 is issued and sent. -/
def full_table_state : State :=
  issue_and_send (cocoa_config 2)
    (coap_clear_transaction (cocoa_config 2)
      (coap_clear_transaction (cocoa_config 2) two_peers_state (some 0)) (some 1))
    9 3 5683 [0x40, 1, 0, 9]

/-- The transaction in slot 0 of `two_peers_state` (COCOA build, sent at tick 0
with an interval of 256 ticks) is retransmitted once, when its timer expires at
tick 256, and the reply arrives at tick 300. -/
def retransmitted_once_state : Option State :=
  (expire_and_poll (cocoa_config 2) 0 { two_peers_state with clock := 256 }).map
    (fun s => { s with clock := 300 })

/-- The bounds of the COCOA clamp of lines 117 to 120 applied to `rto`. -/
def rto_clamp (cfg : Config) (rto : Nat) : Nat :=
  if rto < cfg.CLOCK_SECOND then cfg.CLOCK_SECOND
  else if rto > 60 * cfg.CLOCK_SECOND then 60 * cfg.CLOCK_SECOND
  else rto

/-- A confirmable transaction to peer 1 that is issued, and not yet sent, after
an earlier transaction to peer 1 was completed: the estimator table holds an
entry for peer 1 with the last sample 128. -/
def known_peer_state : State :=
  set_packet
    (coap_new_transaction (cocoa_config 2)
      (coap_clear_transaction (cocoa_config 2) five_ticks_later_state (some 0)) 9 1 5683).2
    0 [0x40, 1, 0, 9]

/-- The timer of slot `t` expires and the poll loop handles it: `etimer_expire`,
then the body of the loop for `t`. -/
def expire_and_handle (cfg : Config) (s : State) (t : Nat) : State :=
  coap_check_transactions_body cfg (etimer_expire s t) t

/-- The transaction of `awaiting_send_state` (fixed mode, two slots; slot 0,
message id 7, callback 42 with context 99) is sent and retransmitted three
times; its timer expires a fourth time and the poll loop increments its count
to `COAP_MAX_RETRANSMIT`: the state in which the loop calls
`coap_send_transaction` for the last time. -/
def exhausted_state : State :=
  expired_and_counted
    (expire_and_handle (fixed_config 2)
      (expire_and_handle (fixed_config 2)
        (expire_and_handle (fixed_config 2)
          (coap_send_transaction (fixed_config 2) awaiting_send_state 0) 0) 0) 0) 0

/-! ## Time -/

/-- The host clock advances by `d` ticks (in the arithmetic of
`clock_time_t`). -/
def clock_advance (cfg : Config) (s : State) (d : Nat) : State :=
  { s with clock := (s.clock + d) % 2 ^ cfg.clock_time_bits }

/-- The interval that the first `coap_send_transaction` of `t` arms (or, without
a retransmission to spare, leaves in the timer). -/
def first_interval (cfg : Config) (s : State) (t : Nat) : Nat :=
  ((coap_send_transaction cfg s t).transactions_memb_mem t).retrans_timer.timer.interval

/-- The timer of slot `t` is polled exactly at expiry: the clock advances by
the interval the timer is armed with, the host delivers the expiry and polls.
The second component is the time elapsed, in ticks. -/
def timed_poll (cfg : Config) (t : Nat) (r : State × Nat) : Option (State × Nat) :=
  (expire_and_poll cfg t
    (clock_advance cfg r.1 (r.1.transactions_memb_mem t).retrans_timer.timer.interval)).map
    (fun s => (s, r.2 + (r.1.transactions_memb_mem t).retrans_timer.timer.interval))

/-- The first `n` timed polls of slot `t`. -/
def timed_poll_n (cfg : Config) (t : Nat) : Nat → State × Nat → Option (State × Nat)
  | 0, r => some r
  | n + 1, r => (timed_poll_n cfg t n r).bind (timed_poll cfg t)

/-! ## Reachable states -/

/-- The host lets process `p` run (`process_current`). -/
def run_process (s : State) (p : Option Nat) : State :=
  { s with process_current := p }

/-- What can happen to the module: the four operations
`coap_new_transaction`, `coap_send_transaction`, `coap_check_transactions` and
`coap_clear_transaction`, the registration of the handler process, and around
them the writes of the application to a transaction (packet, callback) and the
events of the host (a timer expires, the clock advances, a process runs). -/
inductive Operation where
  | new (mid addr port : Nat)
  | send (t : Nat)
  | check
  | clear (t : Option Nat)
  | register
  | set_packet (t : Nat) (packet : List Nat)
  | set_callback (t fn data : Nat)
  | expire (t : Nat)
  | advance (d : Nat)
  | run_process (p : Option Nat)
deriving DecidableEq, Repr

/-- The state after one operation; `none` when `coap_check_transactions` does
not return. -/
def operate (cfg : Config) (s : State) : Operation → Option State
  | Operation.new mid addr port => some (coap_new_transaction cfg s mid addr port).2
  | Operation.send t => some (coap_send_transaction cfg s t)
  | Operation.check => coap_check_transactions cfg s
  | Operation.clear t => some (coap_clear_transaction cfg s t)
  | Operation.register => some (coap_register_as_transaction_handler s)
  | Operation.set_packet t packet => some (set_packet s t packet)
  | Operation.set_callback t fn data => some (set_callback s t fn data)
  | Operation.expire t => some (etimer_expire s t)
  | Operation.advance d => some (clock_advance cfg s d)
  | Operation.run_process p => some (run_process s p)

/-- The state after a sequence of operations. -/
def operate_all (cfg : Config) : State → List Operation → Option State
  | s, [] => some s
  | s, op :: ops => (operate cfg s op).bind (fun s1 => operate_all cfg s1 ops)

/-- The list and the pool agree: the list holds no element twice, every listed
element is an allocated block of the pool, and every allocated block of the
pool is listed. -/
structure PoolInv (cfg : Config) (s : State) : Prop where
  nodup : s.transactions_list.Nodup
  used : ∀ t, t ∈ s.transactions_list →
    s.transactions_memb_count t = true ∧ t < cfg.COAP_MAX_OPEN_TRANSACTIONS
  listed : ∀ i, i < cfg.COAP_MAX_OPEN_TRANSACTIONS →
    s.transactions_memb_count i = true → i ∈ s.transactions_list

/-- Every listed transaction has a retransmit count below
`COAP_MAX_RETRANSMIT`, or the count 0 of a new transaction. -/
def CountInv (cfg : Config) (s : State) : Prop :=
  ∀ t, t ∈ s.transactions_list →
    (s.transactions_memb_mem t).retrans_counter < cfg.COAP_MAX_RETRANSMIT ∨
    (s.transactions_memb_mem t).retrans_counter = 0

/-- Operations on a pool of two slots in a fixed-mode build: two transactions
are issued, filled in and sent; the timer of the first expires and is polled
four times, which exhausts it; a third transaction is issued in the freed slot,
and the second is completed. -/
def example_operations : List Operation :=
  [Operation.new 7 1 5683, Operation.set_packet 0 [0x40, 1, 0, 7], Operation.send 0,
    Operation.new 8 2 5683, Operation.set_packet 1 [0x40, 1, 0, 8], Operation.send 1,
    Operation.advance 256, Operation.expire 0, Operation.check,
    Operation.advance 512, Operation.expire 0, Operation.check,
    Operation.advance 1024, Operation.expire 0, Operation.check,
    Operation.advance 2048, Operation.expire 0, Operation.check,
    Operation.new 9 3 5683, Operation.clear (some 1)]

/-! ## The callees of the timeout path -/

/-- The code outside er-coap-transactions.c that the timeout path of
`coap_send_transaction` calls and that runs before the call returns:
`coap_remove_observer_by_client(addr, port)` of the observer module, and the
completion callback `fn(data, response)` of the application. Each is given
the state of this module as it is at the call and returns the state as it
leaves it; an application callback may call back into the module (look a
message id up, issue the next transaction). -/
structure Callees where
  coap_remove_observer_by_client : Nat → Nat → State → State
  callback : Nat → Nat → Option Nat → State → State

/-- Callees that return at once and leave the state as it is: all that is
seen of a call is its record in the trace. -/
def idle_callees : Callees :=
  { coap_remove_observer_by_client := fun _ _ s => s,
    callback := fun _ _ _ s => s }

/-- The function `coap_send_transaction`, `t` not NULL, with the bodies of its
callees run where the source calls them (lines 170 and 175): the call is
recorded in the trace and the body runs on the state at that point.
`send_calling_idle` shows that `coap_send_transaction` above is this function
for callees that return at once. -/
def coap_send_transaction_calling (env : Callees) (cfg : Config) (s : State) (t : Nat) : State :=
  let tr := s.transactions_memb_mem t
  let s1 := emit s (Effect.coap_send_message tr.addr tr.port t tr.packet tr.packet_len)
  if COAP_TYPE_CON == coap_header_type tr.packet then
    if tr.retrans_counter < cfg.COAP_MAX_RETRANSMIT then
      /- not timed out yet -/
      let s2 :=
        if tr.retrans_counter = 0 then
          if cfg.COCOA then
            let r := coap_send_transaction_rto cfg tr.addr s1.rtt_estimations_list
            let s11 : State := { s1 with rtt_estimations_list := r.2 }
            let s12 := modify_transaction s11 t (fun tr => { tr with rto := r.1 })
            let s13 := set_interval s12 t (s12.transactions_memb_mem t).rto
            modify_transaction s13 t (fun tr => { tr with timestamp := s13.clock })
          else
            let r := random_rand s1
            set_interval r.2 t
              ((cfg.COAP_RESPONSE_TIMEOUT_TICKS + r.1 % cfg.COAP_RESPONSE_TIMEOUT_BACKOFF_MASK)
                % 2 ^ cfg.clock_time_bits)
        else
          set_interval s1 t ((tr.retrans_timer.timer.interval <<< 1) % 2 ^ cfg.clock_time_bits)
      let process_actual := s2.process_current
      let s3 : State := { s2 with process_current := s2.transaction_handler_process }
      let s4 := modify_transaction s3 t (fun tr =>
        { tr with retrans_timer := etimer_restart s3.clock s3.process_current tr.retrans_timer })
      let s5 := emit s4
        (Effect.etimer_restart t (s4.transactions_memb_mem t).retrans_timer.timer.interval)
      { s5 with process_current := process_actual }
    else
      /- timed out -/
      let callback := tr.callback
      let callback_data := tr.callback_data
      let s2 := env.coap_remove_observer_by_client tr.addr tr.port
        (emit s1 (Effect.coap_remove_observer_by_client tr.addr tr.port))
      let s3 := coap_clear_transaction cfg s2 (some t)
      match callback with
      | some fn => env.callback fn callback_data none (emit s3 (Effect.callback fn callback_data none))
      | none => s3
  else
    coap_clear_transaction cfg s1 (some t)

/-- An application whose completion callback issues the next request from
within the callback (`coap_new_transaction` for message id 9 to peer 3), next
to an observer module that keeps none of this module's state. -/
def reissuing_callees (cfg : Config) : Callees :=
  { coap_remove_observer_by_client := fun _ _ s => s,
    callback := fun _ _ _ s => (coap_new_transaction cfg s 9 3 5683).2 }

/-! ## Two transactions that time out together -/

end CoapTransactions

/-! # Properties -/

namespace CoapTransactions

/-! ## How each operation changes the state -/

section frame

variable (cfg : Config) (s : State)

@[simp] theorem emit_trace (e : Effect) : (emit s e).trace = s.trace ++ [e] := rfl
@[simp] theorem emit_list (e : Effect) :
    (emit s e).transactions_list = s.transactions_list := rfl
@[simp] theorem emit_mem (e : Effect) :
    (emit s e).transactions_memb_mem = s.transactions_memb_mem := rfl
@[simp] theorem emit_count (e : Effect) :
    (emit s e).transactions_memb_count = s.transactions_memb_count := rfl
@[simp] theorem emit_rtt (e : Effect) :
    (emit s e).rtt_estimations_list = s.rtt_estimations_list := rfl
@[simp] theorem emit_clock (e : Effect) : (emit s e).clock = s.clock := rfl
@[simp] theorem emit_random_pos (e : Effect) : (emit s e).random_pos = s.random_pos := rfl

@[simp] theorem modify_trace (t : Nat) (f : coap_transaction_t → coap_transaction_t) :
    (modify_transaction s t f).trace = s.trace := rfl
@[simp] theorem modify_list (t : Nat) (f : coap_transaction_t → coap_transaction_t) :
    (modify_transaction s t f).transactions_list = s.transactions_list := rfl
@[simp] theorem modify_count (t : Nat) (f : coap_transaction_t → coap_transaction_t) :
    (modify_transaction s t f).transactions_memb_count = s.transactions_memb_count := rfl
@[simp] theorem modify_rtt (t : Nat) (f : coap_transaction_t → coap_transaction_t) :
    (modify_transaction s t f).rtt_estimations_list = s.rtt_estimations_list := rfl
@[simp] theorem modify_clock (t : Nat) (f : coap_transaction_t → coap_transaction_t) :
    (modify_transaction s t f).clock = s.clock := rfl
@[simp] theorem modify_random_pos (t : Nat) (f : coap_transaction_t → coap_transaction_t) :
    (modify_transaction s t f).random_pos = s.random_pos := rfl
@[simp] theorem modify_mem_same (t : Nat) (f : coap_transaction_t → coap_transaction_t) :
    (modify_transaction s t f).transactions_memb_mem t = f (s.transactions_memb_mem t) := by
  simp [modify_transaction]
theorem modify_mem_other (t u : Nat) (f : coap_transaction_t → coap_transaction_t)
    (h : u ≠ t) :
    (modify_transaction s t f).transactions_memb_mem u = s.transactions_memb_mem u := by
  simp [modify_transaction, Function.update_noteq h]

theorem clear_list (t : Nat) :
    (coap_clear_transaction cfg s (some t)).transactions_list = s.transactions_list.erase t := by
  simp only [coap_clear_transaction, list_remove, modify_list]
  split_ifs <;> rfl

theorem clear_trace (t : Option Nat) :
    (coap_clear_transaction cfg s t).trace = s.trace := by
  cases t with
  | none => rfl
  | some t =>
    simp only [coap_clear_transaction, modify_trace]
    split_ifs <;> rfl

theorem clear_count (t : Nat) :
    (coap_clear_transaction cfg s (some t)).transactions_memb_count =
      memb_free cfg.COAP_MAX_OPEN_TRANSACTIONS s.transactions_memb_count t := by
  simp only [coap_clear_transaction, modify_count]
  split_ifs <;> rfl

theorem clear_mem_same (t : Nat) :
    (coap_clear_transaction cfg s (some t)).transactions_memb_mem t =
      { s.transactions_memb_mem t with
        retrans_timer := etimer_stop (s.transactions_memb_mem t).retrans_timer } := by
  simp only [coap_clear_transaction, modify_mem_same]
  split_ifs <;> rfl

theorem clear_mem_other (t u : Nat) (h : u ≠ t) :
    (coap_clear_transaction cfg s (some t)).transactions_memb_mem u =
      s.transactions_memb_mem u := by
  simp only [coap_clear_transaction]
  rw [modify_mem_other _ _ _ _ h]
  split_ifs <;> rfl

end frame

/-! ## The pool -/

theorem memb_alloc_some {num : Nat} {count : Nat → Bool} {t : Nat}
    (h : memb_alloc num count = some t) : t < num ∧ count t = false := by
  unfold memb_alloc at h
  have h1 := List.find?_some h
  have h2 := List.mem_of_find?_eq_some h
  simp at h1
  exact ⟨List.mem_range.mp h2, h1⟩

theorem memb_alloc_none_iff (num : Nat) (count : Nat → Bool) :
    memb_alloc num count = none ↔ ∀ i, i < num → count i = true := by
  simp [memb_alloc, List.find?_eq_none]

theorem memb_alloc_isSome_of_free {num : Nat} {count : Nat → Bool} {i : Nat}
    (hi : i < num) (hfree : count i = false) : ∃ t, memb_alloc num count = some t := by
  cases h : memb_alloc num count with
  | some t => exact ⟨t, rfl⟩
  | none =>
    have := (memb_alloc_none_iff num count).mp h i hi
    simp [hfree] at this

/-! ## `coap_new_transaction` -/

theorem new_fixed (cfg : Config) (hfixed : cfg.COCOA = false) (s : State) (mid addr port : Nat) :
    coap_new_transaction cfg s mid addr port =
      match memb_alloc cfg.COAP_MAX_OPEN_TRANSACTIONS s.transactions_memb_count with
      | none => (none, s)
      | some t => (some t, coap_new_transaction_at s t mid addr port) := by
  simp [coap_new_transaction, hfixed]

theorem new_none (cfg : Config) (s : State) (mid addr port : Nat)
    (h : (coap_new_transaction cfg s mid addr port).1 = none) :
    (coap_new_transaction cfg s mid addr port).2 = s := by
  unfold coap_new_transaction at h ⊢
  by_cases hc : (cfg.COCOA && decide (cfg.NSTART ≤ countTransactionsForAddress s addr)) = true
  · rw [if_pos hc]
  · rw [if_neg hc] at h ⊢
    cases ha : memb_alloc cfg.COAP_MAX_OPEN_TRANSACTIONS s.transactions_memb_count with
    | none => rfl
    | some u => rw [ha] at h; simp at h

/-- What a successful `coap_new_transaction` leaves. -/
theorem new_some (cfg : Config) (s : State) (mid addr port t : Nat)
    (h : (coap_new_transaction cfg s mid addr port).1 = some t) :
    t < cfg.COAP_MAX_OPEN_TRANSACTIONS ∧ s.transactions_memb_count t = false ∧
    (coap_new_transaction cfg s mid addr port).2 = coap_new_transaction_at s t mid addr port := by
  unfold coap_new_transaction at h ⊢
  by_cases hc : (cfg.COCOA && decide (cfg.NSTART ≤ countTransactionsForAddress s addr)) = true
  · rw [if_pos hc] at h; simp at h
  · rw [if_neg hc] at h ⊢
    cases ha : memb_alloc cfg.COAP_MAX_OPEN_TRANSACTIONS s.transactions_memb_count with
    | none => rw [ha] at h; simp at h
    | some u =>
      rw [ha] at h
      simp only [Option.some.injEq] at h
      subst h
      exact ⟨(memb_alloc_some ha).1, (memb_alloc_some ha).2, rfl⟩

/-! ## Lookup over sequences of issuance and completion -/

theorem list_add_of_not_mem {l : List Nat} {t : Nat} (h : t ∉ l) : list_add l t = l ++ [t] := by
  simp [list_add, list_remove, List.erase_of_not_mem h]

theorem registry_call_new_some (cfg : Config) (r : RegistryRun) (mid addr port t : Nat)
    (s' : State) (h : coap_new_transaction cfg r.state mid addr port = (some t, s')) :
    registry_call cfg r (RegistryCall.new mid addr port) =
      { state := s', active := r.active ++ [(t, mid)], refused := r.refused } := by
  simp [registry_call, h]

theorem registry_call_new_none (cfg : Config) (r : RegistryRun) (mid addr port : Nat)
    (s' : State) (h : coap_new_transaction cfg r.state mid addr port = (none, s')) :
    registry_call cfg r (RegistryCall.new mid addr port) =
      { state := s', active := r.active, refused := r.refused + 1 } := by
  simp [registry_call, h]

theorem inv_new (cfg : Config) (r : RegistryRun) (mid addr port : Nat)
    (hinv : RegistryInv cfg r) (hmid : mid ∉ r.active.map Prod.snd) :
    RegistryInv cfg (registry_call cfg r (RegistryCall.new mid addr port)) := by
  rcases hres : coap_new_transaction cfg r.state mid addr port with ⟨_ | t, s'⟩
  · rw [registry_call_new_none cfg r mid addr port s' hres]
    have hs : s' = r.state := by
      have := new_none cfg r.state mid addr port (by rw [hres])
      rw [hres] at this; exact this
    subst hs
    exact ⟨hinv.list_eq, hinv.nodup, hinv.mids_nodup, hinv.mid_eq, hinv.used, hinv.listed⟩
  · rw [registry_call_new_some cfg r mid addr port t s' hres]
    obtain ⟨htcap, htfree, hst⟩ := new_some cfg r.state mid addr port t (by rw [hres])
    rw [hres] at hst
    simp only at hst
    subst hst
    have htnot : t ∉ r.active.map Prod.fst := by
      intro hmem
      obtain ⟨e, he, rfl⟩ := List.mem_map.mp hmem
      have := (hinv.used e he).1
      rw [htfree] at this
      exact Bool.false_ne_true this
    have hne : ∀ e ∈ r.active, e.1 ≠ t := by
      intro e he heq
      exact htnot (List.mem_map.mpr ⟨e, he, heq⟩)
    refine ⟨?_, ?_, ?_, ?_, ?_, ?_⟩
    · simp only [coap_new_transaction_at, List.map_append, List.map_cons, List.map_nil]
      rw [list_add_of_not_mem (by rw [hinv.list_eq]; exact htnot), hinv.list_eq]
    · simp only [List.map_append, List.map_cons, List.map_nil]
      exact List.Nodup.append hinv.nodup (List.nodup_singleton t)
        (by simpa [List.disjoint_singleton] using htnot)
    · simp only [List.map_append, List.map_cons, List.map_nil]
      exact List.Nodup.append hinv.mids_nodup (List.nodup_singleton mid)
        (by simpa [List.disjoint_singleton] using hmid)
    · intro e he
      rcases List.mem_append.mp he with he | he
      · simp only [coap_new_transaction_at, Function.update_noteq (hne e he)]
        exact hinv.mid_eq e he
      · simp only [List.mem_singleton] at he
        subst he
        simp [coap_new_transaction_at]
    · intro e he
      rcases List.mem_append.mp he with he | he
      · simp only [coap_new_transaction_at, Function.update_noteq (hne e he)]
        exact hinv.used e he
      · simp only [List.mem_singleton] at he
        subst he
        simp [coap_new_transaction_at, htcap]
    · intro i hi hused
      simp only [List.map_append, List.map_cons, List.map_nil, List.mem_append,
        List.mem_singleton]
      by_cases hit : i = t
      · exact Or.inr hit
      · left
        simp only [coap_new_transaction_at, Function.update_noteq hit] at hused
        exact hinv.listed i hi hused

theorem inv_clear (cfg : Config) (r : RegistryRun) (t : Option Nat)
    (hinv : RegistryInv cfg r) :
    RegistryInv cfg (registry_call cfg r (RegistryCall.clear t)) := by
  unfold registry_call
  cases t with
  | none =>
    have hf : r.active.filter (fun e => !(some e.1 == (none : Option Nat))) = r.active := by
      apply List.filter_eq_self.mpr
      intro e _
      simp
    simp only [hf, coap_clear_transaction]
    exact ⟨hinv.list_eq, hinv.nodup, hinv.mids_nodup, hinv.mid_eq, hinv.used, hinv.listed⟩
  | some u =>
    have hf : r.active.filter (fun e => !(some e.1 == some u)) =
        r.active.filter (fun e => e.1 != u) := by
      apply List.filter_congr
      intro e _
      simp [bne]
    simp only [hf]
    have hsub : ∀ e, e ∈ r.active.filter (fun e => e.1 != u) → e ∈ r.active ∧ e.1 ≠ u := by
      intro e he
      have := List.mem_filter.mp he
      exact ⟨this.1, by simpa using this.2⟩
    refine ⟨?_, ?_, ?_, ?_, ?_, ?_⟩
    · simp only [clear_list]
      rw [hinv.list_eq, List.Nodup.erase_eq_filter hinv.nodup, List.filter_map]
      rfl
    · exact List.Nodup.sublist (List.Sublist.map _ (List.filter_sublist _)) hinv.nodup
    · exact List.Nodup.sublist (List.Sublist.map _ (List.filter_sublist _)) hinv.mids_nodup
    · intro e he
      obtain ⟨he1, hne⟩ := hsub e he
      simp only [clear_mem_other _ _ _ _ hne]
      exact hinv.mid_eq e he1
    · intro e he
      obtain ⟨he1, hne⟩ := hsub e he
      refine ⟨?_, (hinv.used e he1).2⟩
      simp only [clear_count, memb_free]
      split_ifs
      · rw [Function.update_noteq hne]; exact (hinv.used e he1).1
      · exact (hinv.used e he1).1
    · intro i hi hused
      simp only [clear_count, memb_free] at hused
      have hiu : i ≠ u := by
        intro h
        subst h
        rw [if_pos hi] at hused
        simp at hused
      have hused0 : r.state.transactions_memb_count i = true := by
        split_ifs at hused
        · rwa [Function.update_noteq hiu] at hused
        · exact hused
      obtain ⟨e, he, rfl⟩ := List.mem_map.mp (hinv.listed i hi hused0)
      exact List.mem_map.mpr ⟨e, List.mem_filter.mpr ⟨he, by simpa using hiu⟩, rfl⟩

theorem find_active (mem : Nat → coap_transaction_t) (act : List (Nat × Nat))
    (hmid : ∀ e ∈ act, (mem e.1).mid = e.2) (hnd : (act.map Prod.snd).Nodup)
    (e : Nat × Nat) (he : e ∈ act) :
    (act.map Prod.fst).find? (fun t => (mem t).mid == e.2) = some e.1 := by
  induction act with
  | nil => simp at he
  | cons a rest ih =>
    simp only [List.map_cons, List.nodup_cons] at hnd
    rcases List.mem_cons.mp he with rfl | hrest
    · simp [List.find?_cons, hmid e (List.mem_cons_self _ _)]
    · have hne : a.2 ≠ e.2 := by
        intro h
        exact hnd.1 (h ▸ List.mem_map.mpr ⟨e, hrest, rfl⟩)
      have hhead : ((mem a.1).mid == e.2) = false := by
        rw [hmid a (List.mem_cons_self _ _)]
        simpa using hne
      simp only [List.map_cons, List.find?_cons, hhead]
      exact ih (fun x hx => hmid x (List.mem_cons_of_mem _ hx)) hnd.2 hrest

theorem find_inactive (mem : Nat → coap_transaction_t) (act : List (Nat × Nat))
    (hmid : ∀ e ∈ act, (mem e.1).mid = e.2) (mid : Nat) (h : mid ∉ act.map Prod.snd) :
    (act.map Prod.fst).find? (fun t => (mem t).mid == mid) = none := by
  rw [List.find?_eq_none]
  intro t ht
  obtain ⟨e, he, rfl⟩ := List.mem_map.mp ht
  rw [hmid e he]
  intro heq
  exact h (List.mem_map.mpr ⟨e, he, by simpa using heq⟩)

theorem range_le_length_of_subset (n : Nat) (l : List Nat) (h : ∀ i, i < n → i ∈ l) :
    n ≤ l.length := by
  have hsub : List.range n ⊆ l := fun i hi => h i (List.mem_range.mp hi)
  have := (List.subperm_of_subset (List.nodup_range n) hsub).length_le
  simpa using this

/-- In fixed mode a call within capacity is not refused. -/
theorem new_within_capacity (cfg : Config) (hfixed : cfg.COCOA = false) (r : RegistryRun)
    (hinv : RegistryInv cfg r) (hcap : r.active.length < cfg.COAP_MAX_OPEN_TRANSACTIONS)
    (mid addr port : Nat) :
    ∃ t, (coap_new_transaction cfg r.state mid addr port).1 = some t := by
  rw [new_fixed cfg hfixed]
  cases ha : memb_alloc cfg.COAP_MAX_OPEN_TRANSACTIONS r.state.transactions_memb_count with
  | some t => exact ⟨t, rfl⟩
  | none =>
    exfalso
    have hall := (memb_alloc_none_iff _ _).mp ha
    have := range_le_length_of_subset cfg.COAP_MAX_OPEN_TRANSACTIONS (r.active.map Prod.fst)
      (fun i hi => hinv.listed i hi (hall i hi))
    simp at this
    omega

theorem registry_calls_inv (cfg : Config) (calls : List RegistryCall) :
    ∀ r : RegistryRun, RegistryInv cfg r → admissible cfg r calls →
      RegistryInv cfg (registry_calls cfg r calls) ∧
      (cfg.COCOA = false → (registry_calls cfg r calls).refused = r.refused) := by
  induction calls with
  | nil => intro r hinv _; exact ⟨hinv, fun _ => rfl⟩
  | cons c cs ih =>
    intro r hinv hadm
    obtain ⟨hc, hrest⟩ := hadm
    have hstep : RegistryInv cfg (registry_call cfg r c) ∧
        (cfg.COCOA = false → (registry_call cfg r c).refused = r.refused) := by
      cases c with
      | new mid addr port =>
        refine ⟨inv_new cfg r mid addr port hinv hc.2, fun hfixed => ?_⟩
        obtain ⟨t, ht⟩ := new_within_capacity cfg hfixed r hinv hc.1 mid addr port
        rcases hres : coap_new_transaction cfg r.state mid addr port with ⟨p, s'⟩
        rw [hres] at ht
        simp only at ht
        subst ht
        rw [registry_call_new_some cfg r mid addr port t s' hres]
      | clear t => exact ⟨inv_clear cfg r t hinv, fun _ => rfl⟩
    obtain ⟨hinv', href⟩ := ih (registry_call cfg r c) hstep.1 hrest
    refine ⟨hinv', fun hfixed => ?_⟩
    have h1 := href hfixed
    have h2 := hstep.2 hfixed
    simp only [registry_calls, List.foldl_cons] at h1 ⊢
    omega

theorem inv_start (cfg : Config) (s0 : State) (hlist : s0.transactions_list = [])
    (hpool : ∀ i, s0.transactions_memb_count i = false) :
    RegistryInv cfg { state := s0, active := [], refused := 0 } := by
  refine ⟨by simpa using hlist, by simp, by simp, by simp, by simp, ?_⟩
  intro i _ hi
  rw [hpool i] at hi
  exact absurd hi Bool.false_ne_true

/-- C1. From an empty registry and a free pool, after every sequence of
`coap_new_transaction` and `coap_clear_transaction` calls that stays within
the pool capacity and never issues a message id that an active transaction
has: `coap_get_transaction_by_mid(mid)` returns the transaction issued with
`mid` for every transaction that is still active, and NULL for every `mid`
that no active transaction has (cleared or never issued); in fixed mode no
call of `coap_new_transaction` of the sequence was refused. -/
theorem C1_lookup_finds_exactly_the_active (cfg : Config) (s0 : State)
    (hlist : s0.transactions_list = [])
    (hpool : ∀ i, s0.transactions_memb_count i = false)
    (calls : List RegistryCall)
    (hadm : admissible cfg { state := s0, active := [], refused := 0 } calls) :
    (∀ t mid, (t, mid) ∈ (registry_calls cfg { state := s0, active := [], refused := 0 } calls).active →
      coap_get_transaction_by_mid
        (registry_calls cfg { state := s0, active := [], refused := 0 } calls).state mid = some t) ∧
    (∀ mid,
      mid ∉ (registry_calls cfg { state := s0, active := [], refused := 0 } calls).active.map Prod.snd →
      coap_get_transaction_by_mid
        (registry_calls cfg { state := s0, active := [], refused := 0 } calls).state mid = none) ∧
    (cfg.COCOA = false →
      (registry_calls cfg { state := s0, active := [], refused := 0 } calls).refused = 0) := by
  obtain ⟨hinv, href⟩ := registry_calls_inv cfg calls _ (inv_start cfg s0 hlist hpool) hadm
  refine ⟨?_, ?_, href⟩
  · intro t mid hmem
    unfold coap_get_transaction_by_mid
    rw [hinv.list_eq]
    exact find_active _ _ hinv.mid_eq hinv.mids_nodup (t, mid) hmem
  · intro mid hmid
    unfold coap_get_transaction_by_mid
    rw [hinv.list_eq]
    exact find_inactive _ _ hinv.mid_eq mid hmid

/-- C1 at `example_calls` on a pool of two slots: 8 and 9 are found in the slots
1 and 0, the completed 7 is not found. -/
theorem C1_lookup_witness :
    admissible (fixed_config 2) { state := initial_state, active := [], refused := 0 }
      example_calls ∧
    coap_get_transaction_by_mid
      (registry_calls (fixed_config 2) { state := initial_state, active := [], refused := 0 }
        example_calls).state 8 = some 1 ∧
    coap_get_transaction_by_mid
      (registry_calls (fixed_config 2) { state := initial_state, active := [], refused := 0 }
        example_calls).state 9 = some 0 ∧
    coap_get_transaction_by_mid
      (registry_calls (fixed_config 2) { state := initial_state, active := [], refused := 0 }
        example_calls).state 7 = none := by
  have hadm : admissible (fixed_config 2)
      { state := initial_state, active := [], refused := 0 } example_calls := by
    refine ⟨⟨by decide, by decide⟩, ⟨by decide, by decide⟩, trivial, ⟨by decide, by decide⟩,
      trivial⟩
  have h := C1_lookup_finds_exactly_the_active (fixed_config 2) initial_state rfl
    (fun _ => rfl) example_calls hadm
  exact ⟨hadm, h.1 1 8 (by decide), h.1 0 9 (by decide), h.2.1 7 (by decide)⟩

/-! ## `coap_clear_transaction` twice -/

theorem rtt_estimations_record_idem (addr rtt now : Nat) :
    ∀ (l l' : List coap_rtt_estimations_t), rtt_estimations_record addr rtt now l = some l' →
      rtt_estimations_record addr rtt now l' = some l' := by
  intro l
  induction l with
  | nil => intro l' h; simp [rtt_estimations_record] at h
  | cons e es ih =>
    intro l' h
    unfold rtt_estimations_record at h
    by_cases he : e.addr = addr
    · rw [if_pos he] at h
      simp only [Option.some.injEq] at h
      subst h
      simp [rtt_estimations_record, he]
    · rw [if_neg he] at h
      cases hr : rtt_estimations_record addr rtt now es with
      | none => rw [hr] at h; simp at h
      | some l2 =>
        rw [hr] at h
        simp only [Option.map_some', Option.some.injEq] at h
        subst h
        simp [rtt_estimations_record, he, ih l2 hr]

theorem rtt_estimations_record_append (addr rtt now : Nat) :
    ∀ (l : List coap_rtt_estimations_t), rtt_estimations_record addr rtt now l = none →
      rtt_estimations_record addr rtt now
        (l ++ [{ addr := addr, rtt := rtt, rttvar := 0, srtt := 0, lastupdated := now }]) =
      some (l ++ [{ addr := addr, rtt := rtt, rttvar := 0, srtt := 0, lastupdated := now }]) := by
  intro l
  induction l with
  | nil => intro _; simp [rtt_estimations_record]
  | cons e es ih =>
    intro h
    unfold rtt_estimations_record at h
    by_cases he : e.addr = addr
    · rw [if_pos he] at h; simp at h
    · rw [if_neg he] at h
      have hr : rtt_estimations_record addr rtt now es = none := by
        cases hr : rtt_estimations_record addr rtt now es with
        | none => rfl
        | some l2 => rw [hr] at h; simp at h
      simp [rtt_estimations_record, he, ih hr]

theorem clear_rtt_idem (cfg : Config) (now : Nat) (tr : coap_transaction_t)
    (l : List coap_rtt_estimations_t) :
    coap_clear_transaction_rtt cfg now tr (coap_clear_transaction_rtt cfg now tr l) =
      coap_clear_transaction_rtt cfg now tr l := by
  unfold coap_clear_transaction_rtt
  by_cases h1 : tr.retrans_counter < cfg.COAP_MAX_RETRANSMIT
  · simp only [if_pos h1]
    by_cases h2 : (COAP_TYPE_CON == coap_header_type tr.packet) = true
    · simp only [if_pos h2]
      generalize hrtt : (if (now + 2 ^ cfg.clock_time_bits
          - tr.timestamp % 2 ^ cfg.clock_time_bits) % 2 ^ cfg.clock_time_bits < cfg.CLOCK_SECOND
          then cfg.CLOCK_SECOND
          else (now + 2 ^ cfg.clock_time_bits
            - tr.timestamp % 2 ^ cfg.clock_time_bits) % 2 ^ cfg.clock_time_bits) = rtt
      cases hr : rtt_estimations_record tr.addr rtt now l with
      | some l2 =>
        simp only [rtt_estimations_record_idem _ _ _ l l2 hr]
      | none =>
        by_cases h3 : l.length < cfg.COAP_MAX_RTT_ESTIMATIONS
        · simp only [if_pos h3, rtt_estimations_record_append _ _ _ l hr]
        · simp only [if_neg h3, hr]
    · simp only [if_neg h2]
  · simp only [if_neg h1]

/-- The state that `coap_clear_transaction(t)` leaves, field by field. -/
theorem clear_some_eq (cfg : Config) (s : State) (t : Nat) :
    coap_clear_transaction cfg s (some t) =
      { transactions_memb_count :=
          memb_free cfg.COAP_MAX_OPEN_TRANSACTIONS s.transactions_memb_count t,
        transactions_memb_mem := Function.update s.transactions_memb_mem t
          { s.transactions_memb_mem t with
            retrans_timer := etimer_stop (s.transactions_memb_mem t).retrans_timer },
        transactions_list := s.transactions_list.erase t,
        rtt_estimations_list :=
          if cfg.COCOA then
            coap_clear_transaction_rtt cfg s.clock (s.transactions_memb_mem t)
              s.rtt_estimations_list
          else s.rtt_estimations_list,
        transaction_handler_process := s.transaction_handler_process,
        process_current := s.process_current,
        clock := s.clock,
        random_seq := s.random_seq,
        random_pos := s.random_pos,
        trace := s.trace } := by
  unfold coap_clear_transaction
  by_cases hc : cfg.COCOA = true
  · simp only [if_pos hc]; rfl
  · simp only [if_neg hc]; rfl

theorem memb_free_idem (num : Nat) (count : Nat → Bool) (t : Nat) :
    memb_free num (memb_free num count t) t = memb_free num count t := by
  unfold memb_free
  split_ifs
  · simp
  · rfl

theorem erase_erase_self_of_nodup {l : List Nat} (h : l.Nodup) (t : Nat) :
    (l.erase t).erase t = l.erase t :=
  List.erase_of_not_mem (h.not_mem_erase)

theorem clear_idem (cfg : Config) (s : State) (t : Option Nat)
    (hnodup : s.transactions_list.Nodup) :
    coap_clear_transaction cfg (coap_clear_transaction cfg s t) t =
      coap_clear_transaction cfg s t := by
  cases t with
  | none => rfl
  | some t =>
    rw [clear_some_eq cfg (coap_clear_transaction cfg s (some t)) t, clear_some_eq cfg s t]
    ext1
    · simp only [memb_free_idem]
    · simp only [Function.update_same, Function.update_idem]
      rfl
    · simp only [erase_erase_self_of_nodup hnodup]
    · simp only [Function.update_same]
      by_cases hc : cfg.COCOA = true
      · simp only [if_pos hc]
        exact clear_rtt_idem cfg s.clock _ _
      · simp only [if_neg hc]
    all_goals rfl

/-- C4. On a well-formed list (no element twice), a second
`coap_clear_transaction(t)` directly after the first leaves the whole state,
with the registry, the pool and the effect trace, as the first call left it,
and neither call adds an effect (no callback is invoked). -/
theorem C4_clear_twice (cfg : Config) (s : State) (t : Option Nat)
    (hnodup : s.transactions_list.Nodup) :
    coap_clear_transaction cfg (coap_clear_transaction cfg s t) t =
      coap_clear_transaction cfg s t ∧
    free_slots cfg (coap_clear_transaction cfg (coap_clear_transaction cfg s t) t) =
      free_slots cfg (coap_clear_transaction cfg s t) ∧
    (coap_clear_transaction cfg s t).trace = s.trace ∧
    (coap_clear_transaction cfg (coap_clear_transaction cfg s t) t).trace = s.trace := by
  refine ⟨clear_idem cfg s t hnodup, ?_, clear_trace cfg s t, ?_⟩
  · rw [clear_idem cfg s t hnodup]
  · rw [clear_trace, clear_trace]

/-- C4 at `two_peers_state` (COCOA build) and the transaction in slot 0. -/
theorem C4_clear_twice_witness :
    two_peers_state.transactions_list.Nodup ∧
    coap_clear_transaction (cocoa_config 2)
        (coap_clear_transaction (cocoa_config 2) two_peers_state (some 0)) (some 0) =
      coap_clear_transaction (cocoa_config 2) two_peers_state (some 0) :=
  ⟨by decide, (C4_clear_twice (cocoa_config 2) two_peers_state (some 0) (by decide)).1⟩

/-! ## Capacity -/

/-- C5. In fixed mode `coap_new_transaction` returns NULL exactly when every
one of the `COAP_MAX_OPEN_TRANSACTIONS` slots is in use, and then it leaves
the state (registry, transactions, pool) as it was. -/
theorem C5_new_null_iff_pool_full (cfg : Config) (hfixed : cfg.COCOA = false) (s : State)
    (mid addr port : Nat) :
    ((coap_new_transaction cfg s mid addr port).1 = none ↔
      ∀ i, i < cfg.COAP_MAX_OPEN_TRANSACTIONS → s.transactions_memb_count i = true) ∧
    ((coap_new_transaction cfg s mid addr port).1 = none →
      (coap_new_transaction cfg s mid addr port).2 = s) := by
  refine ⟨?_, new_none cfg s mid addr port⟩
  rw [new_fixed cfg hfixed, ← memb_alloc_none_iff]
  cases memb_alloc cfg.COAP_MAX_OPEN_TRANSACTIONS s.transactions_memb_count <;> simp

/-- C5 in the scenario with one slot: with A issued, issuing B returns NULL and
changes nothing. -/
theorem C5_new_null_witness :
    (fixed_config 1).COCOA = false ∧
    (coap_new_transaction (fixed_config 1) scenario_A_issued 8 1 5683).1 = none ∧
    (coap_new_transaction (fixed_config 1) scenario_A_issued 8 1 5683).2 = scenario_A_issued := by
  have h := C5_new_null_iff_pool_full (fixed_config 1) rfl scenario_A_issued 8 1 5683
  have hnull : (coap_new_transaction (fixed_config 1) scenario_A_issued 8 1 5683).1 = none :=
    h.1.mpr (by decide)
  exact ⟨rfl, hnull, h.2 hnull⟩

theorem memb_alloc_after_free (num : Nat) (count : Nat → Bool) (a : Nat) (ha : a < num)
    (hfull : ∀ i, i < num → count i = true) :
    memb_alloc num (memb_free num count a) = some a := by
  unfold memb_alloc memb_free
  rw [if_pos ha, List.find?_range_eq_some]
  refine ⟨by simp, List.mem_range.mpr ha, ?_⟩
  intro j hj
  have : j ≠ a := by omega
  simp [Function.update_noteq this, hfull j (by omega)]

/-- C6, amended. When the pool is full and `A` is one of its slots, after
`coap_clear_transaction(A)` the next `coap_new_transaction` succeeds and
returns the slot that `A` held, provided the per-peer admission limit of the
COCOA build does not refuse the call (fixed mode, or fewer than `NSTART`
listed transactions for the peer). -/
theorem C6_new_after_clear (cfg : Config) (s : State) (A mid addr port : Nat)
    (hA : A < cfg.COAP_MAX_OPEN_TRANSACTIONS)
    (hfull : ∀ i, i < cfg.COAP_MAX_OPEN_TRANSACTIONS → s.transactions_memb_count i = true)
    (hpeer : cfg.COCOA = false ∨
      countTransactionsForAddress (coap_clear_transaction cfg s (some A)) addr < cfg.NSTART) :
    (coap_new_transaction cfg (coap_clear_transaction cfg s (some A)) mid addr port).1 =
      some A := by
  unfold coap_new_transaction
  have hguard : ¬ (cfg.COCOA && decide (cfg.NSTART ≤
      countTransactionsForAddress (coap_clear_transaction cfg s (some A)) addr)) = true := by
    rcases hpeer with h | h
    · simp [h]
    · simp [h]
  rw [if_neg hguard, clear_count, memb_alloc_after_free _ _ A hA hfull]

/-- C6 in the scenario of the specification: capacity 1, A issued with message
id 7; issuing B fails, and after `coap_clear_transaction(A)` it succeeds. -/
theorem C6_new_after_clear_witness :
    (coap_new_transaction (fixed_config 1) scenario_A_issued 8 1 5683).1 = none ∧
    (coap_new_transaction (fixed_config 1)
      (coap_clear_transaction (fixed_config 1) scenario_A_issued (some 0)) 8 1 5683).1 =
        some 0 :=
  ⟨by decide,
    C6_new_after_clear (fixed_config 1) scenario_A_issued 0 8 1 5683 (by decide) (by decide)
      (Or.inl rfl)⟩

/-- C6 as stated fails in a COCOA build: with two slots, both in use by
transactions to the peers 1 and 2, the pool is full and a new transaction is
refused; after `coap_clear_transaction` of the transaction to peer 1 a new
transaction to peer 2 is still refused, by the `NSTART` guard. -/
theorem C6_counterexample :
    free_slots (cocoa_config 2) two_peers_state = 0 ∧
    two_peers_state.transactions_list = [0, 1] ∧
    (coap_new_transaction (cocoa_config 2) two_peers_state 9 2 5683).1 = none ∧
    free_slots (cocoa_config 2)
      (coap_clear_transaction (cocoa_config 2) two_peers_state (some 0)) = 1 ∧
    (coap_new_transaction (cocoa_config 2)
      (coap_clear_transaction (cocoa_config 2) two_peers_state (some 0)) 9 2 5683).1 = none := by
  decide

/-! ## `coap_send_transaction`, branch by branch -/

theorem send_noncon (cfg : Config) (s : State) (t : Nat)
    (hnon : (COAP_TYPE_CON == coap_header_type (s.transactions_memb_mem t).packet) = false) :
    coap_send_transaction cfg s t =
      coap_clear_transaction cfg
        (emit s (Effect.coap_send_message (s.transactions_memb_mem t).addr
          (s.transactions_memb_mem t).port t (s.transactions_memb_mem t).packet
          (s.transactions_memb_mem t).packet_len)) (some t) := by
  unfold coap_send_transaction
  simp only [hnon, Bool.false_eq_true, if_false]

theorem send_exhausted (cfg : Config) (s : State) (t : Nat)
    (hcon : (COAP_TYPE_CON == coap_header_type (s.transactions_memb_mem t).packet) = true)
    (hmax : ¬ (s.transactions_memb_mem t).retrans_counter < cfg.COAP_MAX_RETRANSMIT) :
    coap_send_transaction cfg s t =
      match (s.transactions_memb_mem t).callback with
      | some fn =>
        emit (coap_clear_transaction cfg
          (emit (emit s (Effect.coap_send_message (s.transactions_memb_mem t).addr
            (s.transactions_memb_mem t).port t (s.transactions_memb_mem t).packet
            (s.transactions_memb_mem t).packet_len))
            (Effect.coap_remove_observer_by_client (s.transactions_memb_mem t).addr
              (s.transactions_memb_mem t).port)) (some t))
          (Effect.callback fn (s.transactions_memb_mem t).callback_data none)
      | none =>
        coap_clear_transaction cfg
          (emit (emit s (Effect.coap_send_message (s.transactions_memb_mem t).addr
            (s.transactions_memb_mem t).port t (s.transactions_memb_mem t).packet
            (s.transactions_memb_mem t).packet_len))
            (Effect.coap_remove_observer_by_client (s.transactions_memb_mem t).addr
              (s.transactions_memb_mem t).port)) (some t) := by
  unfold coap_send_transaction
  simp only [hcon, if_true, if_neg hmax]

/-- A confirmable transaction below the retransmission limit is kept: one
datagram, the timer armed with `armed_interval`, nothing else of the registry
touched. -/
theorem send_keep (cfg : Config) (s : State) (t : Nat)
    (hcon : (COAP_TYPE_CON == coap_header_type (s.transactions_memb_mem t).packet) = true)
    (hlt : (s.transactions_memb_mem t).retrans_counter < cfg.COAP_MAX_RETRANSMIT) :
    (coap_send_transaction cfg s t).transactions_list = s.transactions_list ∧
    (coap_send_transaction cfg s t).transactions_memb_count = s.transactions_memb_count ∧
    (∀ u, u ≠ t → (coap_send_transaction cfg s t).transactions_memb_mem u =
      s.transactions_memb_mem u) ∧
    (coap_send_transaction cfg s t).trace = s.trace ++
      [Effect.coap_send_message (s.transactions_memb_mem t).addr (s.transactions_memb_mem t).port
          t (s.transactions_memb_mem t).packet (s.transactions_memb_mem t).packet_len,
        Effect.etimer_restart t (armed_interval cfg s t)] ∧
    ((coap_send_transaction cfg s t).transactions_memb_mem t).retrans_timer =
      { timer := { start := s.clock, interval := armed_interval cfg s t },
        p := s.transaction_handler_process } ∧
    ((coap_send_transaction cfg s t).transactions_memb_mem t).retrans_counter =
      (s.transactions_memb_mem t).retrans_counter ∧
    ((coap_send_transaction cfg s t).transactions_memb_mem t).mid =
      (s.transactions_memb_mem t).mid ∧
    ((coap_send_transaction cfg s t).transactions_memb_mem t).packet =
      (s.transactions_memb_mem t).packet ∧
    ((coap_send_transaction cfg s t).transactions_memb_mem t).callback =
      (s.transactions_memb_mem t).callback ∧
    ((coap_send_transaction cfg s t).transactions_memb_mem t).callback_data =
      (s.transactions_memb_mem t).callback_data ∧
    ((coap_send_transaction cfg s t).transactions_memb_mem t).addr =
      (s.transactions_memb_mem t).addr ∧
    ((coap_send_transaction cfg s t).transactions_memb_mem t).port =
      (s.transactions_memb_mem t).port ∧
    ((coap_send_transaction cfg s t).transactions_memb_mem t).packet_len =
      (s.transactions_memb_mem t).packet_len ∧
    (coap_send_transaction cfg s t).clock = s.clock ∧
    (coap_send_transaction cfg s t).transaction_handler_process =
      s.transaction_handler_process ∧
    (coap_send_transaction cfg s t).process_current = s.process_current := by
  unfold coap_send_transaction armed_interval
  simp only [hcon, if_true, if_pos hlt]
  by_cases h0 : (s.transactions_memb_mem t).retrans_counter = 0
  · by_cases hc : cfg.COCOA = true
    · simp only [if_pos h0, if_pos hc]
      refine ⟨rfl, rfl, ?_, ?_, ?_, ?_, ?_, ?_, ?_, ?_, ?_, ?_, ?_, rfl, rfl, rfl⟩ <;>
        simp [emit, modify_transaction, set_interval, etimer_restart, Function.update_noteq]
      · intro u hu; simp [Function.update_noteq hu]
    · simp only [if_pos h0, if_neg hc]
      refine ⟨rfl, rfl, ?_, ?_, ?_, ?_, ?_, ?_, ?_, ?_, ?_, ?_, ?_, rfl, rfl, rfl⟩ <;>
        simp [emit, modify_transaction, set_interval, etimer_restart, random_rand]
      · intro u hu; simp [Function.update_noteq hu]
  · simp only [if_neg h0]
    refine ⟨rfl, rfl, ?_, ?_, ?_, ?_, ?_, ?_, ?_, ?_, ?_, ?_, ?_, rfl, rfl, rfl⟩ <;>
      simp [emit, modify_transaction, set_interval, etimer_restart]
    · intro u hu; simp [Function.update_noteq hu]

/-- C7. For a transaction whose packet byte 0 carries a type other than
confirmable (a slot of the pool, on a well-formed list),
`coap_send_transaction` adds exactly one effect, the datagram (so no timer is
armed and no callback invoked), leaves the timer stopped with its start and
interval untouched, and returns with the transaction off the list and its slot
free. -/
theorem C7_nonconfirmable_sent_once_and_removed (cfg : Config) (s : State) (t : Nat)
    (hnon : coap_header_type (s.transactions_memb_mem t).packet ≠ COAP_TYPE_CON)
    (hslot : t < cfg.COAP_MAX_OPEN_TRANSACTIONS)
    (hnodup : s.transactions_list.Nodup) :
    (coap_send_transaction cfg s t).trace = s.trace ++
      [Effect.coap_send_message (s.transactions_memb_mem t).addr (s.transactions_memb_mem t).port
        t (s.transactions_memb_mem t).packet (s.transactions_memb_mem t).packet_len] ∧
    ((coap_send_transaction cfg s t).transactions_memb_mem t).retrans_timer =
      etimer_stop (s.transactions_memb_mem t).retrans_timer ∧
    t ∉ (coap_send_transaction cfg s t).transactions_list ∧
    (coap_send_transaction cfg s t).transactions_list = s.transactions_list.erase t ∧
    (coap_send_transaction cfg s t).transactions_memb_count t = false := by
  have hb : (COAP_TYPE_CON == coap_header_type (s.transactions_memb_mem t).packet) = false := by
    rw [beq_eq_false_iff_ne]
    exact fun h => hnon h.symm
  rw [send_noncon cfg s t hb]
  refine ⟨?_, ?_, ?_, ?_, ?_⟩
  · rw [clear_trace]; rfl
  · rw [clear_mem_same]; rfl
  · rw [clear_list]; exact hnodup.not_mem_erase
  · rw [clear_list]; rfl
  · rw [clear_count]; simp [memb_free, hslot]

/-! ## The loop of `coap_check_transactions` -/

theorem list_item_next_not_mem {l : List Nat} {t : Nat} (h : t ∉ l) :
    list_item_next l t = none := by
  induction l with
  | nil => rfl
  | cons x xs ih =>
    simp only [List.mem_cons, not_or] at h
    simp [list_item_next, Ne.symm h.1, ih h.2]

theorem list_item_next_at {pre rest : List Nat} {t : Nat} (h : t ∉ pre) :
    list_item_next (pre ++ t :: rest) t = rest.head? := by
  induction pre with
  | nil => simp [list_item_next]
  | cons x xs ih =>
    simp only [List.mem_cons, not_or] at h
    simp [list_item_next, Ne.symm h.1, ih h.2]

/-- The body of the loop leaves the list as it is or takes its own element
off. -/
theorem body_list (cfg : Config) (s : State) (u : Nat) :
    (coap_check_transactions_body cfg s u).transactions_list = s.transactions_list ∨
    (coap_check_transactions_body cfg s u).transactions_list = s.transactions_list.erase u := by
  unfold coap_check_transactions_body
  split_ifs with hexp
  · generalize hs1 : modify_transaction s u
      (fun tr => { tr with retrans_counter := tr.retrans_counter + 1 }) = s1
    have hl : s1.transactions_list = s.transactions_list := by rw [← hs1]; rfl
    rw [← hl]
    by_cases hcon : (COAP_TYPE_CON == coap_header_type (s1.transactions_memb_mem u).packet) = true
    · by_cases hlt : (s1.transactions_memb_mem u).retrans_counter < cfg.COAP_MAX_RETRANSMIT
      · exact Or.inl (send_keep cfg s1 u hcon hlt).1
      · right
        rw [send_exhausted cfg s1 u hcon hlt]
        split
        · simp only [emit_list, clear_list]
        · simp only [emit_list, clear_list]
    · right
      rw [send_noncon cfg s1 u (by simpa using hcon)]
      simp only [emit_list, clear_list]
  · exact Or.inl rfl

/-- The body of the loop writes no other slot than its own. -/
theorem body_mem_other (cfg : Config) (s : State) (u v : Nat) (h : v ≠ u) :
    (coap_check_transactions_body cfg s u).transactions_memb_mem v =
      s.transactions_memb_mem v := by
  unfold coap_check_transactions_body
  split_ifs with hexp
  · generalize hs1 : modify_transaction s u
      (fun tr => { tr with retrans_counter := tr.retrans_counter + 1 }) = s1
    have hm : s1.transactions_memb_mem v = s.transactions_memb_mem v := by
      rw [← hs1]; exact modify_mem_other s u v _ h
    rw [← hm]
    by_cases hcon : (COAP_TYPE_CON == coap_header_type (s1.transactions_memb_mem u).packet) = true
    · by_cases hlt : (s1.transactions_memb_mem u).retrans_counter < cfg.COAP_MAX_RETRANSMIT
      · exact (send_keep cfg s1 u hcon hlt).2.2.1 v h
      · rw [send_exhausted cfg s1 u hcon hlt]
        split
        · simp only [emit_mem, clear_mem_other _ _ _ _ h]
        · simp only [emit_mem, clear_mem_other _ _ _ _ h]
    · rw [send_noncon cfg s1 u (by simpa using hcon)]
      simp only [emit_mem, clear_mem_other _ _ _ _ h]
  · rfl

theorem body_nodup (cfg : Config) (s : State) (u : Nat) (h : s.transactions_list.Nodup) :
    (coap_check_transactions_body cfg s u).transactions_list.Nodup := by
  rcases body_list cfg s u with hl | hl
  · rw [hl]; exact h
  · rw [hl]; exact h.erase u

/-- On a list without repetition the pointer loop visits the listed elements
in order and ends after the first element that its body removed; the fuel
suffices. -/
theorem check_from_eq (cfg : Config) :
    ∀ (rest : List Nat) (fuel : Nat) (s : State) (pre : List Nat) (u : Nat),
      s.transactions_list = pre ++ u :: rest → s.transactions_list.Nodup →
      rest.length < fuel →
      coap_check_transactions_loop cfg fuel s (some u) = some (check_from cfg s (u :: rest)) := by
  intro rest
  induction rest with
  | nil =>
    intro fuel s pre u hl hnd hfuel
    obtain ⟨f, rfl⟩ : ∃ f, fuel = f + 1 := ⟨fuel - 1, by omega⟩
    have hupre : u ∉ pre := by
      rw [hl] at hnd
      exact fun h => (List.nodup_append.mp hnd).2.2 h (List.mem_cons_self _ _)
    simp only [coap_check_transactions_loop, check_from]
    rcases body_list cfg s u with hb | hb
    · have hmem : u ∈ (coap_check_transactions_body cfg s u).transactions_list := by
        rw [hb, hl]; simp
      rw [if_pos hmem, hb, hl, list_item_next_at hupre]
      simp [coap_check_transactions_loop]
    · have hmem : u ∉ (coap_check_transactions_body cfg s u).transactions_list := by
        rw [hb]; exact hnd.not_mem_erase
      rw [if_neg hmem, list_item_next_not_mem hmem]
      simp [coap_check_transactions_loop]
  | cons v rest ih =>
    intro fuel s pre u hl hnd hfuel
    obtain ⟨f, rfl⟩ : ∃ f, fuel = f + 1 := ⟨fuel - 1, by omega⟩
    have hupre : u ∉ pre := by
      rw [hl] at hnd
      exact fun h => (List.nodup_append.mp hnd).2.2 h (List.mem_cons_self _ _)
    rw [coap_check_transactions_loop, check_from]
    rcases body_list cfg s u with hb | hb
    · have hmem : u ∈ (coap_check_transactions_body cfg s u).transactions_list := by
        rw [hb, hl]; simp
      rw [if_pos hmem, hb, hl, list_item_next_at hupre]
      simp only [List.head?_cons]
      apply ih f (coap_check_transactions_body cfg s u) (pre ++ [u]) v
      · rw [hb, hl]; simp
      · rw [hb]; exact hnd
      · simp only [List.length_cons] at hfuel; omega
    · have hmem : u ∉ (coap_check_transactions_body cfg s u).transactions_list := by
        rw [hb]; exact hnd.not_mem_erase
      rw [if_neg hmem, list_item_next_not_mem hmem]
      simp [coap_check_transactions_loop]

/-- On a list without repetition `coap_check_transactions` returns, with the
state of `check_from`. -/
theorem check_eq (cfg : Config) (s : State) (hnd : s.transactions_list.Nodup) :
    coap_check_transactions cfg s = some (check_from cfg s s.transactions_list) := by
  unfold coap_check_transactions list_head
  cases hl : s.transactions_list with
  | nil => simp [coap_check_transactions_loop, check_from]
  | cons u rest =>
    simp only [List.head?_cons, List.length_cons]
    have := check_from_eq cfg rest (rest.length + 1) s [] u (by simpa using hl) hnd (by omega)
    rw [this]

theorem body_not_expired (cfg : Config) (s : State) (u : Nat)
    (h : etimer_expired (s.transactions_memb_mem u).retrans_timer = false) :
    coap_check_transactions_body cfg s u = s := by
  simp [coap_check_transactions_body, h]

theorem check_from_skip (cfg : Config) :
    ∀ (l : List Nat) (s : State),
      (∀ u, u ∈ l → etimer_expired (s.transactions_memb_mem u).retrans_timer = false) →
      check_from cfg s l = s := by
  intro l
  induction l with
  | nil => intro s _; rfl
  | cons u rest ih =>
    intro s h
    have hb := body_not_expired cfg s u (h u (List.mem_cons_self _ _))
    simp only [check_from, hb]
    rw [ih s (fun v hv => h v (List.mem_cons_of_mem _ hv))]
    simp

theorem check_from_only (cfg : Config) (t : Nat) (post : List Nat) :
    ∀ (pre : List Nat) (s : State),
      (∀ u, u ∈ pre → u ∈ s.transactions_list ∧
        etimer_expired (s.transactions_memb_mem u).retrans_timer = false) →
      (∀ u, u ∈ post → u ≠ t ∧
        etimer_expired (s.transactions_memb_mem u).retrans_timer = false) →
      check_from cfg s (pre ++ t :: post) = coap_check_transactions_body cfg s t := by
  intro pre
  induction pre with
  | nil =>
    intro s _ hpost
    simp only [List.nil_append, check_from]
    rw [check_from_skip cfg post (coap_check_transactions_body cfg s t)
      (fun u hu => by rw [body_mem_other cfg s t u (hpost u hu).1]; exact (hpost u hu).2)]
    simp
  | cons u rest ih =>
    intro s hpre hpost
    have hu := hpre u (List.mem_cons_self _ _)
    have hb := body_not_expired cfg s u hu.2
    simp only [List.cons_append, check_from, hb, if_pos hu.1]
    exact ih s (fun v hv => hpre v (List.mem_cons_of_mem _ hv)) hpost

/-- When no other listed timer has expired, a poll is the body of the loop for
`t`. -/
theorem check_only (cfg : Config) (s : State) (t : Nat) (hnd : s.transactions_list.Nodup)
    (ht : t ∈ s.transactions_list)
    (hothers : ∀ u, u ∈ s.transactions_list → u ≠ t →
      etimer_expired (s.transactions_memb_mem u).retrans_timer = false) :
    coap_check_transactions cfg s = some (coap_check_transactions_body cfg s t) := by
  rw [check_eq cfg s hnd]
  obtain ⟨pre, post, hl⟩ := List.append_of_mem ht
  have hnd2 := hnd
  rw [hl] at hnd2
  have hdis := (List.nodup_append.mp hnd2).2.2
  have hpost := (List.nodup_cons.mp (List.nodup_append.mp hnd2).2.1).1
  have hmem : ∀ u, u ∈ pre ∨ u ∈ post → u ∈ s.transactions_list := by
    intro u hu
    rw [hl]
    rcases hu with h | h
    · exact List.mem_append_left _ h
    · exact List.mem_append_right _ (List.mem_cons_of_mem _ h)
  have h := check_from_only cfg t post pre s
    (fun u hu => ⟨hmem u (Or.inl hu),
      hothers u (hmem u (Or.inl hu)) (fun h => hdis hu (h ▸ List.mem_cons_self _ _))⟩)
    (fun u hu => ⟨fun h => hpost (h ▸ hu),
      hothers u (hmem u (Or.inr hu)) (fun h => hpost (h ▸ hu))⟩)
  rw [← hl] at h
  rw [h]

/-! ## A confirmable transaction that is never completed -/

theorem expired_and_counted_mem_same (s : State) (t : Nat) :
    (expired_and_counted s t).transactions_memb_mem t =
      { s.transactions_memb_mem t with
        retrans_timer := etimer_stop (s.transactions_memb_mem t).retrans_timer,
        retrans_counter := (s.transactions_memb_mem t).retrans_counter + 1 } := by
  simp [expired_and_counted, etimer_expire, modify_transaction]

theorem expired_and_counted_mem_other (s : State) (t u : Nat) (h : u ≠ t) :
    (expired_and_counted s t).transactions_memb_mem u = s.transactions_memb_mem u := by
  simp [expired_and_counted, etimer_expire, modify_transaction, Function.update_noteq h]

theorem expire_poll_eq (cfg : Config) (s : State) (t : Nat) (hnd : s.transactions_list.Nodup)
    (ht : t ∈ s.transactions_list)
    (hothers : ∀ u, u ∈ s.transactions_list → u ≠ t →
      etimer_expired (s.transactions_memb_mem u).retrans_timer = false) :
    expire_and_poll cfg t s = some (coap_send_transaction cfg (expired_and_counted s t) t) := by
  unfold expire_and_poll
  rw [check_only cfg (etimer_expire s t) t hnd ht
    (fun u hu hne => by
      rw [show (etimer_expire s t).transactions_memb_mem u = s.transactions_memb_mem u from
        modify_mem_other s t u _ hne]
      exact hothers u hu hne)]
  have hexp : etimer_expired ((etimer_expire s t).transactions_memb_mem t).retrans_timer = true := by
    simp [etimer_expire, etimer_expired, etimer_stop]
  simp only [coap_check_transactions_body, hexp, if_true]
  rfl

theorem filter_callback_append_sends (tr : List Effect) (a p u : Nat) (d : List Nat) (n i : Nat) :
    (tr ++ [Effect.coap_send_message a p u d n, Effect.etimer_restart u i]).filter is_callback =
      tr.filter is_callback := by
  simp [List.filter_append, List.filter_cons, is_callback]

/-- One more expiry below the limit: the transaction is retransmitted and
stays pending, and no callback is invoked. -/
theorem pending_step (cfg : Config) (s : State) (t mid fn data k : Nat) (base : List Effect)
    (h : Pending s t mid fn data k base) (hk : k + 1 < cfg.COAP_MAX_RETRANSMIT) :
    ∃ s', expire_and_poll cfg t s = some s' ∧ Pending s' t mid fn data (k + 1) base := by
  refine ⟨_, expire_poll_eq cfg s t h.nodup h.listed (fun u hu hne => (h.others u hu hne).1), ?_⟩
  have hm := expired_and_counted_mem_same s t
  have hcon : (COAP_TYPE_CON ==
      coap_header_type ((expired_and_counted s t).transactions_memb_mem t).packet) = true := by
    rw [hm]; exact h.confirmable
  have hlt : ((expired_and_counted s t).transactions_memb_mem t).retrans_counter <
      cfg.COAP_MAX_RETRANSMIT := by
    rw [hm]; simp only; rw [h.counter]; exact hk
  obtain ⟨hl, _, hother, htrace, _, hcnt, hmid, hpkt, hcb, hcbd, _⟩ :=
    send_keep cfg (expired_and_counted s t) t hcon hlt
  have hl0 : (expired_and_counted s t).transactions_list = s.transactions_list := rfl
  refine ⟨?_, ?_, ?_, ?_, ?_, ?_, ?_, ?_, ?_⟩
  · rw [hl, hl0]; exact h.nodup
  · rw [hl, hl0]; exact h.listed
  · rw [hpkt, hm]; exact h.confirmable
  · rw [hcnt, hm]; simp only; rw [h.counter]
  · rw [hcb, hm]; exact h.callback
  · rw [hcbd, hm]; exact h.callback_data
  · rw [hmid, hm]; exact h.mid_eq
  · intro u hu hne
    rw [hl, hl0] at hu
    rw [hother u hne, expired_and_counted_mem_other s t u hne]
    exact h.others u hu hne
  · rw [htrace, filter_callback_append_sends]
    exact h.callbacks

/-- The send that finds the limit reached: the callback is invoked once, with a
NULL response and the registered context, and the transaction is gone. -/
theorem send_last (cfg : Config) (s : State) (t mid fn data : Nat)
    (hnd : s.transactions_list.Nodup)
    (hcon : (COAP_TYPE_CON == coap_header_type (s.transactions_memb_mem t).packet) = true)
    (hmax : ¬ (s.transactions_memb_mem t).retrans_counter < cfg.COAP_MAX_RETRANSMIT)
    (hcb : (s.transactions_memb_mem t).callback = some fn)
    (hcbd : (s.transactions_memb_mem t).callback_data = data)
    (hothers : ∀ u, u ∈ s.transactions_list → u ≠ t → (s.transactions_memb_mem u).mid ≠ mid) :
    (coap_send_transaction cfg s t).trace.filter is_callback =
      s.trace.filter is_callback ++ [Effect.callback fn data none] ∧
    coap_get_transaction_by_mid (coap_send_transaction cfg s t) mid = none ∧
    t ∉ (coap_send_transaction cfg s t).transactions_list := by
  rw [send_exhausted cfg _ t hcon hmax, hcb]
  simp only [hcbd]
  refine ⟨?_, ?_, ?_⟩
  · simp only [emit_trace, clear_trace, List.filter_append]
    simp [List.filter_cons, is_callback]
  · unfold coap_get_transaction_by_mid
    rw [List.find?_eq_none]
    intro u hu
    simp only [emit_list, clear_list] at hu
    have hne : u ≠ t := fun e => hnd.not_mem_erase (e ▸ hu)
    simp only [emit_mem, clear_mem_other _ _ _ _ hne]
    simpa using hothers u (List.mem_of_mem_erase hu) hne
  · simp only [emit_list, clear_list]
    exact hnd.not_mem_erase

/-- The expiry that reaches the limit. -/
theorem pending_last (cfg : Config) (s : State) (t mid fn data k : Nat) (base : List Effect)
    (h : Pending s t mid fn data k base) (hk : k + 1 = cfg.COAP_MAX_RETRANSMIT) :
    ∃ s', expire_and_poll cfg t s = some s' ∧
      s'.trace.filter is_callback = base ++ [Effect.callback fn data none] ∧
      coap_get_transaction_by_mid s' mid = none ∧ t ∉ s'.transactions_list := by
  refine ⟨_, expire_poll_eq cfg s t h.nodup h.listed (fun u hu hne => (h.others u hu hne).1), ?_⟩
  have hm := expired_and_counted_mem_same s t
  have hres := send_last cfg (expired_and_counted s t) t mid fn data h.nodup
    (by rw [hm]; exact h.confirmable)
    (by rw [hm]; simp only; rw [h.counter]; omega)
    (by rw [hm]; exact h.callback)
    (by rw [hm]; exact h.callback_data)
    (fun u hu hne => by
      rw [expired_and_counted_mem_other s t u hne]; exact (h.others u hu hne).2)
  rw [← h.callbacks]
  exact hres

theorem pending_lookup (s : State) (t mid fn data k : Nat) (base : List Effect)
    (h : Pending s t mid fn data k base) : coap_get_transaction_by_mid s mid = some t := by
  unfold coap_get_transaction_by_mid
  have hl := h.listed
  have ho := h.others
  have hm := h.mid_eq
  generalize s.transactions_list = l at hl ho
  induction l with
  | nil => simp at hl
  | cons x xs ih =>
    by_cases hx : x = t
    · subst hx; simp [List.find?_cons, hm]
    · have hne : ((s.transactions_memb_mem x).mid == mid) = false := by
        simpa using (ho x (List.mem_cons_self _ _) hx).2
      simp only [List.find?_cons, hne]
      rcases List.mem_cons.mp hl with h1 | h1
      · exact absurd h1.symm hx
      · exact ih h1 (fun u hu => ho u (List.mem_cons_of_mem _ hu))

/-- The first send of a transaction with retransmissions to spare leaves it
pending with count 0. -/
theorem pending_first (cfg : Config) (s : State) (t mid fn data : Nat) (base : List Effect)
    (h : Pending s t mid fn data 0 base) (hmax : 0 < cfg.COAP_MAX_RETRANSMIT) :
    Pending (coap_send_transaction cfg s t) t mid fn data 0 base := by
  obtain ⟨hl, _, hother, htrace, _, hcnt, hmid, hpkt, hcb, hcbd, _⟩ :=
    send_keep cfg s t h.confirmable (by rw [h.counter]; exact hmax)
  refine ⟨?_, ?_, ?_, ?_, ?_, ?_, ?_, ?_, ?_⟩
  · rw [hl]; exact h.nodup
  · rw [hl]; exact h.listed
  · rw [hpkt]; exact h.confirmable
  · rw [hcnt]; exact h.counter
  · rw [hcb]; exact h.callback
  · rw [hcbd]; exact h.callback_data
  · rw [hmid]; exact h.mid_eq
  · intro u hu hne
    rw [hl] at hu
    rw [hother u hne]
    exact h.others u hu hne
  · rw [htrace, filter_callback_append_sends]
    exact h.callbacks

theorem pending_after (cfg : Config) (s : State) (t mid fn data : Nat) (base : List Effect)
    (h : Pending s t mid fn data 0 base) :
    ∀ k, k < cfg.COAP_MAX_RETRANSMIT →
      ∃ sk, expire_and_poll_n cfg t k (coap_send_transaction cfg s t) = some sk ∧
        Pending sk t mid fn data k base := by
  intro k
  induction k with
  | zero => intro hk; exact ⟨_, rfl, pending_first cfg s t mid fn data base h hk⟩
  | succ k ih =>
    intro hk
    obtain ⟨sk, hsk, hp⟩ := ih (by omega)
    obtain ⟨s', hs', hp'⟩ := pending_step cfg sk t mid fn data k base hp hk
    exact ⟨s', by simp [expire_and_poll_n, hsk, hs'], hp'⟩

/-- The timeout of a transaction that is the only one due. A confirmable
transaction `t` with message id `mid` and callback `fn` with context `data` is
on a well-formed list, not yet retransmitted, and no other listed transaction
has an expired timer or the same message id. It is sent once and never
completed, and its timer expires before each poll. After fewer than
`COAP_MAX_RETRANSMIT` expirations no callback has been invoked and the lookup
of `mid` still returns `t`; after exactly `COAP_MAX_RETRANSMIT` expirations the
callback has been invoked exactly once, as `fn(data, NULL)`, and the lookup of
`mid` returns NULL. Each poll returns. -/
theorem X3_no_reply_when_no_other_is_due (cfg : Config) (s : State) (t mid fn data : Nat)
    (h : Pending s t mid fn data 0 (s.trace.filter is_callback)) :
    (∀ k, k < cfg.COAP_MAX_RETRANSMIT →
      ∃ sk, expire_and_poll_n cfg t k (coap_send_transaction cfg s t) = some sk ∧
        sk.trace.filter is_callback = s.trace.filter is_callback ∧
        coap_get_transaction_by_mid sk mid = some t) ∧
    (∃ sM, expire_and_poll_n cfg t cfg.COAP_MAX_RETRANSMIT (coap_send_transaction cfg s t) =
        some sM ∧
      sM.trace.filter is_callback =
        s.trace.filter is_callback ++ [Effect.callback fn data none] ∧
      coap_get_transaction_by_mid sM mid = none ∧ t ∉ sM.transactions_list) := by
  constructor
  · intro k hk
    obtain ⟨sk, hsk, hp⟩ := pending_after cfg s t mid fn data _ h k hk
    exact ⟨sk, hsk, hp.callbacks, pending_lookup sk t mid fn data k _ hp⟩
  · cases hM : cfg.COAP_MAX_RETRANSMIT with
    | zero =>
      refine ⟨_, rfl, ?_⟩
      exact send_last cfg s t mid fn data h.nodup h.confirmable
        (by rw [h.counter, hM]; omega) h.callback h.callback_data
        (fun u hu hne => (h.others u hu hne).2)
    | succ m =>
      obtain ⟨sm, hsm, hp⟩ := pending_after cfg s t mid fn data _ h m (by omega)
      obtain ⟨s', hs', hres⟩ := pending_last cfg sm t mid fn data m _ hp (by omega)
      exact ⟨s', by simp [expire_and_poll_n, hsm, hs'], hres⟩

/-- The timeout at `awaiting_send_state`, where no other transaction is listed:
after four expirations the callback 42 has been called once with context 99 and
a NULL response, and message id 7 is not found. -/
theorem X3_no_reply_witness :
    Pending awaiting_send_state 0 7 42 99 0 (awaiting_send_state.trace.filter is_callback) ∧
    ∃ sM, expire_and_poll_n (fixed_config 2) 0 (fixed_config 2).COAP_MAX_RETRANSMIT
        (coap_send_transaction (fixed_config 2) awaiting_send_state 0) = some sM ∧
      sM.trace.filter is_callback =
        awaiting_send_state.trace.filter is_callback ++ [Effect.callback 42 99 none] ∧
      coap_get_transaction_by_mid sM 7 = none ∧ 0 ∉ sM.transactions_list :=
  have h : Pending awaiting_send_state 0 7 42 99 0
      (awaiting_send_state.trace.filter is_callback) :=
    ⟨by decide, by decide, by decide, by decide, by decide, by decide, by decide,
      by decide, rfl⟩
  ⟨h, (X3_no_reply_when_no_other_is_due (fixed_config 2) awaiting_send_state 0 7 42 99 h).2⟩

/-! ## The number of transmissions -/

/-- Every call of `coap_send_transaction` hands exactly one datagram to the
transport, from the buffer of its transaction. -/
theorem send_trace (cfg : Config) (s : State) (t : Nat) :
    ∃ rest, (coap_send_transaction cfg s t).trace = s.trace ++
        (Effect.coap_send_message (s.transactions_memb_mem t).addr
          (s.transactions_memb_mem t).port t (s.transactions_memb_mem t).packet
          (s.transactions_memb_mem t).packet_len :: rest) ∧
      ∀ v, rest.filter (is_send_of v) = [] := by
  by_cases hcon : (COAP_TYPE_CON == coap_header_type (s.transactions_memb_mem t).packet) = true
  · by_cases hlt : (s.transactions_memb_mem t).retrans_counter < cfg.COAP_MAX_RETRANSMIT
    · exact ⟨[Effect.etimer_restart t (armed_interval cfg s t)],
        (send_keep cfg s t hcon hlt).2.2.2.1, fun v => by simp [is_send_of]⟩
    · rw [send_exhausted cfg s t hcon hlt]
      cases (s.transactions_memb_mem t).callback with
      | none =>
        exact ⟨[Effect.coap_remove_observer_by_client (s.transactions_memb_mem t).addr
          (s.transactions_memb_mem t).port], by simp [clear_trace],
          fun v => by simp [is_send_of]⟩
      | some fn =>
        exact ⟨[Effect.coap_remove_observer_by_client (s.transactions_memb_mem t).addr
          (s.transactions_memb_mem t).port,
          Effect.callback fn (s.transactions_memb_mem t).callback_data none],
          by simp [clear_trace], fun v => by simp [is_send_of]⟩
  · rw [send_noncon cfg s t (by simpa using hcon)]
    exact ⟨[], by simp [clear_trace], fun v => by simp⟩

theorem send_sends_self (cfg : Config) (s : State) (t : Nat) :
    sends_of (coap_send_transaction cfg s t) t = sends_of s t + 1 := by
  obtain ⟨rest, htr, hrest⟩ := send_trace cfg s t
  simp [sends_of, htr, List.filter_append, List.filter_cons, is_send_of, hrest t]

theorem send_sends_other (cfg : Config) (s : State) (t u : Nat) (h : u ≠ t) :
    sends_of (coap_send_transaction cfg s u) t = sends_of s t := by
  obtain ⟨rest, htr, hrest⟩ := send_trace cfg s u
  simp [sends_of, htr, List.filter_append, List.filter_cons, is_send_of, hrest t, h]

theorem body_sends_other (cfg : Config) (s : State) (t u : Nat) (h : u ≠ t) :
    sends_of (coap_check_transactions_body cfg s u) t = sends_of s t := by
  unfold coap_check_transactions_body
  split_ifs
  · rw [send_sends_other cfg _ t u h]; rfl
  · rfl

theorem body_mem_list_other (cfg : Config) (s : State) (t u : Nat) (h : u ≠ t) :
    t ∈ (coap_check_transactions_body cfg s u).transactions_list ↔ t ∈ s.transactions_list := by
  rcases body_list cfg s u with hl | hl
  · rw [hl]
  · rw [hl]; exact List.mem_erase_of_ne (Ne.symm h)

/-- The body of the poll loop, for a listed element, keeps `Driven`. -/
theorem body_driven (cfg : Config) (s : State) (t base u : Nat) (h : Driven cfg s t base)
    (hu : u ∈ s.transactions_list) : Driven cfg (coap_check_transactions_body cfg s u) t base := by
  obtain ⟨hnd, hcase⟩ := h
  refine ⟨body_nodup cfg s u hnd, ?_⟩
  by_cases hut : u = t
  · subst hut
    rcases hcase with ⟨_, hcon, hlt, hsends⟩ | ⟨hnot, _⟩
    · unfold coap_check_transactions_body
      split_ifs with hexp
      · generalize hs2 : modify_transaction s u
          (fun tr => { tr with retrans_counter := tr.retrans_counter + 1 }) = s2
        have hm : s2.transactions_memb_mem u =
            { s.transactions_memb_mem u with
              retrans_counter := (s.transactions_memb_mem u).retrans_counter + 1 } := by
          rw [← hs2]; simp
        have hl2 : s2.transactions_list = s.transactions_list := by rw [← hs2]; rfl
        have hsends2 : sends_of s2 u = sends_of s u := by rw [← hs2]; rfl
        have hcon2 : (COAP_TYPE_CON ==
            coap_header_type (s2.transactions_memb_mem u).packet) = true := by
          rw [hm]; exact hcon
        have hself := send_sends_self cfg s2 u
        by_cases hlt2 : (s2.transactions_memb_mem u).retrans_counter < cfg.COAP_MAX_RETRANSMIT
        · left
          obtain ⟨hl, _, _, _, _, hcnt, _, hpkt, _⟩ := send_keep cfg s2 u hcon2 hlt2
          refine ⟨by rw [hl, hl2]; exact hu, by rw [hpkt]; exact hcon2,
            by rw [hcnt]; exact hlt2, ?_⟩
          rw [hself, hsends2, hsends, hcnt, hm]
          simp only
          omega
        · right
          constructor
          · rw [send_exhausted cfg s2 u hcon2 hlt2]
            split
            · simp only [emit_list, clear_list, hl2]; exact hnd.not_mem_erase
            · simp only [emit_list, clear_list, hl2]; exact hnd.not_mem_erase
          · rw [hself, hsends2, hsends]
            omega
      · exact Or.inl ⟨hu, hcon, hlt, hsends⟩
    · exact absurd hu hnot
  · rw [body_mem_list_other cfg s t u hut, body_sends_other cfg s t u hut,
      body_mem_other cfg s u t (Ne.symm hut)]
    exact hcase

theorem check_from_driven (cfg : Config) (t base : Nat) :
    ∀ (l : List Nat) (s : State), Driven cfg s t base →
      (∀ u, u ∈ l → u ∈ s.transactions_list) → Driven cfg (check_from cfg s l) t base := by
  intro l
  induction l with
  | nil => intro s h _; exact h
  | cons u rest ih =>
    intro s h hsub
    have hb := body_driven cfg s t base u h (hsub u (List.mem_cons_self _ _))
    simp only [check_from]
    split_ifs with hmem
    · apply ih _ hb
      intro v hv
      rcases body_list cfg s u with hl | hl
      · rw [hl]; exact hsub v (List.mem_cons_of_mem _ hv)
      · rw [hl] at hmem
        exact absurd hmem h.1.not_mem_erase
    · exact hb

theorem expire_driven (cfg : Config) (s : State) (t base u : Nat) (h : Driven cfg s t base) :
    Driven cfg (etimer_expire s u) t base := by
  have hm : ((etimer_expire s u).transactions_memb_mem t).packet =
        (s.transactions_memb_mem t).packet ∧
      ((etimer_expire s u).transactions_memb_mem t).retrans_counter =
        (s.transactions_memb_mem t).retrans_counter := by
    by_cases hut : t = u
    · subst hut; simp [etimer_expire]
    · simp [etimer_expire, modify_mem_other _ _ _ _ hut]
  unfold Driven
  rw [hm.1, hm.2]
  exact h

theorem host_run_driven (cfg : Config) (t base : Nat) :
    ∀ (events : List HostEvent) (s : State), Driven cfg s t base →
      ∃ s', host_run cfg s events = some s' ∧ Driven cfg s' t base := by
  intro events
  induction events with
  | nil => intro s h; exact ⟨s, rfl, h⟩
  | cons e es ih =>
    intro s h
    cases e with
    | expire u =>
      simp only [host_run]
      exact ih _ (expire_driven cfg s t base u h)
    | check =>
      simp only [host_run, check_eq cfg s h.1, Option.some_bind]
      exact ih _ (check_from_driven cfg t base _ s h (fun _ hu => hu))

/-- The first send of a transaction with count 0 makes it `Driven`. -/
theorem send_driven (cfg : Config) (s : State) (t : Nat) (hnd : s.transactions_list.Nodup)
    (hcon : (COAP_TYPE_CON == coap_header_type (s.transactions_memb_mem t).packet) = true)
    (h0 : (s.transactions_memb_mem t).retrans_counter = 0) :
    Driven cfg (coap_send_transaction cfg s t) t (sends_of s t) := by
  have hself := send_sends_self cfg s t
  by_cases hlt : (s.transactions_memb_mem t).retrans_counter < cfg.COAP_MAX_RETRANSMIT
  · obtain ⟨hl, _, _, _, _, hcnt, _, hpkt, _⟩ := send_keep cfg s t hcon hlt
    refine ⟨by rw [hl]; exact hnd, ?_⟩
    by_cases ht : t ∈ s.transactions_list
    · left
      refine ⟨by rw [hl]; exact ht, by rw [hpkt]; exact hcon, by rw [hcnt]; exact hlt, ?_⟩
      rw [hself, hcnt, h0]
    · right
      exact ⟨by rw [hl]; exact ht, by rw [hself]; omega⟩
  · have hlist : (coap_send_transaction cfg s t).transactions_list =
        s.transactions_list.erase t := by
      rw [send_exhausted cfg s t hcon hlt]
      split <;> simp only [emit_list, clear_list]
    refine ⟨by rw [hlist]; exact hnd.erase t, Or.inr ⟨?_, by rw [hself]; omega⟩⟩
    rw [hlist]
    exact hnd.not_mem_erase

/-- C8. A confirmable transaction with retransmit count 0 on a well-formed
list is sent with `coap_send_transaction` and from then on driven by the host
only (timer expiries of any slots and polls with `coap_check_transactions`, in
any order and number). Every such run returns, and at its end the number of
`coap_send_message` calls for the transaction, counted from before its first
transmission, is at most `1 + COAP_MAX_RETRANSMIT`. -/
theorem C8_at_most_max_retransmissions (cfg : Config) (s : State) (t : Nat)
    (hnd : s.transactions_list.Nodup)
    (hcon : coap_header_type (s.transactions_memb_mem t).packet = COAP_TYPE_CON)
    (h0 : (s.transactions_memb_mem t).retrans_counter = 0)
    (events : List HostEvent) :
    ∃ s', host_run cfg (coap_send_transaction cfg s t) events = some s' ∧
      sends_of s' t ≤ sends_of s t + (1 + cfg.COAP_MAX_RETRANSMIT) := by
  have hd := send_driven cfg s t hnd (by rw [hcon]; rfl) h0
  obtain ⟨s', hrun, hd'⟩ := host_run_driven cfg t (sends_of s t) events _ hd
  refine ⟨s', hrun, ?_⟩
  rcases hd'.2 with ⟨_, _, hlt, hsends⟩ | ⟨_, hle⟩
  · omega
  · omega

/-- C8 at `awaiting_send_state` with five rounds of expiry and poll: at most
five datagrams. -/
theorem C8_at_most_max_witness :
    awaiting_send_state.transactions_list.Nodup ∧
    ∃ s', host_run (fixed_config 2)
        (coap_send_transaction (fixed_config 2) awaiting_send_state 0) five_rounds = some s' ∧
      sends_of s' 0 ≤ sends_of awaiting_send_state 0 + (1 + 4) :=
  ⟨by decide,
    C8_at_most_max_retransmissions (fixed_config 2) awaiting_send_state 0 (by decide)
      (by decide) (by decide) five_rounds⟩

/-- C7 at `nonconfirmable_state`: one datagram, and slot 0 is off the list. -/
theorem C7_nonconfirmable_witness :
    coap_header_type (nonconfirmable_state.transactions_memb_mem 0).packet ≠ COAP_TYPE_CON ∧
    (coap_send_transaction (fixed_config 2) nonconfirmable_state 0).trace =
      nonconfirmable_state.trace ++ [Effect.coap_send_message 1 5683 0 [0x50, 1, 0, 7] 4] ∧
    0 ∉ (coap_send_transaction (fixed_config 2) nonconfirmable_state 0).transactions_list :=
  have h := C7_nonconfirmable_sent_once_and_removed (fixed_config 2) nonconfirmable_state 0
    (by decide) (by decide) (by decide)
  ⟨by decide, h.1, h.2.2.1⟩

/-! ## The poll after a removal -/

/-- C3 fails on the code. In `both_expired_state` the transactions A (slot 0,
retransmitted three times) and B (slot 1) are both listed with expired timers.
One call of `coap_check_transactions` handles A: its count reaches
`COAP_MAX_RETRANSMIT`, a fifth datagram is sent and A is removed. The loop then
reads the link of the removed A, which is NULL, and ends: B is still listed
with its timer expired, its count is still 0 and no datagram was sent for
it. -/
theorem C3_poll_ends_after_a_removal :
    both_expired_state.map (fun s => (slot_view s 0, slot_view s 1)) =
      some ((true, true, 3, 4), (true, true, 0, 1)) ∧
    (both_expired_state.bind (coap_check_transactions (fixed_config 2))).map
        (fun s => (slot_view s 0, slot_view s 1)) =
      some ((false, true, 4, 5), (true, true, 0, 1)) :=
  ⟨rfl, rfl⟩

/-- A retransmission draws no random number and leaves the estimator alone. -/
theorem send_retry_frame (cfg : Config) (s : State) (t : Nat)
    (hcon : (COAP_TYPE_CON == coap_header_type (s.transactions_memb_mem t).packet) = true)
    (hlt : (s.transactions_memb_mem t).retrans_counter < cfg.COAP_MAX_RETRANSMIT)
    (hne : (s.transactions_memb_mem t).retrans_counter ≠ 0) :
    (coap_send_transaction cfg s t).random_pos = s.random_pos ∧
    (coap_send_transaction cfg s t).rtt_estimations_list = s.rtt_estimations_list := by
  unfold coap_send_transaction
  simp only [hcon, if_true, if_pos hlt, if_neg hne]
  exact ⟨rfl, rfl⟩

/-- C9. Attempt N-1 of a confirmable transaction is a call of
`coap_send_transaction` that arms the timer; when the timer expires, the poll
loop increments the count to a value between 1 and `COAP_MAX_RETRANSMIT - 1`
and sends attempt N. The interval armed by attempt N is the interval armed by
attempt N-1 shifted left by one within the width of `clock_time_t`, that is
twice that interval modulo `2 ^ clock_time_bits`; the timer is armed with
it; no random number is drawn. -/
theorem C9_interval_doubles (cfg : Config) (s : State) (t : Nat)
    (hcon : coap_header_type (s.transactions_memb_mem t).packet = COAP_TYPE_CON)
    (hN : (s.transactions_memb_mem t).retrans_counter + 1 < cfg.COAP_MAX_RETRANSMIT) :
    ((coap_check_transactions_body cfg (etimer_expire (coap_send_transaction cfg s t) t)
        t).transactions_memb_mem t).retrans_timer.timer.interval =
      (((coap_send_transaction cfg s t).transactions_memb_mem t).retrans_timer.timer.interval
        <<< 1) % 2 ^ cfg.clock_time_bits ∧
    ((coap_check_transactions_body cfg (etimer_expire (coap_send_transaction cfg s t) t)
        t).transactions_memb_mem t).retrans_timer.timer.interval =
      (2 * ((coap_send_transaction cfg s t).transactions_memb_mem t).retrans_timer.timer.interval)
        % 2 ^ cfg.clock_time_bits ∧
    (coap_check_transactions_body cfg (etimer_expire (coap_send_transaction cfg s t) t)
        t).trace =
      (coap_send_transaction cfg s t).trace ++
        [Effect.coap_send_message (s.transactions_memb_mem t).addr
            (s.transactions_memb_mem t).port t (s.transactions_memb_mem t).packet
            (s.transactions_memb_mem t).packet_len,
          Effect.etimer_restart t
            ((((coap_send_transaction cfg s t).transactions_memb_mem t).retrans_timer.timer.interval
              <<< 1) % 2 ^ cfg.clock_time_bits)] ∧
    (coap_check_transactions_body cfg (etimer_expire (coap_send_transaction cfg s t) t)
        t).random_pos = (coap_send_transaction cfg s t).random_pos := by
  have hcon0 : (COAP_TYPE_CON == coap_header_type (s.transactions_memb_mem t).packet) = true := by
    rw [hcon]; rfl
  obtain ⟨_, _, _, _, htimer, hcnt, _, hpkt, _, _, haddr, hport, hlen, _⟩ :=
    send_keep cfg s t hcon0 (by omega)
  generalize coap_send_transaction cfg s t = s1 at *
  have hexp : etimer_expired ((etimer_expire s1 t).transactions_memb_mem t).retrans_timer = true := by
    simp [etimer_expire, etimer_expired, etimer_stop]
  have hbody : coap_check_transactions_body cfg (etimer_expire s1 t) t =
      coap_send_transaction cfg (expired_and_counted s1 t) t := by
    simp only [coap_check_transactions_body, hexp, if_true]
    rfl
  have hm := expired_and_counted_mem_same s1 t
  have hcon2 : (COAP_TYPE_CON ==
      coap_header_type ((expired_and_counted s1 t).transactions_memb_mem t).packet) = true := by
    rw [hm]; simp only; rw [hpkt]; exact hcon0
  have hlt2 : ((expired_and_counted s1 t).transactions_memb_mem t).retrans_counter <
      cfg.COAP_MAX_RETRANSMIT := by
    rw [hm]; simp only; rw [hcnt]; exact hN
  have hne2 : ((expired_and_counted s1 t).transactions_memb_mem t).retrans_counter ≠ 0 := by
    rw [hm]; simp
  obtain ⟨_, _, _, htrace2, htimer2, _⟩ := send_keep cfg (expired_and_counted s1 t) t hcon2 hlt2
  have harm : armed_interval cfg (expired_and_counted s1 t) t =
      ((s1.transactions_memb_mem t).retrans_timer.timer.interval <<< 1)
        % 2 ^ cfg.clock_time_bits := by
    unfold armed_interval
    rw [if_neg hne2, hm]
    rfl
  rw [hbody]
  refine ⟨?_, ?_, ?_, (send_retry_frame cfg _ t hcon2 hlt2 hne2).1⟩
  · rw [htimer2, harm]
  · rw [htimer2, harm, Nat.shiftLeft_eq, Nat.mul_comm, pow_one]
  · rw [htrace2, harm, hm]
    simp only
    rw [haddr, hport, hpkt, hlen]
    rfl

/-- C10. In fixed mode, with a positive jitter bound and constants that fit
`clock_time_t`, the interval that `coap_send_transaction` arms on the first
attempt of a confirmable transaction is at least
`COAP_RESPONSE_TIMEOUT_TICKS` and less than `COAP_RESPONSE_TIMEOUT_TICKS +
COAP_RESPONSE_TIMEOUT_BACKOFF_MASK`, whatever `random_rand()` returns; it is
the interval of the timer and of the arming. -/
theorem C10_first_interval_in_range (cfg : Config) (s : State) (t : Nat)
    (hfixed : cfg.COCOA = false)
    (hmask : 0 < cfg.COAP_RESPONSE_TIMEOUT_BACKOFF_MASK)
    (hfit : cfg.COAP_RESPONSE_TIMEOUT_TICKS + cfg.COAP_RESPONSE_TIMEOUT_BACKOFF_MASK ≤
      2 ^ cfg.clock_time_bits)
    (hcon : coap_header_type (s.transactions_memb_mem t).packet = COAP_TYPE_CON)
    (h0 : (s.transactions_memb_mem t).retrans_counter = 0)
    (hmax : 0 < cfg.COAP_MAX_RETRANSMIT) :
    cfg.COAP_RESPONSE_TIMEOUT_TICKS ≤
      ((coap_send_transaction cfg s t).transactions_memb_mem t).retrans_timer.timer.interval ∧
    ((coap_send_transaction cfg s t).transactions_memb_mem t).retrans_timer.timer.interval <
      cfg.COAP_RESPONSE_TIMEOUT_TICKS + cfg.COAP_RESPONSE_TIMEOUT_BACKOFF_MASK ∧
    ((coap_send_transaction cfg s t).transactions_memb_mem t).retrans_timer.timer.interval =
      cfg.COAP_RESPONSE_TIMEOUT_TICKS +
        s.random_seq s.random_pos % cfg.COAP_RESPONSE_TIMEOUT_BACKOFF_MASK ∧
    (coap_send_transaction cfg s t).trace = s.trace ++
      [Effect.coap_send_message (s.transactions_memb_mem t).addr (s.transactions_memb_mem t).port
          t (s.transactions_memb_mem t).packet (s.transactions_memb_mem t).packet_len,
        Effect.etimer_restart t
          ((coap_send_transaction cfg s t).transactions_memb_mem t).retrans_timer.timer.interval] := by
  obtain ⟨_, _, _, htrace, htimer, _⟩ :=
    send_keep cfg s t (by rw [hcon]; rfl) (by rw [h0]; exact hmax)
  have hr := Nat.mod_lt (s.random_seq s.random_pos) hmask
  have harm : armed_interval cfg s t = cfg.COAP_RESPONSE_TIMEOUT_TICKS +
      s.random_seq s.random_pos % cfg.COAP_RESPONSE_TIMEOUT_BACKOFF_MASK := by
    unfold armed_interval
    rw [if_pos h0, hfixed]
    simp only [Bool.false_eq_true, if_false]
    exact Nat.mod_eq_of_lt (by omega)
  rw [htimer, htrace, harm]
  exact ⟨by simp, by simp only; omega, rfl, rfl⟩

/-- C9 at `awaiting_send_state`: the first attempt arms 256 ticks, the second
512. -/
theorem C9_interval_doubles_witness :
    coap_header_type (awaiting_send_state.transactions_memb_mem 0).packet = COAP_TYPE_CON ∧
    (awaiting_send_state.transactions_memb_mem 0).retrans_counter + 1 <
      (fixed_config 2).COAP_MAX_RETRANSMIT ∧
    ((coap_send_transaction (fixed_config 2) awaiting_send_state
      0).transactions_memb_mem 0).retrans_timer.timer.interval = 256 ∧
    ((coap_check_transactions_body (fixed_config 2)
      (etimer_expire (coap_send_transaction (fixed_config 2) awaiting_send_state 0) 0)
        0).transactions_memb_mem 0).retrans_timer.timer.interval = 512 :=
  ⟨by decide, by decide, by decide,
    (C9_interval_doubles (fixed_config 2) awaiting_send_state 0 (by decide) (by decide)).1.trans
      (by decide)⟩

/-- C10 at `awaiting_send_random_state`: `random_rand()` returns 40000, the
interval is 256 + 40000 % 129 = 266. -/
theorem C10_first_interval_witness :
    (fixed_config 2).COAP_RESPONSE_TIMEOUT_TICKS = 256 ∧
    (fixed_config 2).COAP_RESPONSE_TIMEOUT_BACKOFF_MASK = 129 ∧
    awaiting_send_random_state.random_seq awaiting_send_random_state.random_pos = 40000 ∧
    ((coap_send_transaction (fixed_config 2) awaiting_send_random_state
      0).transactions_memb_mem 0).retrans_timer.timer.interval = 266 ∧
    256 ≤ ((coap_send_transaction (fixed_config 2) awaiting_send_random_state
      0).transactions_memb_mem 0).retrans_timer.timer.interval ∧
    ((coap_send_transaction (fixed_config 2) awaiting_send_random_state
      0).transactions_memb_mem 0).retrans_timer.timer.interval < 256 + 129 :=
  have h := C10_first_interval_in_range (fixed_config 2) awaiting_send_random_state 0 rfl
    (by decide) (by decide) (by decide) (by decide) (by decide)
  ⟨rfl, rfl, rfl, h.2.2.1.trans (by decide), h.1, h.2.1⟩

/-! ## Well-formedness of the list -/

theorem list_add_nodup {l : List Nat} (h : l.Nodup) (t : Nat) : (list_add l t).Nodup := by
  unfold list_add list_remove
  refine List.Nodup.append (h.erase t) (List.nodup_singleton t) ?_
  simpa [List.disjoint_singleton] using h.not_mem_erase

theorem new_nodup (cfg : Config) (s : State) (mid addr port : Nat)
    (h : s.transactions_list.Nodup) :
    (coap_new_transaction cfg s mid addr port).2.transactions_list.Nodup := by
  cases hres : (coap_new_transaction cfg s mid addr port).1 with
  | none => rw [new_none cfg s mid addr port hres]; exact h
  | some t =>
    rw [(new_some cfg s mid addr port t hres).2.2]
    exact list_add_nodup h t

theorem clear_nodup (cfg : Config) (s : State) (t : Option Nat)
    (h : s.transactions_list.Nodup) :
    (coap_clear_transaction cfg s t).transactions_list.Nodup := by
  cases t with
  | none => exact h
  | some t => rw [clear_list]; exact h.erase t

theorem send_list (cfg : Config) (s : State) (t : Nat) :
    (coap_send_transaction cfg s t).transactions_list = s.transactions_list ∨
    (coap_send_transaction cfg s t).transactions_list = s.transactions_list.erase t := by
  by_cases hcon : (COAP_TYPE_CON == coap_header_type (s.transactions_memb_mem t).packet) = true
  · by_cases hlt : (s.transactions_memb_mem t).retrans_counter < cfg.COAP_MAX_RETRANSMIT
    · exact Or.inl (send_keep cfg s t hcon hlt).1
    · right
      rw [send_exhausted cfg s t hcon hlt]
      split <;> simp only [emit_list, clear_list]
  · right
    rw [send_noncon cfg s t (by simpa using hcon)]
    simp only [emit_list, clear_list]

theorem send_nodup (cfg : Config) (s : State) (t : Nat) (h : s.transactions_list.Nodup) :
    (coap_send_transaction cfg s t).transactions_list.Nodup := by
  rcases send_list cfg s t with hl | hl
  · rw [hl]; exact h
  · rw [hl]; exact h.erase t

theorem check_from_nodup (cfg : Config) :
    ∀ (l : List Nat) (s : State), s.transactions_list.Nodup →
      (check_from cfg s l).transactions_list.Nodup := by
  intro l
  induction l with
  | nil => intro s h; exact h
  | cons u rest ih =>
    intro s h
    simp only [check_from]
    split_ifs
    · exact ih _ (body_nodup cfg s u h)
    · exact body_nodup cfg s u h

/-! ## What one poll does -/

/-- The body of the loop for an expired confirmable transaction with a
retransmission to spare: the transaction stays listed, its count goes up by
one and one datagram is sent for it. -/
theorem body_retransmits (cfg : Config) (s : State) (u : Nat)
    (hexp : etimer_expired (s.transactions_memb_mem u).retrans_timer = true)
    (hcon : (COAP_TYPE_CON == coap_header_type (s.transactions_memb_mem u).packet) = true)
    (hlt : (s.transactions_memb_mem u).retrans_counter + 1 < cfg.COAP_MAX_RETRANSMIT) :
    (coap_check_transactions_body cfg s u).transactions_list = s.transactions_list ∧
    ((coap_check_transactions_body cfg s u).transactions_memb_mem u).retrans_counter =
      (s.transactions_memb_mem u).retrans_counter + 1 ∧
    sends_of (coap_check_transactions_body cfg s u) u = sends_of s u + 1 := by
  unfold coap_check_transactions_body
  rw [if_pos hexp]
  generalize hs2 : modify_transaction s u
    (fun tr => { tr with retrans_counter := tr.retrans_counter + 1 }) = s2
  have hm : s2.transactions_memb_mem u =
      { s.transactions_memb_mem u with
        retrans_counter := (s.transactions_memb_mem u).retrans_counter + 1 } := by
    rw [← hs2]; simp
  have hl2 : s2.transactions_list = s.transactions_list := by rw [← hs2]; rfl
  have hsends2 : sends_of s2 u = sends_of s u := by rw [← hs2]; rfl
  obtain ⟨hl, _, _, _, _, hcnt, _⟩ := send_keep cfg s2 u (by rw [hm]; exact hcon)
    (by rw [hm]; exact hlt)
  refine ⟨by rw [hl, hl2], by rw [hcnt, hm], ?_⟩
  rw [send_sends_self, hsends2]

theorem check_from_all (cfg : Config) :
    ∀ (rest : List Nat) (s : State), rest.Nodup →
      (∀ u, u ∈ rest → u ∈ s.transactions_list) →
      (∀ u, u ∈ rest → etimer_expired (s.transactions_memb_mem u).retrans_timer = true →
        (COAP_TYPE_CON == coap_header_type (s.transactions_memb_mem u).packet) = true ∧
        (s.transactions_memb_mem u).retrans_counter + 1 < cfg.COAP_MAX_RETRANSMIT) →
      (check_from cfg s rest).transactions_list = s.transactions_list ∧
      (∀ u, u ∉ rest →
        (check_from cfg s rest).transactions_memb_mem u = s.transactions_memb_mem u ∧
        sends_of (check_from cfg s rest) u = sends_of s u) ∧
      (∀ u, u ∈ rest →
        (etimer_expired (s.transactions_memb_mem u).retrans_timer = true →
          ((check_from cfg s rest).transactions_memb_mem u).retrans_counter =
            (s.transactions_memb_mem u).retrans_counter + 1 ∧
          sends_of (check_from cfg s rest) u = sends_of s u + 1) ∧
        (etimer_expired (s.transactions_memb_mem u).retrans_timer = false →
          (check_from cfg s rest).transactions_memb_mem u = s.transactions_memb_mem u ∧
          sends_of (check_from cfg s rest) u = sends_of s u)) := by
  intro rest
  induction rest with
  | nil => intro s _ _ _; exact ⟨rfl, fun _ _ => ⟨rfl, rfl⟩, fun u hu => by simp at hu⟩
  | cons v rest ih =>
    intro s hnd hsub hkeep
    obtain ⟨hv, hnd'⟩ := List.nodup_cons.mp hnd
    have hvl := hsub v (List.mem_cons_self _ _)
    have hlist : (coap_check_transactions_body cfg s v).transactions_list =
        s.transactions_list := by
      cases hexp : etimer_expired (s.transactions_memb_mem v).retrans_timer with
      | false => rw [body_not_expired cfg s v hexp]
      | true =>
        obtain ⟨hc, hl⟩ := hkeep v (List.mem_cons_self _ _) hexp
        exact (body_retransmits cfg s v hexp hc hl).1
    have hmem : v ∈ (coap_check_transactions_body cfg s v).transactions_list := by
      rw [hlist]; exact hvl
    simp only [check_from, if_pos hmem]
    have hother : ∀ u, u ≠ v →
        (coap_check_transactions_body cfg s v).transactions_memb_mem u =
          s.transactions_memb_mem u ∧
        sends_of (coap_check_transactions_body cfg s v) u = sends_of s u :=
      fun u hu => ⟨body_mem_other cfg s v u hu, body_sends_other cfg s u v (Ne.symm hu)⟩
    have hne : ∀ u, u ∈ rest → u ≠ v := fun u hu h => hv (h ▸ hu)
    obtain ⟨ihl, ihout, ihin⟩ := ih (coap_check_transactions_body cfg s v) hnd'
      (fun u hu => by rw [hlist]; exact hsub u (List.mem_cons_of_mem _ hu))
      (fun u hu => by
        rw [(hother u (hne u hu)).1]
        exact hkeep u (List.mem_cons_of_mem _ hu))
    refine ⟨by rw [ihl, hlist], ?_, ?_⟩
    · intro u hu
      simp only [List.mem_cons, not_or] at hu
      rw [(ihout u hu.2).1, (ihout u hu.2).2]
      exact hother u hu.1
    · intro u hu
      rcases List.mem_cons.mp hu with rfl | hu'
      · rw [(ihout u hv).1, (ihout u hv).2]
        constructor
        · intro hexp
          obtain ⟨hc, hl⟩ := hkeep u (List.mem_cons_self _ _) hexp
          exact (body_retransmits cfg s u hexp hc hl).2
        · intro hexp
          rw [body_not_expired cfg s u hexp]
          exact ⟨rfl, rfl⟩
      · have h := ihin u hu'
        rw [(hother u (hne u hu')).1, (hother u (hne u hu')).2] at h
        exact h

/-- On a well-formed list `coap_check_transactions` returns, and what it
computes is `check_from`: the listed transactions are visited in order, the
body of the loop runs for each, and the visit ends after the first transaction
that the body has taken off the list. -/
theorem X1_poll_visits_until_first_removal (cfg : Config) (s : State)
    (hnd : s.transactions_list.Nodup) :
    coap_check_transactions cfg s = some (check_from cfg s s.transactions_list) :=
  check_eq cfg s hnd

/-- The poll of `two_peers_state` is `check_from` over its two elements. -/
theorem X1_poll_visits_witness :
    two_peers_state.transactions_list.Nodup ∧
    coap_check_transactions (cocoa_config 2) two_peers_state =
      some (check_from (cocoa_config 2) two_peers_state two_peers_state.transactions_list) :=
  ⟨by decide, X1_poll_visits_until_first_removal (cocoa_config 2) two_peers_state (by decide)⟩

/-- When every listed transaction with an expired timer is confirmable and has
a retransmission to spare (so that no send removes a transaction), one call of
`coap_check_transactions` on a well-formed list returns, leaves the list as it
is, increments the count of every listed transaction whose timer has expired
and sends one datagram for it, and leaves every other listed transaction as it
was. -/
theorem X2_poll_processes_every_expired (cfg : Config) (s : State)
    (hnd : s.transactions_list.Nodup)
    (hkeep : ∀ u, u ∈ s.transactions_list →
      etimer_expired (s.transactions_memb_mem u).retrans_timer = true →
      coap_header_type (s.transactions_memb_mem u).packet = COAP_TYPE_CON ∧
      (s.transactions_memb_mem u).retrans_counter + 1 < cfg.COAP_MAX_RETRANSMIT) :
    ∃ s', coap_check_transactions cfg s = some s' ∧
      s'.transactions_list = s.transactions_list ∧
      ∀ u, u ∈ s.transactions_list →
        (etimer_expired (s.transactions_memb_mem u).retrans_timer = true →
          (s'.transactions_memb_mem u).retrans_counter =
            (s.transactions_memb_mem u).retrans_counter + 1 ∧
          sends_of s' u = sends_of s u + 1) ∧
        (etimer_expired (s.transactions_memb_mem u).retrans_timer = false →
          s'.transactions_memb_mem u = s.transactions_memb_mem u ∧
          sends_of s' u = sends_of s u) := by
  obtain ⟨hl, _, hin⟩ := check_from_all cfg s.transactions_list s hnd (fun _ h => h)
    (fun u hu hexp => ⟨by rw [(hkeep u hu hexp).1]; rfl, (hkeep u hu hexp).2⟩)
  exact ⟨_, check_eq cfg s hnd, hl, hin⟩

/-- Both transactions of `two_expired_state` are retransmitted by one poll. -/
theorem X2_poll_processes_witness :
    two_expired_state.transactions_list = [0, 1] ∧
    ∃ s', coap_check_transactions (fixed_config 2) two_expired_state = some s' ∧
      sends_of s' 0 = sends_of two_expired_state 0 + 1 ∧
      sends_of s' 1 = sends_of two_expired_state 1 + 1 := by
  obtain ⟨s', h1, _, h3⟩ := X2_poll_processes_every_expired (fixed_config 2) two_expired_state
    (by decide) (by decide)
  exact ⟨by decide, s', h1, ((h3 0 (by decide)).1 (by decide)).2,
    ((h3 1 (by decide)).1 (by decide)).2⟩

/-! ## Lookup and issuance in any state -/

theorem find_append_singleton (p : Nat → Bool) (t : Nat) (hp : p t = true) :
    ∀ l : List Nat, (∀ u, u ∈ l → p u = true → u = t) → (l ++ [t]).find? p = some t := by
  intro l
  induction l with
  | nil => intro _; simp [List.find?_cons, hp]
  | cons x xs ih =>
    intro h
    cases hx : p x with
    | true =>
      have := h x (List.mem_cons_self _ _) hx
      subst this
      simp [List.find?_cons, hx]
    | false =>
      simp only [List.cons_append, List.find?_cons, hx]
      exact ih (fun u hu => h u (List.mem_cons_of_mem _ hu))

/-- C13. In every state `coap_get_transaction_by_mid(mid)` returns NULL exactly
when no listed transaction has the message id, and otherwise the first listed
transaction that has it, whatever comes after it with the same message id. The
order of the list is the order of insertion: `coap_new_transaction` links the
new transaction after all others and `coap_clear_transaction` unlinks its
transaction only. So the transaction returned is the earliest inserted one. -/
theorem C13_lookup_returns_earliest_inserted (cfg : Config) (s : State) (mid : Nat) :
    (coap_get_transaction_by_mid s mid = none ↔
      ∀ t, t ∈ s.transactions_list → (s.transactions_memb_mem t).mid ≠ mid) ∧
    (∀ t, coap_get_transaction_by_mid s mid = some t ↔
      (s.transactions_memb_mem t).mid = mid ∧
      ∃ pre post, s.transactions_list = pre ++ t :: post ∧
        ∀ u, u ∈ pre → (s.transactions_memb_mem u).mid ≠ mid) ∧
    (∀ m a p t, (coap_new_transaction cfg s m a p).1 = some t →
      (coap_new_transaction cfg s m a p).2.transactions_list =
        s.transactions_list.erase t ++ [t]) ∧
    (∀ t, (coap_clear_transaction cfg s (some t)).transactions_list =
      s.transactions_list.erase t) := by
  refine ⟨?_, ?_, ?_, fun t => clear_list cfg s t⟩
  · unfold coap_get_transaction_by_mid
    rw [List.find?_eq_none]
    simp
  · intro t
    unfold coap_get_transaction_by_mid
    rw [List.find?_eq_some]
    simp
  · intro m a p t h
    rw [(new_some cfg s m a p t h).2.2]
    rfl

/-- C13 at `shared_mid_state`: the list is slot 1, then slot 0; both hold
message id 7; the lookup returns slot 1, the earlier inserted of the two. -/
theorem C13_lookup_example :
    shared_mid_state.transactions_list = [1, 0] ∧
    (shared_mid_state.transactions_memb_mem 0).mid = 7 ∧
    (shared_mid_state.transactions_memb_mem 1).mid = 7 ∧
    coap_get_transaction_by_mid shared_mid_state 7 = some 1 :=
  ⟨by decide, by decide, by decide,
    ((C13_lookup_returns_earliest_inserted (fixed_config 2) shared_mid_state 7).2.1 1).mpr
      ⟨by decide, [], [0], by decide, by simp⟩⟩

/-- C14. When `coap_new_transaction(mid, addr, port)` returns a transaction,
that transaction has message id `mid`, peer address `addr`, peer port `port`
and retransmit count 0 and is on the list; and when no other listed transaction
has the message id `mid`, `coap_get_transaction_by_mid(mid)` returns it. -/
theorem C14_new_initialises_and_registers (cfg : Config) (s : State) (mid addr port t : Nat)
    (h : (coap_new_transaction cfg s mid addr port).1 = some t) :
    ((coap_new_transaction cfg s mid addr port).2.transactions_memb_mem t).mid = mid ∧
    ((coap_new_transaction cfg s mid addr port).2.transactions_memb_mem t).addr = addr ∧
    ((coap_new_transaction cfg s mid addr port).2.transactions_memb_mem t).port = port ∧
    ((coap_new_transaction cfg s mid addr port).2.transactions_memb_mem t).retrans_counter = 0 ∧
    t ∈ (coap_new_transaction cfg s mid addr port).2.transactions_list ∧
    ((∀ u, u ∈ s.transactions_list → u ≠ t → (s.transactions_memb_mem u).mid ≠ mid) →
      coap_get_transaction_by_mid (coap_new_transaction cfg s mid addr port).2 mid = some t) := by
  rw [(new_some cfg s mid addr port t h).2.2]
  refine ⟨by simp [coap_new_transaction_at], by simp [coap_new_transaction_at],
    by simp [coap_new_transaction_at], by simp [coap_new_transaction_at],
    by simp [coap_new_transaction_at, list_add], ?_⟩
  intro hothers
  unfold coap_get_transaction_by_mid
  simp only [coap_new_transaction_at, list_add, list_remove]
  apply find_append_singleton
  · simp
  · intro u hu hp
    by_contra hne
    rw [Function.update_noteq hne] at hp
    exact hothers u (List.mem_of_mem_erase hu) hne (by simpa using hp)

/-- C14 in the scenario with one slot: issuing A with message id 7 returns slot
0, initialised, and the lookup of 7 finds it. -/
theorem C14_new_witness :
    (coap_new_transaction (fixed_config 1) started_state 7 1 5683).1 = some 0 ∧
    ((coap_new_transaction (fixed_config 1) started_state 7 1 5683).2.transactions_memb_mem
      0).retrans_counter = 0 ∧
    coap_get_transaction_by_mid (coap_new_transaction (fixed_config 1) started_state 7 1 5683).2
      7 = some 0 :=
  have h := C14_new_initialises_and_registers (fixed_config 1) started_state 7 1 5683 0
    (by decide)
  ⟨by decide, h.2.2.2.1, h.2.2.2.2.2 (by decide)⟩

/-! ## The estimator table -/

theorem clear_rtt_list (cfg : Config) (s : State) (t : Nat) :
    (coap_clear_transaction cfg s (some t)).rtt_estimations_list =
      if cfg.COCOA then
        coap_clear_transaction_rtt cfg s.clock (s.transactions_memb_mem t)
          s.rtt_estimations_list
      else s.rtt_estimations_list := by
  rw [clear_some_eq]

theorem clear_rtt_unfold (cfg : Config) (now : Nat) (tr : coap_transaction_t)
    (list : List coap_rtt_estimations_t) :
    coap_clear_transaction_rtt cfg now tr list =
      if tr.retrans_counter < cfg.COAP_MAX_RETRANSMIT then
        if COAP_TYPE_CON == coap_header_type tr.packet then
          match rtt_estimations_record tr.addr (rtt_sample cfg now tr) now list with
          | some l => l
          | none =>
            if list.length < cfg.COAP_MAX_RTT_ESTIMATIONS then
              list ++
                [{ addr := tr.addr, rtt := rtt_sample cfg now tr, rttvar := 0, srtt := 0,
                   lastupdated := now }]
            else list
        else list
      else list := rfl

theorem record_none_iff (addr rtt now : Nat) (l : List coap_rtt_estimations_t) :
    rtt_estimations_record addr rtt now l = none ↔ ∀ e, e ∈ l → e.addr ≠ addr := by
  induction l with
  | nil => simp [rtt_estimations_record]
  | cons x xs ih =>
    unfold rtt_estimations_record
    by_cases hx : x.addr = addr
    · simp [hx]
    · simp [hx, ih]

theorem record_some (addr rtt now : Nat) :
    ∀ (l l' : List coap_rtt_estimations_t), rtt_estimations_record addr rtt now l = some l' →
      l'.map (fun e => e.addr) = l.map (fun e => e.addr) ∧
      ∃ e, rtt_entry_of addr l' = some e ∧ e.rtt = rtt ∧ e.lastupdated = now := by
  intro l
  induction l with
  | nil => intro l' h; simp [rtt_estimations_record] at h
  | cons x xs ih =>
    intro l' h
    unfold rtt_estimations_record at h
    by_cases hx : x.addr = addr
    · rw [if_pos hx] at h
      simp only [Option.some.injEq] at h
      subst h
      exact ⟨by simp, { x with rtt := rtt, lastupdated := now },
        by simp [rtt_entry_of, List.find?_cons, hx], rfl, rfl⟩
    · rw [if_neg hx] at h
      cases hr : rtt_estimations_record addr rtt now xs with
      | none => rw [hr] at h; simp at h
      | some l2 =>
        rw [hr] at h
        simp only [Option.map_some', Option.some.injEq] at h
        subst h
        obtain ⟨hmap, e, he, h1, h2⟩ := ih l2 hr
        refine ⟨by simp [hmap], e, ?_, h1, h2⟩
        simpa [rtt_entry_of, List.find?_cons, hx] using he

theorem entry_of_append_new (l : List coap_rtt_estimations_t) (e : coap_rtt_estimations_t)
    (h : ∀ x, x ∈ l → x.addr ≠ e.addr) : rtt_entry_of e.addr (l ++ [e]) = some e := by
  unfold rtt_entry_of
  rw [List.find?_append]
  have : l.find? (fun x => x.addr == e.addr) = none := by
    rw [List.find?_eq_none]
    intro x hx
    simpa using h x hx
  rw [this]
  simp [List.find?_cons]

/-- A completion that qualifies (COCOA build, confirmable, count below the
limit) with an entry for the peer or room for one leaves an entry of the peer
that holds the sample and the time of the completion. -/
theorem clear_feeds_sample (cfg : Config) (s : State) (t : Nat)
    (hcocoa : cfg.COCOA = true)
    (hcon : (COAP_TYPE_CON == coap_header_type (s.transactions_memb_mem t).packet) = true)
    (hlt : (s.transactions_memb_mem t).retrans_counter < cfg.COAP_MAX_RETRANSMIT)
    (hroom : (∃ e, e ∈ s.rtt_estimations_list ∧ e.addr = (s.transactions_memb_mem t).addr) ∨
      s.rtt_estimations_list.length < cfg.COAP_MAX_RTT_ESTIMATIONS) :
    ∃ e, rtt_entry_of (s.transactions_memb_mem t).addr
        (coap_clear_transaction cfg s (some t)).rtt_estimations_list = some e ∧
      e.rtt = rtt_sample cfg s.clock (s.transactions_memb_mem t) ∧ e.lastupdated = s.clock := by
  rw [clear_rtt_list, if_pos hcocoa, clear_rtt_unfold, if_pos hlt, if_pos hcon]
  cases hr : rtt_estimations_record (s.transactions_memb_mem t).addr
      (rtt_sample cfg s.clock (s.transactions_memb_mem t)) s.clock s.rtt_estimations_list with
  | some l => exact (record_some _ _ _ _ l hr).2
  | none =>
    have hno := (record_none_iff _ _ _ _).mp hr
    have hlen : s.rtt_estimations_list.length < cfg.COAP_MAX_RTT_ESTIMATIONS := by
      rcases hroom with ⟨e, he, hea⟩ | h
      · exact absurd hea (hno e he)
      · exact h
    simp only [if_pos hlen]
    have hnew := entry_of_append_new s.rtt_estimations_list
      { addr := (s.transactions_memb_mem t).addr,
        rtt := rtt_sample cfg s.clock (s.transactions_memb_mem t),
        rttvar := 0, srtt := 0, lastupdated := s.clock } hno
    exact ⟨_, hnew, rfl, rfl⟩

/-- A completion that does not qualify leaves the estimator table as it is. -/
theorem clear_keeps_table (cfg : Config) (s : State) (t : Nat)
    (h : cfg.COCOA = false ∨
      (COAP_TYPE_CON == coap_header_type (s.transactions_memb_mem t).packet) = false ∨
      cfg.COAP_MAX_RETRANSMIT ≤ (s.transactions_memb_mem t).retrans_counter) :
    (coap_clear_transaction cfg s (some t)).rtt_estimations_list = s.rtt_estimations_list := by
  rw [clear_rtt_list, clear_rtt_unfold]
  rcases h with h | h | h
  · simp [h]
  · simp [h]
  · simp [Nat.not_lt.mpr h]

/-- C15, amended. In a COCOA build `coap_clear_transaction(t)` feeds a sample
to the estimator table only when the message of `t` is confirmable and the
retransmit count of `t` is below `COAP_MAX_RETRANSMIT`: otherwise the table is
left as it is; and in that case, with an entry for the peer or room for one,
the entry of the peer afterwards holds the sample and the time of the
completion. -/
theorem C15_sample_fed_below_retransmit_limit (cfg : Config) (s : State) (t : Nat)
    (hcocoa : cfg.COCOA = true) :
    (coap_header_type (s.transactions_memb_mem t).packet ≠ COAP_TYPE_CON ∨
        cfg.COAP_MAX_RETRANSMIT ≤ (s.transactions_memb_mem t).retrans_counter →
      (coap_clear_transaction cfg s (some t)).rtt_estimations_list = s.rtt_estimations_list) ∧
    (coap_header_type (s.transactions_memb_mem t).packet = COAP_TYPE_CON →
      (s.transactions_memb_mem t).retrans_counter < cfg.COAP_MAX_RETRANSMIT →
      ((∃ e, e ∈ s.rtt_estimations_list ∧ e.addr = (s.transactions_memb_mem t).addr) ∨
        s.rtt_estimations_list.length < cfg.COAP_MAX_RTT_ESTIMATIONS) →
      ∃ e, rtt_entry_of (s.transactions_memb_mem t).addr
          (coap_clear_transaction cfg s (some t)).rtt_estimations_list = some e ∧
        e.rtt = rtt_sample cfg s.clock (s.transactions_memb_mem t) ∧
        e.lastupdated = s.clock) := by
  constructor
  · intro h
    apply clear_keeps_table
    rcases h with h | h
    · exact Or.inr (Or.inl (by rw [beq_eq_false_iff_ne]; exact fun e => h e.symm))
    · exact Or.inr (Or.inr h)
  · intro hcon hlt hroom
    exact clear_feeds_sample cfg s t hcocoa (by rw [hcon]; rfl) hlt hroom

/-- C15 at `five_ticks_later_state`: the completion of the confirmable
transaction in slot 0, with count 0, leaves an entry for peer 1. -/
theorem C15_sample_fed_witness :
    (cocoa_config 2).COCOA = true ∧
    ∃ e, rtt_entry_of 1
        (coap_clear_transaction (cocoa_config 2) five_ticks_later_state
          (some 0)).rtt_estimations_list = some e ∧
      e.lastupdated = 5 :=
  match (C15_sample_fed_below_retransmit_limit (cocoa_config 2) five_ticks_later_state 0
    rfl).2 (by decide) (by decide) (Or.inr (by decide)) with
  | ⟨e, he, _, htime⟩ => ⟨rfl, e, he, htime⟩

/-- C15 as stated fails: in `retransmitted_once_state` the confirmable
transaction in slot 0 has been retransmitted once (count 1) and the estimator
table is empty; its completion inserts an entry for peer 1 with the sample 300,
so the table is not left unchanged. -/
theorem C15_counterexample :
    retransmitted_once_state.map (fun s =>
      ((s.transactions_memb_mem 0).retrans_counter,
        decide (coap_header_type (s.transactions_memb_mem 0).packet = COAP_TYPE_CON),
        s.rtt_estimations_list,
        (coap_clear_transaction (cocoa_config 2) s (some 0)).rtt_estimations_list)) =
      some (1, true, [],
        [{ addr := 1, rtt := 300, rttvar := 0, srtt := 0, lastupdated := 300 }]) := by
  decide

theorem rtt_sample_eq_max (cfg : Config) (now : Nat) (tr : coap_transaction_t) :
    rtt_sample cfg now tr = max (rtt_difference cfg now tr) cfg.CLOCK_SECOND := by
  unfold rtt_sample
  split_ifs with h
  · exact (max_eq_right (Nat.le_of_lt h)).symm
  · exact (max_eq_left (Nat.le_of_not_lt h)).symm

theorem rtt_difference_eq_sub (cfg : Config) (now : Nat) (tr : coap_transaction_t)
    (h1 : tr.timestamp ≤ now) (h2 : now < 2 ^ cfg.clock_time_bits) :
    rtt_difference cfg now tr = now - tr.timestamp := by
  unfold rtt_difference
  have hts : tr.timestamp % 2 ^ cfg.clock_time_bits = tr.timestamp :=
    Nat.mod_eq_of_lt (by omega)
  rw [hts]
  have : now + 2 ^ cfg.clock_time_bits - tr.timestamp =
      (now - tr.timestamp) + 2 ^ cfg.clock_time_bits := by omega
  rw [this, Nat.add_mod_right]
  exact Nat.mod_eq_of_lt (by omega)

/-- C16, amended. In a COCOA build, for every completion that feeds the
estimator (confirmable, count below `COAP_MAX_RETRANSMIT`, an entry for the
peer or room for one), the sample stored as the last RTT of the peer is the
larger of `now - timestamp` (in the arithmetic of `clock_time_t`) and
`CLOCK_SECOND`, the ticks of one second: the difference itself when it is at
least `CLOCK_SECOND`, and `CLOCK_SECOND` otherwise. -/
theorem C16_sample_is_at_least_one_second (cfg : Config) (s : State) (t : Nat)
    (hcocoa : cfg.COCOA = true)
    (hcon : coap_header_type (s.transactions_memb_mem t).packet = COAP_TYPE_CON)
    (hlt : (s.transactions_memb_mem t).retrans_counter < cfg.COAP_MAX_RETRANSMIT)
    (hroom : (∃ e, e ∈ s.rtt_estimations_list ∧ e.addr = (s.transactions_memb_mem t).addr) ∨
      s.rtt_estimations_list.length < cfg.COAP_MAX_RTT_ESTIMATIONS) :
    (∃ e, rtt_entry_of (s.transactions_memb_mem t).addr
        (coap_clear_transaction cfg s (some t)).rtt_estimations_list = some e ∧
      e.rtt = max (rtt_difference cfg s.clock (s.transactions_memb_mem t)) cfg.CLOCK_SECOND) ∧
    ((s.transactions_memb_mem t).timestamp ≤ s.clock → s.clock < 2 ^ cfg.clock_time_bits →
      rtt_difference cfg s.clock (s.transactions_memb_mem t) =
        s.clock - (s.transactions_memb_mem t).timestamp) := by
  obtain ⟨e, he, hrtt, _⟩ := clear_feeds_sample cfg s t hcocoa (by rw [hcon]; rfl) hlt hroom
  exact ⟨⟨e, he, by rw [hrtt, rtt_sample_eq_max]⟩, rtt_difference_eq_sub cfg _ _⟩

/-- C16 at `five_ticks_later_state`: five ticks after the send the stored
sample is `max 5 128`. -/
theorem C16_sample_witness :
    (cocoa_config 2).COCOA = true ∧
    ∃ e, rtt_entry_of 1
        (coap_clear_transaction (cocoa_config 2) five_ticks_later_state
          (some 0)).rtt_estimations_list = some e ∧
      e.rtt = max 5 128 :=
  match (C16_sample_is_at_least_one_second (cocoa_config 2) five_ticks_later_state 0
    rfl (by decide) (by decide) (Or.inr (by decide))).1 with
  | ⟨e, he, hrtt⟩ => ⟨rfl, e, he, hrtt.trans (by decide)⟩

/-- C16 as stated fails: in `five_ticks_later_state` the transaction in slot 0
is confirmable with count 0 and was sent at tick 0; at tick 5 the difference
`now - timestamp` is 5, at least one tick, but the sample stored for peer 1 is
128 (`CLOCK_SECOND`), not 5. -/
theorem C16_counterexample :
    (five_ticks_later_state.transactions_memb_mem 0).retrans_counter = 0 ∧
    coap_header_type (five_ticks_later_state.transactions_memb_mem 0).packet = COAP_TYPE_CON ∧
    five_ticks_later_state.clock - (five_ticks_later_state.transactions_memb_mem 0).timestamp
      = 5 ∧
    (cocoa_config 2).CLOCK_SECOND = 128 ∧
    (coap_clear_transaction (cocoa_config 2) five_ticks_later_state
      (some 0)).rtt_estimations_list =
      [{ addr := 1, rtt := 128, rttvar := 0, srtt := 0, lastupdated := 5 }] := by
  decide

/-! ## The first interval of a COCOA build -/

theorem check_rtt_none_iff (addr : Nat) (l : List coap_rtt_estimations_t) :
    coap_check_rtt_estimation addr l = none ↔ rtt_entry_of addr l = none := by
  induction l with
  | nil => simp [coap_check_rtt_estimation, rtt_entry_of]
  | cons x xs ih =>
    unfold coap_check_rtt_estimation rtt_entry_of
    by_cases hx : x.addr = addr
    · simp [hx, List.find?_cons]
    · simp only [if_neg hx, List.find?_cons, beq_eq_false_iff_ne.mpr hx]
      rw [Option.map_eq_none', ih]
      rfl

theorem check_rtt_some (addr : Nat) (d : coap_rtt_estimations_t) :
    ∀ (l : List coap_rtt_estimations_t) (i : Nat), coap_check_rtt_estimation addr l = some i →
      rtt_entry_of addr l = some (l.getD i d) := by
  intro l
  induction l with
  | nil => intro i h; simp [coap_check_rtt_estimation] at h
  | cons x xs ih =>
    intro i h
    unfold coap_check_rtt_estimation at h
    by_cases hx : x.addr = addr
    · rw [if_pos hx] at h
      simp only [Option.some.injEq] at h
      subst h
      simp [rtt_entry_of, List.find?_cons, hx]
    · rw [if_neg hx] at h
      cases hr : coap_check_rtt_estimation addr xs with
      | none => rw [hr] at h; simp at h
      | some j =>
        rw [hr] at h
        simp only [Option.map_some', Option.some.injEq] at h
        subst h
        have := ih j hr
        simp only [rtt_entry_of, List.find?_cons, beq_eq_false_iff_ne.mpr hx] at this ⊢
        simpa using this

theorem rto_clamp_bounds (cfg : Config) (rto : Nat) :
    cfg.CLOCK_SECOND ≤ rto_clamp cfg rto ∧ rto_clamp cfg rto ≤ 60 * cfg.CLOCK_SECOND := by
  unfold rto_clamp
  split_ifs <;> omega

/-- The value of `t->rto` that the COCOA computation leaves: the clamped result
of the estimator helper for the entry of the peer, or the bootstrap constant
when the peer has no entry. -/
theorem send_rto_value (cfg : Config) (addr : Nat) (l : List coap_rtt_estimations_t) :
    (coap_send_transaction_rto cfg addr l).1 =
      match rtt_entry_of addr l with
      | some e => rto_clamp cfg ((cfg.coap_update_rtt_estimation e).2 % 2 ^ cfg.clock_time_bits)
      | none => cfg.COAP_INITIAL_RTO := by
  unfold coap_send_transaction_rto
  cases hc : coap_check_rtt_estimation addr l with
  | none => rw [(check_rtt_none_iff addr l).mp hc]
  | some i =>
    rw [check_rtt_some addr
      { addr := addr, rtt := 0, rttvar := 0, srtt := 0, lastupdated := 0 } l i hc]
    rfl

/-- C17, amended. In a COCOA build the interval that `coap_send_transaction`
arms on the first attempt of a confirmable transaction is: when the peer has an
estimator entry, the RTO that the estimator returns for it, clamped to
`[CLOCK_SECOND, 60 * CLOCK_SECOND]`; when the peer has none, the bootstrap
default `COAP_INITIAL_RTO` as it is, not clamped. So the interval lies within
the bounds for every peer whenever `COAP_INITIAL_RTO` does. -/
theorem C17_first_interval_adaptive (cfg : Config) (s : State) (t : Nat)
    (hcocoa : cfg.COCOA = true)
    (hcon : coap_header_type (s.transactions_memb_mem t).packet = COAP_TYPE_CON)
    (h0 : (s.transactions_memb_mem t).retrans_counter = 0)
    (hmax : 0 < cfg.COAP_MAX_RETRANSMIT) :
    (∀ e, rtt_entry_of (s.transactions_memb_mem t).addr s.rtt_estimations_list = some e →
      ((coap_send_transaction cfg s t).transactions_memb_mem t).retrans_timer.timer.interval =
        rto_clamp cfg ((cfg.coap_update_rtt_estimation e).2 % 2 ^ cfg.clock_time_bits) ∧
      cfg.CLOCK_SECOND ≤
        ((coap_send_transaction cfg s t).transactions_memb_mem t).retrans_timer.timer.interval ∧
      ((coap_send_transaction cfg s t).transactions_memb_mem t).retrans_timer.timer.interval ≤
        60 * cfg.CLOCK_SECOND) ∧
    (rtt_entry_of (s.transactions_memb_mem t).addr s.rtt_estimations_list = none →
      ((coap_send_transaction cfg s t).transactions_memb_mem t).retrans_timer.timer.interval =
        cfg.COAP_INITIAL_RTO) ∧
    (cfg.CLOCK_SECOND ≤ cfg.COAP_INITIAL_RTO → cfg.COAP_INITIAL_RTO ≤ 60 * cfg.CLOCK_SECOND →
      cfg.CLOCK_SECOND ≤
        ((coap_send_transaction cfg s t).transactions_memb_mem t).retrans_timer.timer.interval ∧
      ((coap_send_transaction cfg s t).transactions_memb_mem t).retrans_timer.timer.interval ≤
        60 * cfg.CLOCK_SECOND) ∧
    (coap_send_transaction cfg s t).trace = s.trace ++
      [Effect.coap_send_message (s.transactions_memb_mem t).addr (s.transactions_memb_mem t).port
          t (s.transactions_memb_mem t).packet (s.transactions_memb_mem t).packet_len,
        Effect.etimer_restart t
          ((coap_send_transaction cfg s t).transactions_memb_mem t).retrans_timer.timer.interval] := by
  obtain ⟨_, _, _, htrace, htimer, _⟩ :=
    send_keep cfg s t (by rw [hcon]; rfl) (by rw [h0]; exact hmax)
  have harm : armed_interval cfg s t =
      match rtt_entry_of (s.transactions_memb_mem t).addr s.rtt_estimations_list with
      | some e => rto_clamp cfg ((cfg.coap_update_rtt_estimation e).2 % 2 ^ cfg.clock_time_bits)
      | none => cfg.COAP_INITIAL_RTO := by
    unfold armed_interval
    rw [if_pos h0, if_pos hcocoa, send_rto_value]
  rw [htimer, htrace]
  refine ⟨?_, ?_, ?_, rfl⟩
  · intro e he
    rw [harm, he]
    exact ⟨rfl, rto_clamp_bounds cfg _⟩
  · intro hnone
    rw [harm, hnone]
  · intro h1 h2
    rw [harm]
    cases rtt_entry_of (s.transactions_memb_mem t).addr s.rtt_estimations_list with
    | none => exact ⟨h1, h2⟩
    | some e => exact rto_clamp_bounds cfg _

/-- C17 as stated fails: in the build `short_rto_config` (`CLOCK_SECOND` 128,
`COAP_INITIAL_RTO` 64) the peer of the confirmable transaction in slot 0 has no
estimator entry, and the first attempt arms the interval 64, below
`CLOCK_SECOND`: the bootstrap default is not clamped. -/
theorem C17_counterexample :
    short_rto_config.COCOA = true ∧
    short_rto_config.CLOCK_SECOND = 128 ∧
    short_rto_awaiting_state.rtt_estimations_list = [] ∧
    (short_rto_awaiting_state.transactions_memb_mem 0).retrans_counter = 0 ∧
    coap_header_type (short_rto_awaiting_state.transactions_memb_mem 0).packet = COAP_TYPE_CON ∧
    (coap_send_transaction short_rto_config short_rto_awaiting_state 0).trace =
      [Effect.coap_send_message 1 5683 0 [0x40, 1, 0, 7] 4, Effect.etimer_restart 0 64] ∧
    ((coap_send_transaction short_rto_config short_rto_awaiting_state
      0).transactions_memb_mem 0).retrans_timer.timer.interval = 64 := by
  decide

/-- C17 at `known_peer_state`: peer 1 has an entry, the estimator helper of
`cocoa_config` returns its last sample 128, and the first attempt arms 128
ticks, within the bounds 128 and 7680. -/
theorem C17_first_interval_witness :
    (cocoa_config 2).COCOA = true ∧
    rtt_entry_of 1 known_peer_state.rtt_estimations_list =
      some { addr := 1, rtt := 128, rttvar := 0, srtt := 0, lastupdated := 5 } ∧
    ((coap_send_transaction (cocoa_config 2) known_peer_state
      0).transactions_memb_mem 0).retrans_timer.timer.interval = 128 ∧
    (cocoa_config 2).CLOCK_SECOND ≤
      ((coap_send_transaction (cocoa_config 2) known_peer_state
        0).transactions_memb_mem 0).retrans_timer.timer.interval ∧
    ((coap_send_transaction (cocoa_config 2) known_peer_state
      0).transactions_memb_mem 0).retrans_timer.timer.interval ≤
        60 * (cocoa_config 2).CLOCK_SECOND :=
  have h := (C17_first_interval_adaptive (cocoa_config 2) known_peer_state 0 rfl (by decide)
    (by decide) (by decide)).1 { addr := 1, rtt := 128, rttvar := 0, srtt := 0, lastupdated := 5 }
    (by decide)
  ⟨rfl, by decide, h.1.trans (by decide), h.2.1, h.2.2⟩

/-! ## The invariant of the estimator table -/

theorem clear_rtt_invariant (cfg : Config) (now : Nat) (tr : coap_transaction_t)
    (l : List coap_rtt_estimations_t)
    (h : (l.map (fun e => e.addr)).Nodup ∧ l.length ≤ cfg.COAP_MAX_RTT_ESTIMATIONS) :
    ((coap_clear_transaction_rtt cfg now tr l).map (fun e => e.addr)).Nodup ∧
    (coap_clear_transaction_rtt cfg now tr l).length ≤ cfg.COAP_MAX_RTT_ESTIMATIONS := by
  rw [clear_rtt_unfold]
  by_cases h1 : tr.retrans_counter < cfg.COAP_MAX_RETRANSMIT
  · rw [if_pos h1]
    by_cases h2 : (COAP_TYPE_CON == coap_header_type tr.packet) = true
    · rw [if_pos h2]
      cases hr : rtt_estimations_record tr.addr (rtt_sample cfg now tr) now l with
      | some l' =>
        have hmap := (record_some _ _ _ l l' hr).1
        have hlen : l'.length = l.length := by
          have := congrArg List.length hmap
          simpa using this
        simp only
        rw [hmap, hlen]
        exact h
      | none =>
        have hno := (record_none_iff _ _ _ _).mp hr
        simp only
        by_cases h3 : l.length < cfg.COAP_MAX_RTT_ESTIMATIONS
        · rw [if_pos h3]
          constructor
          · rw [List.map_append]
            refine List.Nodup.append h.1 (by simp) ?_
            simp only [List.map_cons, List.map_nil, List.disjoint_singleton]
            intro hmem
            obtain ⟨e, he, hea⟩ := List.mem_map.mp hmem
            exact hno e he hea
          · simp only [List.length_append, List.length_singleton]
            omega
        · rw [if_neg h3]
          exact h
    · rw [if_neg h2]
      exact h
  · rw [if_neg h1]
    exact h

theorem clear_table_invariant (cfg : Config) (s : State) (t : Option Nat)
    (h : (s.rtt_estimations_list.map (fun e => e.addr)).Nodup ∧
      s.rtt_estimations_list.length ≤ cfg.COAP_MAX_RTT_ESTIMATIONS) :
    ((coap_clear_transaction cfg s t).rtt_estimations_list.map (fun e => e.addr)).Nodup ∧
    (coap_clear_transaction cfg s t).rtt_estimations_list.length ≤
      cfg.COAP_MAX_RTT_ESTIMATIONS := by
  cases t with
  | none => exact h
  | some t =>
    rw [clear_rtt_list]
    split_ifs
    · exact clear_rtt_invariant cfg _ _ _ h
    · exact h

theorem clear_reach_invariant (cfg : Config) (s : State) (h : ClearReach cfg s) :
    (s.rtt_estimations_list.map (fun e => e.addr)).Nodup ∧
    s.rtt_estimations_list.length ≤ cfg.COAP_MAX_RTT_ESTIMATIONS := by
  induction h with
  | start s h0 => rw [h0]; simp
  | between s s' _ heq ih => rw [heq]; exact ih
  | clear s t _ ih => exact clear_table_invariant cfg s t ih

theorem clear_full_table (cfg : Config) (s : State) (t : Nat)
    (hfull : cfg.COAP_MAX_RTT_ESTIMATIONS ≤ s.rtt_estimations_list.length)
    (hnone : ∀ e, e ∈ s.rtt_estimations_list → e.addr ≠ (s.transactions_memb_mem t).addr) :
    (coap_clear_transaction cfg s (some t)).rtt_estimations_list = s.rtt_estimations_list := by
  rw [clear_rtt_list, clear_rtt_unfold, (record_none_iff _ _ _ _).mpr hnone]
  simp only
  rw [if_neg (Nat.not_lt.mpr hfull)]
  simp

/-- C18. Every state that sequences of `coap_clear_transaction` calls reach
from an empty estimator table has a table in which no two entries have the
same peer address and that holds at most `COAP_MAX_RTT_ESTIMATIONS` entries.
When the table is full and the peer of the completing transaction has no
entry, the call leaves the table as it is (the sample is dropped) and still
takes the transaction off the list and frees its slot. -/
theorem C18_estimator_table_invariant (cfg : Config) :
    (∀ s, ClearReach cfg s →
      (s.rtt_estimations_list.map (fun e => e.addr)).Nodup ∧
      s.rtt_estimations_list.length ≤ cfg.COAP_MAX_RTT_ESTIMATIONS) ∧
    (∀ s t, cfg.COAP_MAX_RTT_ESTIMATIONS ≤ s.rtt_estimations_list.length →
      (∀ e, e ∈ s.rtt_estimations_list → e.addr ≠ (s.transactions_memb_mem t).addr) →
      s.transactions_list.Nodup → t < cfg.COAP_MAX_OPEN_TRANSACTIONS →
      (coap_clear_transaction cfg s (some t)).rtt_estimations_list = s.rtt_estimations_list ∧
      t ∉ (coap_clear_transaction cfg s (some t)).transactions_list ∧
      (coap_clear_transaction cfg s (some t)).transactions_memb_count t = false) := by
  refine ⟨clear_reach_invariant cfg, ?_⟩
  intro s t hfull hnone hnd ht
  refine ⟨clear_full_table cfg s t hfull hnone, ?_, ?_⟩
  · rw [clear_list]; exact hnd.not_mem_erase
  · rw [clear_count]; simp [memb_free, ht]

/-- C18 at `full_table_state`, which two `coap_clear_transaction` calls reach
from an empty table: the table holds entries for the peers 1 and 2 and has
room for two; the completion of the transaction to peer 3 leaves it as
it is, takes the transaction off the list and frees slot 0. -/
theorem C18_full_table_example :
    ClearReach (cocoa_config 2) full_table_state ∧
    full_table_state.rtt_estimations_list.map (fun e => e.addr) = [1, 2] ∧
    (cocoa_config 2).COAP_MAX_RTT_ESTIMATIONS = 2 ∧
    (full_table_state.transactions_memb_mem 0).addr = 3 ∧
    (coap_clear_transaction (cocoa_config 2) full_table_state (some 0)).rtt_estimations_list =
      full_table_state.rtt_estimations_list ∧
    0 ∉ (coap_clear_transaction (cocoa_config 2) full_table_state (some 0)).transactions_list ∧
    (coap_clear_transaction (cocoa_config 2) full_table_state
      (some 0)).transactions_memb_count 0 = false :=
  ⟨ClearReach.between _ _
      (ClearReach.clear _ (some 1)
        (ClearReach.clear _ (some 0) (ClearReach.start two_peers_state (by decide))))
      (by decide),
    by decide, rfl, by decide,
    (C18_estimator_table_invariant (cocoa_config 2)).2 full_table_state 0 (by decide)
      (by decide) (by decide) (by decide)⟩

/-! ## The timeout path -/

theorem new_succeeds_of_free (cfg : Config) (s : State) (mid addr port i : Nat)
    (hi : i < cfg.COAP_MAX_OPEN_TRANSACTIONS) (hfree : s.transactions_memb_count i = false)
    (hpeer : cfg.COCOA = false ∨ countTransactionsForAddress s addr < cfg.NSTART) :
    ∃ t, (coap_new_transaction cfg s mid addr port).1 = some t := by
  unfold coap_new_transaction
  have hguard : ¬ (cfg.COCOA && decide (cfg.NSTART ≤ countTransactionsForAddress s addr)) = true := by
    rcases hpeer with h | h
    · simp [h]
    · simp [h]
  rw [if_neg hguard]
  obtain ⟨t, ht⟩ := memb_alloc_isSome_of_free hi hfree
  exact ⟨t, by rw [ht]⟩

/-- For callees that return at once the function with callees is
`coap_send_transaction`. -/
theorem send_calling_idle (cfg : Config) (s : State) (t : Nat) :
    coap_send_transaction_calling idle_callees cfg s t = coap_send_transaction cfg s t := by
  rfl

/-- C12. `coap_send_transaction` is called for a confirmable transaction `t`
(a slot of the pool, on a well-formed list, no other listed transaction with
its message id) whose retransmit count has reached `COAP_MAX_RETRANSMIT` and
that has the callback `fn` with context `data`. The observer module's hook
leaves the registry, the pool and the trace of this module as they are; the
callback may do anything. Then the call runs, in this order: the datagram; the
hook, once, with the peer address and port of `t`, on the state `s_hook` in
which nothing is released yet (list, pool and slots as at the call); the
release of `t`; the callback `fn(data, NULL)`, whose body runs on the state
`s_cb` and leaves the state the call returns. In `s_cb` the datagram, the hook
and the callback are the calls recorded since the start, the transaction is off
the list, its slot is free, the lookup of its message id returns NULL, and a
`coap_new_transaction` call that the per-peer limit of the COCOA build does not
refuse succeeds; it returns the slot of `t` when the pool was full. -/
theorem C12_release_before_callback (env : Callees) (cfg : Config) (s : State)
    (t fn data : Nat)
    (hcon : coap_header_type (s.transactions_memb_mem t).packet = COAP_TYPE_CON)
    (hmax : cfg.COAP_MAX_RETRANSMIT ≤ (s.transactions_memb_mem t).retrans_counter)
    (hcb : (s.transactions_memb_mem t).callback = some fn)
    (hcbd : (s.transactions_memb_mem t).callback_data = data)
    (hnd : s.transactions_list.Nodup)
    (hslot : t < cfg.COAP_MAX_OPEN_TRANSACTIONS)
    (hothers : ∀ u, u ∈ s.transactions_list → u ≠ t →
      (s.transactions_memb_mem u).mid ≠ (s.transactions_memb_mem t).mid)
    (hhook : ∀ a p s',
      (env.coap_remove_observer_by_client a p s').transactions_list = s'.transactions_list ∧
      (env.coap_remove_observer_by_client a p s').transactions_memb_count =
        s'.transactions_memb_count ∧
      (env.coap_remove_observer_by_client a p s').transactions_memb_mem =
        s'.transactions_memb_mem ∧
      (env.coap_remove_observer_by_client a p s').trace = s'.trace) :
    ∃ s_hook s_cb,
      coap_send_transaction_calling env cfg s t = env.callback fn data none s_cb ∧
      s_cb = emit (coap_clear_transaction cfg
          (env.coap_remove_observer_by_client (s.transactions_memb_mem t).addr
            (s.transactions_memb_mem t).port s_hook) (some t))
        (Effect.callback fn data none) ∧
      s_hook.trace = s.trace ++
        [Effect.coap_send_message (s.transactions_memb_mem t).addr
            (s.transactions_memb_mem t).port t (s.transactions_memb_mem t).packet
            (s.transactions_memb_mem t).packet_len,
          Effect.coap_remove_observer_by_client (s.transactions_memb_mem t).addr
            (s.transactions_memb_mem t).port] ∧
      s_hook.transactions_list = s.transactions_list ∧
      s_hook.transactions_memb_count = s.transactions_memb_count ∧
      s_hook.transactions_memb_mem = s.transactions_memb_mem ∧
      s_cb.trace = s.trace ++
        [Effect.coap_send_message (s.transactions_memb_mem t).addr
            (s.transactions_memb_mem t).port t (s.transactions_memb_mem t).packet
            (s.transactions_memb_mem t).packet_len,
          Effect.coap_remove_observer_by_client (s.transactions_memb_mem t).addr
            (s.transactions_memb_mem t).port,
          Effect.callback fn data none] ∧
      t ∉ s_cb.transactions_list ∧
      s_cb.transactions_memb_count t = false ∧
      coap_get_transaction_by_mid s_cb (s.transactions_memb_mem t).mid = none ∧
      (∀ mid' addr' port',
        cfg.COCOA = false ∨ countTransactionsForAddress s_cb addr' < cfg.NSTART →
        ∃ t', (coap_new_transaction cfg s_cb mid' addr' port').1 = some t') ∧
      (∀ mid' addr' port',
        cfg.COCOA = false ∨ countTransactionsForAddress s_cb addr' < cfg.NSTART →
        (∀ i, i < cfg.COAP_MAX_OPEN_TRANSACTIONS → s.transactions_memb_count i = true) →
        (coap_new_transaction cfg s_cb mid' addr' port').1 = some t) := by
  have hcon0 : (COAP_TYPE_CON == coap_header_type (s.transactions_memb_mem t).packet) = true := by
    rw [hcon]; rfl
  obtain ⟨hl, hc, hm, ht⟩ := hhook (s.transactions_memb_mem t).addr (s.transactions_memb_mem t).port
    (emit (emit s (Effect.coap_send_message (s.transactions_memb_mem t).addr
      (s.transactions_memb_mem t).port t (s.transactions_memb_mem t).packet
      (s.transactions_memb_mem t).packet_len))
      (Effect.coap_remove_observer_by_client (s.transactions_memb_mem t).addr
        (s.transactions_memb_mem t).port))
  simp only [emit_list, emit_count, emit_mem, emit_trace, List.append_assoc,
    List.singleton_append] at hl hc hm ht
  refine ⟨emit (emit s (Effect.coap_send_message (s.transactions_memb_mem t).addr
      (s.transactions_memb_mem t).port t (s.transactions_memb_mem t).packet
      (s.transactions_memb_mem t).packet_len))
      (Effect.coap_remove_observer_by_client (s.transactions_memb_mem t).addr
        (s.transactions_memb_mem t).port), _, ?_, rfl, by simp, rfl, rfl, rfl, ?_, ?_, ?_, ?_, ?_, ?_⟩
  · unfold coap_send_transaction_calling
    simp only [hcon0, if_true, if_neg (Nat.not_lt.mpr hmax), hcb, hcbd]
  · simp only [emit_trace, clear_trace, ht, List.append_assoc, List.singleton_append,
      List.cons_append, List.nil_append]
  · simp only [clear_list, emit_list, hl]
    exact hnd.not_mem_erase
  · simp [clear_count, memb_free, hslot]
  · unfold coap_get_transaction_by_mid
    rw [List.find?_eq_none]
    intro u hu
    simp only [emit_list, clear_list, hl] at hu
    have hne : u ≠ t := fun e => hnd.not_mem_erase (e ▸ hu)
    simp only [emit_mem, clear_mem_other _ _ _ _ hne, hm]
    simpa using hothers u (List.mem_of_mem_erase hu) hne
  · intro mid' addr' port' hpeer
    exact new_succeeds_of_free cfg _ mid' addr' port' t hslot
      (by simp [clear_count, memb_free, hslot]) hpeer
  · intro mid' addr' port' hpeer hfull
    unfold coap_new_transaction
    rw [if_neg (by rcases hpeer with h | h <;> simp [h])]
    simp only [emit_count, clear_count, hc]
    rw [memb_alloc_after_free _ _ t hslot hfull]

/-- C12 at `exhausted_state`, with an application that issues its next request
from within the callback. The call records the datagram, the observer hook for
peer 1 and port 5683 and the callback 42 with context 99 and a NULL response;
the request issued from within the callback (message id 9) gets slot 0, the
slot of the transaction that timed out, which was therefore free when the
callback ran. -/
theorem C12_release_witness :
    (exhausted_state.transactions_memb_mem 0).retrans_counter = 4 ∧
    exhausted_state.transactions_list = [0] ∧
    (coap_send_transaction_calling (reissuing_callees (fixed_config 2)) (fixed_config 2)
        exhausted_state 0).trace =
      exhausted_state.trace ++
        [Effect.coap_send_message 1 5683 0 [0x40, 1, 0, 7] 4,
          Effect.coap_remove_observer_by_client 1 5683, Effect.callback 42 99 none] ∧
    (coap_send_transaction_calling (reissuing_callees (fixed_config 2)) (fixed_config 2)
        exhausted_state 0).transactions_list = [0] ∧
    ((coap_send_transaction_calling (reissuing_callees (fixed_config 2)) (fixed_config 2)
        exhausted_state 0).transactions_memb_mem 0).mid = 9 ∧
    ∃ s_cb, coap_send_transaction_calling (reissuing_callees (fixed_config 2)) (fixed_config 2)
          exhausted_state 0 = (coap_new_transaction (fixed_config 2) s_cb 9 3 5683).2 ∧
      0 ∉ s_cb.transactions_list ∧ s_cb.transactions_memb_count 0 = false ∧
      coap_get_transaction_by_mid s_cb 7 = none ∧
      (coap_new_transaction (fixed_config 2) s_cb 9 3 5683).1 = some 0 :=
  match C12_release_before_callback (reissuing_callees (fixed_config 2)) (fixed_config 2)
    exhausted_state 0 42 99 (by decide) (by decide) (by decide) (by decide) (by decide)
    (by decide) (by decide) (fun _ _ _ => ⟨rfl, rfl, rfl, rfl⟩) with
  | ⟨_, s_cb, hsend, _, _, _, _, _, _, hlist, hfree, hlookup, _, _⟩ =>
    ⟨by decide, by decide, by decide, by decide, by decide, s_cb, hsend, hlist, hfree, hlookup,
      by
        rw [new_fixed (fixed_config 2) rfl]
        have h0 : memb_alloc (fixed_config 2).COAP_MAX_OPEN_TRANSACTIONS
            s_cb.transactions_memb_count = some 0 := by
          unfold memb_alloc
          rw [List.find?_range_eq_some]
          exact ⟨by simp [hfree], by decide, fun j hj => absurd hj (Nat.not_lt_zero j)⟩
        rw [h0]⟩

/-! ## The time of the timeout -/

theorem pending_clock_advance (cfg : Config) (s : State) (t mid fn data k d : Nat)
    (base : List Effect) (h : Pending s t mid fn data k base) :
    Pending (clock_advance cfg s d) t mid fn data k base :=
  ⟨h.nodup, h.listed, h.confirmable, h.counter, h.callback, h.callback_data, h.mid_eq,
    h.others, h.callbacks⟩

/-- One more expiry below the limit doubles the interval of the timer. -/
theorem pending_step_interval (cfg : Config) (s : State) (t mid fn data k : Nat)
    (base : List Effect) (h : Pending s t mid fn data k base)
    (hk : k + 1 < cfg.COAP_MAX_RETRANSMIT) :
    ∃ s', expire_and_poll cfg t s = some s' ∧ Pending s' t mid fn data (k + 1) base ∧
      (s'.transactions_memb_mem t).retrans_timer.timer.interval =
        ((s.transactions_memb_mem t).retrans_timer.timer.interval <<< 1)
          % 2 ^ cfg.clock_time_bits := by
  obtain ⟨s', hs', hp⟩ := pending_step cfg s t mid fn data k base h hk
  refine ⟨s', hs', hp, ?_⟩
  have heq := expire_poll_eq cfg s t h.nodup h.listed (fun u hu hne => (h.others u hu hne).1)
  rw [heq] at hs'
  simp only [Option.some.injEq] at hs'
  subst hs'
  have hm := expired_and_counted_mem_same s t
  obtain ⟨_, _, _, _, htimer, _⟩ := send_keep cfg (expired_and_counted s t) t
    (by rw [hm]; exact h.confirmable) (by rw [hm]; simp only; rw [h.counter]; exact hk)
  rw [htimer]
  unfold armed_interval
  rw [if_neg (by rw [hm]; simp), hm]
  rfl

theorem shift_no_overflow (i k m w : Nat) (hk : k + 1 ≤ m) (hfit : i * 2 ^ m < 2 ^ w) :
    ((i * 2 ^ k) <<< 1) % 2 ^ w = i * 2 ^ (k + 1) := by
  rw [Nat.shiftLeft_eq, pow_one, Nat.mul_assoc, ← pow_succ]
  apply Nat.mod_eq_of_lt
  calc i * 2 ^ (k + 1) ≤ i * 2 ^ m :=
        Nat.mul_le_mul_left _ (Nat.pow_le_pow_right (by decide) hk)
    _ < 2 ^ w := hfit

theorem elapsed_sum (i k : Nat) : i * (2 ^ k - 1) + i * 2 ^ k = i * (2 ^ (k + 1) - 1) := by
  have h1 : 1 ≤ 2 ^ k := Nat.one_le_two_pow
  rw [← Nat.mul_add, pow_succ]
  congr 1
  omega

/-- After `k` timed polls below the limit the transaction is pending with
count `k`, its timer holds `2 ^ k` times the first interval, and the time
elapsed is the sum of the intervals armed so far. -/
theorem timed_pending_after (cfg : Config) (s : State) (t mid fn data : Nat)
    (base : List Effect) (h : Pending s t mid fn data 0 base)
    (hfit : first_interval cfg s t * 2 ^ (cfg.COAP_MAX_RETRANSMIT - 1) <
      2 ^ cfg.clock_time_bits) :
    ∀ k, k < cfg.COAP_MAX_RETRANSMIT →
      ∃ sk, timed_poll_n cfg t k (coap_send_transaction cfg s t, 0) =
          some (sk, first_interval cfg s t * (2 ^ k - 1)) ∧
        Pending sk t mid fn data k base ∧
        (sk.transactions_memb_mem t).retrans_timer.timer.interval =
          first_interval cfg s t * 2 ^ k := by
  intro k
  induction k with
  | zero =>
    intro hk
    exact ⟨_, by simp [timed_poll_n], pending_first cfg s t mid fn data base h hk,
      by simp [first_interval]⟩
  | succ k ih =>
    intro hk
    obtain ⟨sk, hsk, hp, hint⟩ := ih (by omega)
    obtain ⟨s', hs', hp', hint'⟩ := pending_step_interval cfg
      (clock_advance cfg sk (sk.transactions_memb_mem t).retrans_timer.timer.interval)
      t mid fn data k base (pending_clock_advance cfg sk t mid fn data k _ base hp) hk
    refine ⟨s', ?_, hp', ?_⟩
    · simp only [timed_poll_n, hsk, Option.some_bind, timed_poll, hs', Option.map_some']
      rw [hint, elapsed_sum]
    · rw [hint']
      have : ((clock_advance cfg sk
          (sk.transactions_memb_mem t).retrans_timer.timer.interval).transactions_memb_mem
            t).retrans_timer.timer.interval =
          (sk.transactions_memb_mem t).retrans_timer.timer.interval := rfl
      rw [this, hint]
      exact shift_no_overflow _ k (cfg.COAP_MAX_RETRANSMIT - 1) _ (by omega) hfit

/-- The time of the timeout of a transaction that is the only one due. A
confirmable transaction (pending with count 0 and the callback `fn` with
context `data`, no other listed transaction with an expired timer) is sent and
never completed, and its timer is polled exactly at each expiry. When the
intervals fit `clock_time_t` (the first interval I times `2 ^
(COAP_MAX_RETRANSMIT - 1)` is below `2 ^ clock_time_bits`): after `k` polls,
`k` below `COAP_MAX_RETRANSMIT`, the time elapsed since the first send is `I *
(2 ^ k - 1)`, the timer is armed with `I * 2 ^ k` and no callback has been
invoked; the poll at which the callback is invoked, once and with a NULL
response, is the one at the elapsed time `I * (2 ^ COAP_MAX_RETRANSMIT - 1)`,
the sum `I + 2 I + ...` of the armed intervals. -/
theorem X4_callback_at_sum_when_no_other_is_due (cfg : Config) (s : State) (t mid fn data : Nat)
    (h : Pending s t mid fn data 0 (s.trace.filter is_callback))
    (hfit : first_interval cfg s t * 2 ^ (cfg.COAP_MAX_RETRANSMIT - 1) <
      2 ^ cfg.clock_time_bits) :
    (∀ k, k < cfg.COAP_MAX_RETRANSMIT →
      ∃ sk, timed_poll_n cfg t k (coap_send_transaction cfg s t, 0) =
          some (sk, first_interval cfg s t * (2 ^ k - 1)) ∧
        sk.trace.filter is_callback = s.trace.filter is_callback ∧
        (sk.transactions_memb_mem t).retrans_timer.timer.interval =
          first_interval cfg s t * 2 ^ k) ∧
    (∃ sM, timed_poll_n cfg t cfg.COAP_MAX_RETRANSMIT (coap_send_transaction cfg s t, 0) =
        some (sM, first_interval cfg s t * (2 ^ cfg.COAP_MAX_RETRANSMIT - 1)) ∧
      sM.trace.filter is_callback =
        s.trace.filter is_callback ++ [Effect.callback fn data none]) := by
  constructor
  · intro k hk
    obtain ⟨sk, hsk, hp, hint⟩ := timed_pending_after cfg s t mid fn data _ h hfit k hk
    exact ⟨sk, hsk, hp.callbacks, hint⟩
  · cases hM : cfg.COAP_MAX_RETRANSMIT with
    | zero =>
      refine ⟨coap_send_transaction cfg s t, by simp [timed_poll_n], ?_⟩
      exact (send_last cfg s t mid fn data h.nodup h.confirmable
        (by rw [h.counter, hM]; omega) h.callback h.callback_data
        (fun u hu hne => (h.others u hu hne).2)).1
    | succ m =>
      obtain ⟨sm, hsm, hp, hint⟩ := timed_pending_after cfg s t mid fn data _ h hfit m (by omega)
      obtain ⟨s', hs', hres, _⟩ := pending_last cfg
        (clock_advance cfg sm (sm.transactions_memb_mem t).retrans_timer.timer.interval)
        t mid fn data m _ (pending_clock_advance cfg sm t mid fn data m _ _ hp) (by omega)
      refine ⟨s', ?_, hres⟩
      simp only [timed_poll_n, hsm, Option.some_bind, timed_poll, hs', Option.map_some']
      rw [hint, elapsed_sum]

/-- The scenario of the specification with one transaction: four
retransmissions and a first interval of two seconds (256 ticks of the 128 Hz
clock); the callback is invoked at the poll 30 seconds (3840 ticks) after the
first send. -/
theorem X4_callback_time_witness :
    first_interval (fixed_config 2) awaiting_send_state 0 = 2 * (fixed_config 2).CLOCK_SECOND ∧
    (fixed_config 2).COAP_MAX_RETRANSMIT = 4 ∧
    ∃ sM, timed_poll_n (fixed_config 2) 0 4
        (coap_send_transaction (fixed_config 2) awaiting_send_state 0, 0) =
        some (sM, 30 * (fixed_config 2).CLOCK_SECOND) ∧
      sM.trace.filter is_callback =
        awaiting_send_state.trace.filter is_callback ++ [Effect.callback 42 99 none] :=
  match (X4_callback_at_sum_when_no_other_is_due (fixed_config 2) awaiting_send_state 0 7 42 99
    ⟨by decide, by decide, by decide, by decide, by decide, by decide, by decide,
      by decide, rfl⟩ (by decide)).2 with
  | ⟨sM, hrun, hcb⟩ =>
    ⟨by decide, rfl, sM,
      hrun.trans (congrArg (fun n => some (sM, n)) (by decide)), hcb⟩

/-! ## The invariants of the reachable states -/

theorem pool_congr (cfg : Config) (s s' : State)
    (hl : s'.transactions_list = s.transactions_list)
    (hc : s'.transactions_memb_count = s.transactions_memb_count) (h : PoolInv cfg s) :
    PoolInv cfg s' :=
  ⟨by rw [hl]; exact h.nodup, by rw [hl, hc]; exact h.used, by rw [hl, hc]; exact h.listed⟩

theorem pool_clear (cfg : Config) (s : State) (t : Option Nat) (h : PoolInv cfg s) :
    PoolInv cfg (coap_clear_transaction cfg s t) := by
  cases t with
  | none => exact h
  | some t =>
    refine ⟨?_, ?_, ?_⟩
    · rw [clear_list]; exact h.nodup.erase t
    · intro v hv
      rw [clear_list] at hv
      have hvl := List.mem_of_mem_erase hv
      have hne : v ≠ t := fun e => h.nodup.not_mem_erase (e ▸ hv)
      refine ⟨?_, (h.used v hvl).2⟩
      rw [clear_count]
      unfold memb_free
      split_ifs
      · rw [Function.update_noteq hne]; exact (h.used v hvl).1
      · exact (h.used v hvl).1
    · intro i hi hused
      rw [clear_count] at hused
      rw [clear_list]
      unfold memb_free at hused
      by_cases ht : t < cfg.COAP_MAX_OPEN_TRANSACTIONS
      · rw [if_pos ht] at hused
        have hne : i ≠ t := by
          intro e
          subst e
          simp at hused
        rw [Function.update_noteq hne] at hused
        exact (List.mem_erase_of_ne hne).mpr (h.listed i hi hused)
      · rw [if_neg ht] at hused
        have hne : i ≠ t := by omega
        exact (List.mem_erase_of_ne hne).mpr (h.listed i hi hused)

theorem pool_new (cfg : Config) (s : State) (mid addr port : Nat) (h : PoolInv cfg s) :
    PoolInv cfg (coap_new_transaction cfg s mid addr port).2 := by
  cases hres : (coap_new_transaction cfg s mid addr port).1 with
  | none => rw [new_none cfg s mid addr port hres]; exact h
  | some t =>
    obtain ⟨htcap, htfree, hst⟩ := new_some cfg s mid addr port t hres
    rw [hst]
    have htnot : t ∉ s.transactions_list := by
      intro hmem
      have := (h.used t hmem).1
      rw [htfree] at this
      exact Bool.false_ne_true this
    have hl : (coap_new_transaction_at s t mid addr port).transactions_list =
        s.transactions_list ++ [t] := list_add_of_not_mem htnot
    have hc : (coap_new_transaction_at s t mid addr port).transactions_memb_count =
        Function.update s.transactions_memb_count t true := rfl
    refine ⟨?_, ?_, ?_⟩
    · rw [hl]
      exact List.Nodup.append h.nodup (List.nodup_singleton t)
        (by simpa [List.disjoint_singleton] using htnot)
    · intro v hv
      rw [hl] at hv
      rw [hc]
      rcases List.mem_append.mp hv with hv | hv
      · have hne : v ≠ t := fun e => htnot (e ▸ hv)
        rw [Function.update_noteq hne]
        exact h.used v hv
      · simp only [List.mem_singleton] at hv
        subst hv
        exact ⟨by simp, htcap⟩
    · intro i hi hused
      rw [hl]
      rw [hc] at hused
      by_cases hit : i = t
      · subst hit; simp
      · rw [Function.update_noteq hit] at hused
        exact List.mem_append_left _ (h.listed i hi hused)

theorem pool_emit (cfg : Config) (s : State) (e : Effect) (h : PoolInv cfg s) :
    PoolInv cfg (emit s e) :=
  pool_congr cfg s (emit s e) rfl rfl h

theorem pool_modify (cfg : Config) (s : State) (t : Nat)
    (f : coap_transaction_t → coap_transaction_t) (h : PoolInv cfg s) :
    PoolInv cfg (modify_transaction s t f) :=
  pool_congr cfg s (modify_transaction s t f) rfl rfl h

theorem pool_send (cfg : Config) (s : State) (t : Nat) (h : PoolInv cfg s) :
    PoolInv cfg (coap_send_transaction cfg s t) := by
  by_cases hcon : (COAP_TYPE_CON == coap_header_type (s.transactions_memb_mem t).packet) = true
  · by_cases hlt : (s.transactions_memb_mem t).retrans_counter < cfg.COAP_MAX_RETRANSMIT
    · obtain ⟨hl, hc, _⟩ := send_keep cfg s t hcon hlt
      exact pool_congr cfg s _ hl hc h
    · rw [send_exhausted cfg s t hcon hlt]
      split
      · exact pool_emit cfg _ _
          (pool_clear cfg _ (some t) (pool_emit cfg _ _ (pool_emit cfg _ _ h)))
      · exact pool_clear cfg _ (some t) (pool_emit cfg _ _ (pool_emit cfg _ _ h))
  · rw [send_noncon cfg s t (by simpa using hcon)]
    exact pool_clear cfg _ (some t) (pool_emit cfg _ _ h)

theorem pool_body (cfg : Config) (s : State) (u : Nat) (h : PoolInv cfg s) :
    PoolInv cfg (coap_check_transactions_body cfg s u) := by
  unfold coap_check_transactions_body
  split_ifs
  · exact pool_send cfg _ u (pool_modify cfg s u _ h)
  · exact h

theorem pool_check_from (cfg : Config) :
    ∀ (l : List Nat) (s : State), PoolInv cfg s → PoolInv cfg (check_from cfg s l) := by
  intro l
  induction l with
  | nil => intro s h; exact h
  | cons u rest ih =>
    intro s h
    simp only [check_from]
    split_ifs
    · exact ih _ (pool_body cfg s u h)
    · exact pool_body cfg s u h

theorem count_congr (cfg : Config) (s s' : State)
    (hl : s'.transactions_list = s.transactions_list)
    (hm : ∀ t, t ∈ s.transactions_list →
      (s'.transactions_memb_mem t).retrans_counter = (s.transactions_memb_mem t).retrans_counter)
    (h : CountInv cfg s) : CountInv cfg s' := by
  intro t ht
  rw [hl] at ht
  rw [hm t ht]
  exact h t ht

theorem count_clear (cfg : Config) (s : State) (t : Option Nat)
    (hnd : s.transactions_list.Nodup) (h : CountInv cfg s) :
    CountInv cfg (coap_clear_transaction cfg s t) := by
  cases t with
  | none => exact h
  | some t =>
    intro v hv
    rw [clear_list] at hv
    have hne : v ≠ t := fun e => hnd.not_mem_erase (e ▸ hv)
    rw [clear_mem_other _ _ _ _ hne]
    exact h v (List.mem_of_mem_erase hv)

theorem count_new (cfg : Config) (s : State) (mid addr port : Nat) (h : CountInv cfg s) :
    CountInv cfg (coap_new_transaction cfg s mid addr port).2 := by
  cases hres : (coap_new_transaction cfg s mid addr port).1 with
  | none => rw [new_none cfg s mid addr port hres]; exact h
  | some t =>
    rw [(new_some cfg s mid addr port t hres).2.2]
    intro v hv
    by_cases hvt : v = t
    · subst hvt
      right
      simp [coap_new_transaction_at]
    · have hvl : v ∈ s.transactions_list := by
        simp only [coap_new_transaction_at, list_add, list_remove, List.mem_append,
          List.mem_singleton] at hv
        rcases hv with hv | hv
        · exact List.mem_of_mem_erase hv
        · exact absurd hv hvt
      simp only [coap_new_transaction_at, Function.update_noteq hvt]
      exact h v hvl

theorem count_emit (cfg : Config) (s : State) (e : Effect) (h : CountInv cfg s) :
    CountInv cfg (emit s e) :=
  count_congr cfg s (emit s e) rfl (fun _ _ => rfl) h

theorem count_send (cfg : Config) (s : State) (t : Nat) (hnd : s.transactions_list.Nodup)
    (h : CountInv cfg s) : CountInv cfg (coap_send_transaction cfg s t) := by
  by_cases hcon : (COAP_TYPE_CON == coap_header_type (s.transactions_memb_mem t).packet) = true
  · by_cases hlt : (s.transactions_memb_mem t).retrans_counter < cfg.COAP_MAX_RETRANSMIT
    · obtain ⟨hl, _, hother, _, _, hcnt, _⟩ := send_keep cfg s t hcon hlt
      apply count_congr cfg s _ hl _ h
      intro v _
      by_cases hvt : v = t
      · subst hvt; exact hcnt
      · rw [hother v hvt]
    · rw [send_exhausted cfg s t hcon hlt]
      split
      · exact count_emit cfg _ _
          (count_clear cfg _ (some t) hnd (count_emit cfg _ _ (count_emit cfg _ _ h)))
      · exact count_clear cfg _ (some t) hnd (count_emit cfg _ _ (count_emit cfg _ _ h))
  · rw [send_noncon cfg s t (by simpa using hcon)]
    exact count_clear cfg _ (some t) hnd (count_emit cfg _ _ h)

theorem count_body (cfg : Config) (s : State) (u : Nat) (hnd : s.transactions_list.Nodup)
    (h : CountInv cfg s) : CountInv cfg (coap_check_transactions_body cfg s u) := by
  unfold coap_check_transactions_body
  split_ifs with hexp
  · generalize hs2 : modify_transaction s u
      (fun tr => { tr with retrans_counter := tr.retrans_counter + 1 }) = s2
    have hl2 : s2.transactions_list = s.transactions_list := by rw [← hs2]; rfl
    have hm2 : ∀ v, v ≠ u → s2.transactions_memb_mem v = s.transactions_memb_mem v := by
      intro v hv; rw [← hs2]; exact modify_mem_other s u v _ hv
    by_cases hcon : (COAP_TYPE_CON == coap_header_type (s2.transactions_memb_mem u).packet) = true
    · by_cases hlt : (s2.transactions_memb_mem u).retrans_counter < cfg.COAP_MAX_RETRANSMIT
      · obtain ⟨hl, _, hother, _, _, hcnt, _⟩ := send_keep cfg s2 u hcon hlt
        intro v hv
        rw [hl, hl2] at hv
        by_cases hvu : v = u
        · subst hvu
          left
          rw [hcnt]
          exact hlt
        · rw [hother v hvu, hm2 v hvu]
          exact h v hv
      · have hlist : (coap_send_transaction cfg s2 u).transactions_list =
            s.transactions_list.erase u := by
          rw [send_exhausted cfg s2 u hcon hlt]
          split <;> simp only [emit_list, clear_list, hl2]
        have hmem : ∀ v, v ≠ u → (coap_send_transaction cfg s2 u).transactions_memb_mem v =
            s.transactions_memb_mem v := by
          intro v hv
          rw [send_exhausted cfg s2 u hcon hlt]
          split <;> simp only [emit_mem, clear_mem_other _ _ _ _ hv, hm2 v hv]
        intro v hv
        rw [hlist] at hv
        have hne : v ≠ u := fun e => hnd.not_mem_erase (e ▸ hv)
        rw [hmem v hne]
        exact h v (List.mem_of_mem_erase hv)
    · intro v hv
      rw [send_noncon cfg s2 u (by simpa using hcon)] at hv ⊢
      simp only [emit_list, clear_list, hl2] at hv
      have hne : v ≠ u := fun e => hnd.not_mem_erase (e ▸ hv)
      simp only [emit_mem, clear_mem_other _ _ _ _ hne, hm2 v hne]
      exact h v (List.mem_of_mem_erase hv)
  · exact h

theorem count_check_from (cfg : Config) :
    ∀ (l : List Nat) (s : State), s.transactions_list.Nodup → CountInv cfg s →
      CountInv cfg (check_from cfg s l) := by
  intro l
  induction l with
  | nil => intro s _ h; exact h
  | cons u rest ih =>
    intro s hnd h
    simp only [check_from]
    split_ifs
    · exact ih _ (body_nodup cfg s u hnd) (count_body cfg s u hnd h)
    · exact count_body cfg s u hnd h

theorem count_modify (cfg : Config) (s : State) (t : Nat)
    (f : coap_transaction_t → coap_transaction_t)
    (hf : ∀ tr, (f tr).retrans_counter = tr.retrans_counter) (h : CountInv cfg s) :
    CountInv cfg (modify_transaction s t f) := by
  refine count_congr cfg s (modify_transaction s t f) rfl ?_ h
  intro v _
  by_cases hvt : v = t
  · subst hvt; rw [modify_mem_same]; exact hf _
  · rw [modify_mem_other s t v f hvt]

/-- Every operation returns on a state with `PoolInv` and keeps `PoolInv` and
`CountInv`. -/
theorem operate_invariant (cfg : Config) (s : State) (op : Operation)
    (hp : PoolInv cfg s) (hc : CountInv cfg s) :
    ∃ s', operate cfg s op = some s' ∧ PoolInv cfg s' ∧ CountInv cfg s' := by
  cases op with
  | new mid addr port =>
    exact ⟨_, rfl, pool_new cfg s mid addr port hp, count_new cfg s mid addr port hc⟩
  | send t => exact ⟨_, rfl, pool_send cfg s t hp, count_send cfg s t hp.nodup hc⟩
  | check =>
    exact ⟨_, check_eq cfg s hp.nodup, pool_check_from cfg _ s hp,
      count_check_from cfg _ s hp.nodup hc⟩
  | clear t => exact ⟨_, rfl, pool_clear cfg s t hp, count_clear cfg s t hp.nodup hc⟩
  | register =>
    exact ⟨_, rfl, pool_congr cfg s _ rfl rfl hp, count_congr cfg s _ rfl (fun _ _ => rfl) hc⟩
  | set_packet t packet =>
    exact ⟨_, rfl, pool_modify cfg s t _ hp, count_modify cfg s t _ (fun _ => rfl) hc⟩
  | set_callback t fn data =>
    exact ⟨_, rfl, pool_modify cfg s t _ hp, count_modify cfg s t _ (fun _ => rfl) hc⟩
  | expire t =>
    exact ⟨_, rfl, pool_modify cfg s t _ hp, count_modify cfg s t _ (fun _ => rfl) hc⟩
  | advance d =>
    exact ⟨_, rfl, pool_congr cfg s _ rfl rfl hp, count_congr cfg s _ rfl (fun _ _ => rfl) hc⟩
  | run_process p =>
    exact ⟨_, rfl, pool_congr cfg s _ rfl rfl hp, count_congr cfg s _ rfl (fun _ _ => rfl) hc⟩

theorem operate_all_invariant (cfg : Config) :
    ∀ (ops : List Operation) (s : State), PoolInv cfg s → CountInv cfg s →
      ∃ s', operate_all cfg s ops = some s' ∧ PoolInv cfg s' ∧ CountInv cfg s' := by
  intro ops
  induction ops with
  | nil => intro s hp hc; exact ⟨s, rfl, hp, hc⟩
  | cons op ops ih =>
    intro s hp hc
    obtain ⟨s1, h1, hp1, hc1⟩ := operate_invariant cfg s op hp hc
    obtain ⟨s', h', hp', hc'⟩ := ih s1 hp1 hc1
    exact ⟨s', by simp [operate_all, h1, h'], hp', hc'⟩

theorem empty_invariant (cfg : Config) (s0 : State) (hlist : s0.transactions_list = [])
    (hpool : ∀ i, s0.transactions_memb_count i = false) :
    PoolInv cfg s0 ∧ CountInv cfg s0 := by
  refine ⟨⟨by rw [hlist]; simp, by rw [hlist]; simp, ?_⟩, by intro t ht; rw [hlist] at ht; simp at ht⟩
  intro i _ hi
  rw [hpool i] at hi
  exact absurd hi Bool.false_ne_true

theorem length_le_of_nodup_lt (n : Nat) (l : List Nat) (hnd : l.Nodup)
    (h : ∀ t, t ∈ l → t < n) : l.length ≤ n := by
  have hsub : l ⊆ List.range n := fun t ht => List.mem_range.mpr (h t ht)
  have := (List.subperm_of_subset hnd hsub).length_le
  simpa using this

/-- C19. From an empty registry and a free pool, every sequence of
`coap_new_transaction`, `coap_send_transaction`, `coap_check_transactions` and
`coap_clear_transaction` calls (with the writes of the application and the
events of the host around them) returns, and in the state it reaches every
listed transaction, with its timer armed or not, has a retransmit count that
does not exceed `COAP_MAX_RETRANSMIT`; the count is strictly below
`COAP_MAX_RETRANSMIT` when that constant is positive. -/
theorem C19_retransmit_count_bounded (cfg : Config) (s0 : State)
    (hlist : s0.transactions_list = [])
    (hpool : ∀ i, s0.transactions_memb_count i = false)
    (ops : List Operation) :
    ∃ s, operate_all cfg s0 ops = some s ∧
      ∀ t, t ∈ s.transactions_list →
        (s.transactions_memb_mem t).retrans_counter ≤ cfg.COAP_MAX_RETRANSMIT ∧
        (0 < cfg.COAP_MAX_RETRANSMIT →
          (s.transactions_memb_mem t).retrans_counter < cfg.COAP_MAX_RETRANSMIT) := by
  obtain ⟨hp0, hc0⟩ := empty_invariant cfg s0 hlist hpool
  obtain ⟨s, hrun, _, hc⟩ := operate_all_invariant cfg ops s0 hp0 hc0
  refine ⟨s, hrun, ?_⟩
  intro t ht
  rcases hc t ht with h | h
  · exact ⟨Nat.le_of_lt h, fun _ => h⟩
  · exact ⟨by omega, fun hpos => by omega⟩

/-- C20. From an empty registry and a free pool, every sequence of
`coap_new_transaction`, `coap_send_transaction`, `coap_check_transactions` and
`coap_clear_transaction` calls (with the writes of the application and the
events of the host around them) returns, and in the state it reaches the list
holds no element twice, holds exactly the slots of the pool that are allocated
(no freed slot is listed, no allocated slot is missing), and has at most
`COAP_MAX_OPEN_TRANSACTIONS` elements. -/
theorem C20_registry_is_the_allocated_slots (cfg : Config) (s0 : State)
    (hlist : s0.transactions_list = [])
    (hpool : ∀ i, s0.transactions_memb_count i = false)
    (ops : List Operation) :
    ∃ s, operate_all cfg s0 ops = some s ∧
      s.transactions_list.Nodup ∧
      (∀ t, t ∈ s.transactions_list ↔
        t < cfg.COAP_MAX_OPEN_TRANSACTIONS ∧ s.transactions_memb_count t = true) ∧
      s.transactions_list.length ≤ cfg.COAP_MAX_OPEN_TRANSACTIONS := by
  obtain ⟨hp0, hc0⟩ := empty_invariant cfg s0 hlist hpool
  obtain ⟨s, hrun, hp, _⟩ := operate_all_invariant cfg ops s0 hp0 hc0
  refine ⟨s, hrun, hp.nodup, ?_, ?_⟩
  · intro t
    exact ⟨fun ht => ⟨(hp.used t ht).2, (hp.used t ht).1⟩, fun ht => hp.listed t ht.1 ht.2⟩
  · exact length_le_of_nodup_lt _ _ hp.nodup (fun t ht => (hp.used t ht).2)

/-- C19 at `example_operations`: the run returns, and the one transaction left
on the list has a count below the limit of four. -/
theorem C19_retransmit_count_witness :
    started_state.transactions_list = [] ∧
    ∃ s, operate_all (fixed_config 2) started_state example_operations = some s ∧
      s.transactions_list = [0] ∧
      (s.transactions_memb_mem 0).retrans_counter < 4 :=
  match C19_retransmit_count_bounded (fixed_config 2) started_state rfl (fun _ => rfl)
    example_operations with
  | ⟨s, hrun, hcount⟩ =>
    have hl : s.transactions_list = [0] := by
      have h2 : (operate_all (fixed_config 2) started_state example_operations).map
          (fun s => s.transactions_list) = some [0] := by decide
      rw [hrun] at h2
      simpa using h2
    ⟨rfl, s, hrun, hl, (hcount 0 (by rw [hl]; simp)).2 (by decide)⟩

/-- C20 at `example_operations`: the run returns with one listed transaction,
in slot 0, which is the one allocated slot of the two. -/
theorem C20_registry_witness :
    started_state.transactions_list = [] ∧
    ∃ s, operate_all (fixed_config 2) started_state example_operations = some s ∧
      s.transactions_list = [0] ∧
      s.transactions_memb_count 0 = true ∧ s.transactions_memb_count 1 = false :=
  match C20_registry_is_the_allocated_slots (fixed_config 2) started_state rfl (fun _ => rfl)
    example_operations with
  | ⟨s, hrun, _, hiff, _⟩ =>
    have hl : s.transactions_list = [0] := by
      have h2 : (operate_all (fixed_config 2) started_state example_operations).map
          (fun s => s.transactions_list) = some [0] := by decide
      rw [hrun] at h2
      simpa using h2
    ⟨rfl, s, hrun, hl, ((hiff 0).mp (by rw [hl]; simp)).2, by
      cases h1 : s.transactions_memb_count 1 with
      | false => rfl
      | true =>
        have := (hiff 1).mpr ⟨by decide, h1⟩
        rw [hl] at this
        simp at this⟩

end CoapTransactions
